import Mathlib

/-!
Verification of FigmaQML's `FigmaParser` (`src/include/figmaparser.h`).

This file is a shallow embedding of the node-to-markup transpiler: the JSON
data model (Qt's `QJsonValue`/`QJsonObject`/`QJsonArray`), the name
sanitizer, the component registration loop, the geometry/style emitters, the
stroke-strategy selector, the boolean compositor, the instance/component
delta differencer, the mask grouping of children, and the public entry
points `element`/`components`.

Modelling conventions:
* JSON numbers are modelled as `Int`.  Every numeric field exercised by the
  verified properties is integral, and the source's `double` arithmetic is
  exact on such values; `static_cast<int>` becomes `Int.tdiv`-style
  truncation (a no-op on integral values), and the epsilon comparison
  `eq(a,b) := fabs(a-b) < DBL_EPSILON` collapses to equality on integers.
* `QByteArray` output is modelled as `List String`: one list entry per
  `out += ...` statement of the source, holding exactly the appended text
  (including its newline characters).  The produced byte array is the
  concatenation `chunksToString` of the entries.
* Exceptions (`FigmaParser::Exception`) become `Except String`; the mutable
  `m_componentIds` set is threaded as an explicit list; the mutable
  `m_parent` slot is passed as an explicit parameter (it is saved/restored
  around every child traversal in the source).
* The recursive descent is given explicit fuel (structural recursion on a
  `Nat`); the source recursion is bounded by the tree depth, so every fact
  proved here holds for sufficiently large fuel and the fuel hypotheses of
  the theorems are dischargeable at any concrete input.
* The callbacks (`ImageFunc`, `FontFunc`, `NodeFunc`) are function-valued
  parameters; `NodeFunc` composed with `QJsonDocument::fromJson` is
  abstracted as a `FetchResult` (empty / malformed / parsed), since Qt's
  JSON text parser is outside the transpiler core.
* `Q_ASSERT` is a release-mode no-op in the source and is not modelled.
-/

namespace Figma

/-! ## Character and string utilities -/

/-- ASCII `[a-zA-Z]`, the class tested by `validFileName`'s letter check
(code points written out so that the comparisons are plain `Nat` facts). -/
def isAsciiLetter (c : Char) : Bool :=
  (97 ≤ c.toNat && c.toNat ≤ 122) || (65 ≤ c.toNat && c.toNat ≤ 90)

/-- ASCII `[a-zA-Z0-9]`. -/
def isAsciiAlnum (c : Char) : Bool :=
  isAsciiLetter c || (48 ≤ c.toNat && c.toNat ≤ 57)

/-- ASCII `[a-zA-Z0-9_]`, the class kept by the sanitizing regexes. -/
def isAlnumU (c : Char) : Bool :=
  isAsciiAlnum c || c.toNat == 95

/-- ASCII upper-casing, `QChar::toUpper` restricted to the letters that can
occur at position 0 after sanitizing. -/
def asciiUpper (c : Char) : Char :=
  if 97 ≤ c.toNat && c.toNat ≤ 122 then Char.ofNat (c.toNat - 32) else c

/-- Decimal digit character (`0 ≤ d ≤ 9`). -/
def digitChar (d : Nat) : Char := Char.ofNat (48 + d)

/-- Decimal digits of `n`, most significant first; fuelled so that the
recursion is structural (fuel `n+1` always suffices). -/
def natDigitsGo : Nat → Nat → List Char
  | 0, _ => []
  | fuel + 1, n =>
    if n < 10 then [digitChar n]
    else natDigitsGo fuel (n / 10) ++ [digitChar (n % 10)]

/-- Decimal rendering of a natural number (what `QString::number` and
`QString::arg` print for non-negative integers). -/
def natRepr (n : Nat) : String := String.mk (natDigitsGo (n + 1) n)

/-- Decimal rendering of an integer. -/
def intRepr (i : Int) : String :=
  if i < 0 then "-" ++ natRepr i.natAbs else natRepr i.natAbs

/-- Rendering of a JSON number: the source prints doubles with
`QString::number`, which prints integral values without a decimal point. -/
def numStr (n : Int) : String := intRepr n

/-- Two lowercase hex digits of `n ≤ 255` (`QString::arg(v, 2, 16, '0')`). -/
def hexDigit (d : Nat) : Char :=
  if d < 10 then Char.ofNat (48 + d) else Char.ofNat (87 + d)

/-- Two-digit zero-padded lowercase hex. -/
def hex2 (n : Nat) : String := String.mk [hexDigit (n / 16 % 16), hexDigit (n % 16)]

/-- `QString(m_intendent).repeated(n)` with `m_intendent = "    "`. -/
def tabs (n : Nat) : String := String.mk (List.replicate (4 * n) ' ')

/-- Concatenate output chunks into the final byte-array text. -/
def chunksToString (chunks : List String) : String := String.join chunks

/-- Split a character list at a separator character (`QString::split`). -/
def splitOnCharGo (sep : Char) : List Char → List Char → List (List Char)
  | [], acc => [acc.reverse]
  | c :: cs, acc =>
    if c = sep then acc.reverse :: splitOnCharGo sep cs []
    else splitOnCharGo sep cs (c :: acc)

/-- `QString::split(sep)` (keeping empty parts, Qt's default). -/
def splitOnChar (sep : Char) (s : String) : List String :=
  (splitOnCharGo sep s.data []).map String.mk

/-- Replace every occurrence of a character (`QString::replace(QChar, ...)`). -/
def replaceChar (from_ : Char) (to_ : String) (s : String) : String :=
  String.mk (s.data.foldr (fun c acc => if c = from_ then to_.data ++ acc else c :: acc) [])

/-- `String.intercalate` for joining split parts (`QStringList::join`). -/
def joinWith (sep : String) : List String → String
  | [] => ""
  | [s] => s
  | s :: rest => s ++ sep ++ joinWith sep rest

/-- Lexicographic comparison of character lists (Qt string ordering). -/
def charListLe : List Char → List Char → Bool
  | [], _ => true
  | _ :: _, [] => false
  | a :: as, b :: bs =>
    if a = b then charListLe as bs else decide (a < b)

/-- String comparison used to iterate `QJsonObject` keys in sorted order. -/
def strLe (a b : String) : Bool := charListLe a.data b.data

/-- Insertion sort on strings (`QJsonObject::keys` returns sorted keys). -/
def insertSorted (s : String) : List String → List String
  | [] => [s]
  | t :: ts => if strLe s t then s :: t :: ts else t :: insertSorted s ts

/-- Sort a key list (structural, so that concrete runs kernel-reduce). -/
def sortStrings : List String → List String
  | [] => []
  | s :: ss => insertSorted s (sortStrings ss)

/-! ## The JSON data model (`QJsonValue` and friends) -/

/-- JSON values.  `num` is an `Int` (see modelling conventions above);
`obj` is an association list — a `QJsonObject` canonically stores its
entries sorted by key, and the embedding keeps whatever order the literal
supplies, which agrees on the sorted literals used below. -/
inductive Json where
  | null
  | bool (b : Bool)
  | num (n : Int)
  | str (s : String)
  | arr (elems : List Json)
  | obj (fields : List (String × Json))
deriving Repr

mutual

/-- Structural equality of JSON values (`QJsonValue::operator==`). -/
def jsonBeq : Json → Json → Bool
  | .null, .null => true
  | .bool a, .bool b => a == b
  | .num a, .num b => a == b
  | .str a, .str b => a == b
  | .arr a, .arr b => jsonBeqList a b
  | .obj a, .obj b => jsonBeqFields a b
  | _, _ => false

/-- Equality of JSON arrays, element by element. -/
def jsonBeqList : List Json → List Json → Bool
  | [], [] => true
  | a :: as, b :: bs => jsonBeq a b && jsonBeqList as bs
  | _, _ => false

/-- Equality of JSON objects (entry lists; `QJsonObject` entries are
key-sorted, so list equality is map equality on such representations). -/
def jsonBeqFields : List (String × Json) → List (String × Json) → Bool
  | [], [] => true
  | (k1, v1) :: as, (k2, v2) :: bs => k1 == k2 && jsonBeq v1 v2 && jsonBeqFields as bs
  | _, _ => false

end

/-- Fields of an object value (empty for non-objects, as in Qt). -/
def Json.fields : Json → List (String × Json)
  | .obj f => f
  | _ => []

/-- `QJsonValue::toArray` (empty for non-arrays). -/
def Json.toArr : Json → List Json
  | .arr l => l
  | _ => []

/-- `QJsonValue::toString` (empty for non-strings: Qt does not convert). -/
def Json.asStr : Json → String
  | .str s => s
  | _ => ""

/-- `QJsonValue::toDouble` under the integer number model. -/
def Json.toNum : Json → Int
  | .num n => n
  | _ => 0

/-- `QJsonValue::toBool`. -/
def Json.asBool : Json → Bool
  | .bool b => b
  | _ => false

/-- `QJsonValue::isString`. -/
def Json.isStr : Json → Bool
  | .str _ => true
  | _ => false

/-- `obj[key]` on a `QJsonObject` (Undefined/Null for a missing key; the
embedding does not distinguish Undefined from Null, nothing in the
transpiler depends on that distinction). -/
def jGet (j : Json) (k : String) : Json :=
  match j.fields.find? (fun kv => kv.1 == k) with
  | some kv => kv.2
  | none => .null

/-- `QJsonObject::contains`. -/
def jHas (j : Json) (k : String) : Bool :=
  j.fields.any (fun kv => kv.1 == k)

/-- `obj[k].toString()`. -/
def jStr (j : Json) (k : String) : String := (jGet j k).asStr

/-- `obj[k].toDouble()` / `obj[k].toInt()`. -/
def jNum (j : Json) (k : String) : Int := (jGet j k).toNum

/-- `obj[k].toBool()`. -/
def jBool (j : Json) (k : String) : Bool := (jGet j k).asBool

/-- `obj[k].toArray()`. -/
def jArr (j : Json) (k : String) : List Json := (jGet j k).toArr

/-- `value == "literal"`: a `QJsonValue` compares equal to a string iff it
is a string with the same text. -/
def jvEqStr (v : Json) (s : String) : Bool :=
  match v with
  | .str t => t == s
  | _ => false

/-- `QJsonObject::insert`: replace the value of an existing key, append a
new key otherwise. -/
def jObjInsert (fields : List (String × Json)) (k : String) (v : Json) :
    List (String × Json) :=
  if fields.any (fun kv => kv.1 == k) then
    fields.map (fun kv => if kv.1 == k then (k, v) else kv)
  else
    fields ++ [(k, v)]

/-- Keys of an object's entry list. -/
def fieldKeys (fields : List (String × Json)) : List String := fields.map Prod.fst

/-- `QHash<QString, QJsonObject>`-style insert (replace or append). -/
def hashInsert (l : List (String × Json)) (k : String) (v : Json) :
    List (String × Json) :=
  jObjInsert l k v

/-- `QHash::contains`. -/
def hashContains (l : List (String × Json)) (k : String) : Bool :=
  l.any (fun kv => kv.1 == k)

/-- `QHash::operator[]` (default-constructed value if missing). -/
def hashGet (l : List (String × Json)) (k : String) : Json :=
  match l.find? (fun kv => kv.1 == k) with
  | some kv => kv.2
  | none => .obj []

/-- `QSet<QString>::insert`. -/
def qsetInsert (l : List String) (s : String) : List String :=
  if l.contains s then l else l ++ [s]

/-! ## The name sanitizer (`validFileName`, line 232) -/

/-- `FIGMA_SUFFIX`. -/
def figmaSuffix : String := "_figma"

/-- One character step of the two regex replacements: both
`[\\/:*?"<>|\s]` and `[^a-zA-Z0-9_]` map to `_`; their composition keeps
exactly `[a-zA-Z0-9_]`. -/
def sanitizeChar (c : Char) : Char :=
  if isAlnumU c then c else '_'

/--
`validFileName` (line 232): append `_figma`, replace every character
outside `[a-zA-Z0-9_]` by `_`, prepend `C` when the first character is not
an ASCII letter, and upper-case the first character.  The `Q_ASSERT` on
re-suffixed input is a release no-op and not modelled.
-/
def validFileName (itemName : String) : String :=
  if itemName.data.isEmpty then "" else
  let name := itemName ++ figmaSuffix
  let name := String.mk (name.data.map sanitizeChar)
  let name :=
    match name.data with
    | c :: _ => if isAsciiLetter c then name else "C" ++ name
    | [] => name
  match name.data with
  | c :: rest => String.mk (asciiUpper c :: rest)
  | [] => name

/-! ## Structural size of a JSON tree

The source's recursions (`parse`, `getObjectsByType`, `getSize`) descend
into `children` arrays, so they are bounded by the tree depth.  `jsonSize`
dominates the depth and is used as structural fuel, which makes every
fuelled definition agree with the source on all (finite) JSON inputs. -/

mutual

/-- Number of constructors of a JSON value (dominates the tree depth). -/
def jsonSize : Json → Nat
  | .null | .bool _ | .num _ | .str _ => 1
  | .arr l => 1 + jsonSizeList l
  | .obj f => 1 + jsonSizeFields f

/-- Size of a JSON array body. -/
def jsonSizeList : List Json → Nat
  | [] => 0
  | j :: js => jsonSize j + jsonSizeList js

/-- Size of a JSON object body. -/
def jsonSizeFields : List (String × Json) → Nat
  | [] => 0
  | (_, j) :: js => jsonSize j + jsonSizeFields js

end

/-! ## Exception messages -/

/-- `toStr(...)` joins its arguments with single spaces; the messages below
are the exact texts produced at the `ERR` sites of the source. -/
def errNonSupported (t : String) : String :=
  "Non supported object type:\"" ++ t ++ "\""

/-- `ERR(toStr("Component not found", key, "for"))` (line 143). -/
def errComponentNotFound (k : String) : String := "Component not found " ++ k ++ " for"

/-- `ERR(toStr("Unrecognized component", key))` (line 153). -/
def errUnrecognized (k : String) : String := "Unrecognized component " ++ k

/-- `ERR(toStr("Invalid component", key))` (line 157). -/
def errInvalid (k : String) : String := "Invalid component " ++ k

/-- `ERR("Boolean needs at least two elemetns")` (line 1463, sic). -/
def errBooleanTwo : String := "Boolean needs at least two elemetns"

/-- `FigmaParser::Exception` prepends this to the thrown message; the text
reported through the error callback is `excMsg` of the raw message. -/
def excMsg (m : String) : String := "FigmaParser exception: " ++ m

/-! ## Component catalogue construction (`components`, line 134) -/

/-- A registered `Component`. -/
structure Comp where
  name : String
  id : String
  key : String
  description : String
  object : Json

/-- Result of the `NodeFunc` callback composed with
`QJsonDocument::fromJson`: an empty byte response, a byte response that does
not parse, or the parsed JSON document.  Qt's JSON text parser is outside
the transpiler core, so the composition is abstracted by this type. -/
inductive FetchResult where
  | empty
  | malformed
  | parsed (j : Json)

/-- `getObjectsByType` (line 293): collect all nodes of the given type into
an id-keyed hash; a matching node is not searched further. -/
def getObjectsByType : Nat → Json → String → List (String × Json)
  | 0, _, _ => []
  | fuel + 1, obj, type =>
    if jvEqStr (jGet obj "type") type then [(jStr obj "id", obj)]
    else if jHas obj "children" then
      (jArr obj "children").foldl
        (fun acc child =>
          (getObjectsByType fuel child type).foldl
            (fun a kv => hashInsert a kv.1 kv.2) acc)
        []
    else []

/-- Top-level `getObjectsByType` call with sufficient fuel. -/
def getObjects (obj : Json) (type : String) : List (String × Json) :=
  getObjectsByType (jsonSize obj) obj type

/-- The `while` loop of the registration uniquifier (line 164): try the
sanitized raw name, then `validFileName("<raw>_<count>")` for
`count = 1, 2, ...` until the candidate is not among the taken names.  The
fuel `taken.length + 1` always suffices (see `uniqueName_not_taken`). -/
def uniqueNameSearch (taken : List String) (raw : String) :
    Nat → String → Nat → String
  | 0, cur, _ => cur
  | fuel + 1, cur, count =>
    if taken.contains cur then
      uniqueNameSearch taken raw fuel
        (validFileName (raw ++ "_" ++ natRepr count)) (count + 1)
    else cur

/-- The unique sanitized name chosen for a raw component name against the
map built so far. -/
def uniqueName (taken : List String) (raw : String) : String :=
  uniqueNameSearch taken raw (taken.length + 1) (validFileName raw) 1

/-- Resolution step of the registration loop body (lines 141-166): a
component body missing from `componentObjects` is fetched through the
`NodeFunc` callback and validated. -/
def registerResolve (nodes : String → FetchResult) (key : String)
    (objs : List (String × Json)) : Except String (List (String × Json)) :=
  if hashContains objs key then
    Except.ok objs
  else
    match nodes key with
    | .empty => Except.error (errComponentNotFound key)
    | .malformed => Except.error (errInvalid key)
    | .parsed obj =>
      let received :=
        getObjects (jGet (jGet (jGet obj "nodes") key) "document") "COMPONENT"
      if hashContains received key then
        Except.ok (hashInsert objs key (hashGet received key))
      else
        Except.error (errUnrecognized key)

def registerOne (nodes : String → FetchResult) (table : Json) (key : String)
    (objs : List (String × Json)) (acc : List (String × Comp)) :
    Except String (List (String × Json) × Comp) :=
  match registerResolve nodes key objs with
  | .error e => .error e
  | .ok objs =>
    -- lines 168-175: build the `Component` with a unique sanitized name
    let c := jGet table key
    let componentName := jStr c "name"
    let uniqueComponentName := uniqueName (acc.map (fun kc => kc.2.name)) componentName
    Except.ok (objs,
      { name := uniqueComponentName, id := key, key := jStr c "key",
        description := jStr c "description", object := hashGet objs key })

/-- The registration loop with the `try`/`catch` placed outside it: on the
first failure the components registered so far are kept and the error is
recorded (the source's `map` already holds them when the exception leaves
the loop).  The first component of the result is the `componentObjects`
hash threaded through the loop. -/
def registerLoop (nodes : String → FetchResult) (table : Json) :
    List String → List (String × Json) → List (String × Comp) →
    List (String × Json) × List (String × Comp) × Option String
  | [], objs, acc => (objs, acc, none)
  | k :: ks, objs, acc =>
    match registerOne nodes table k objs acc with
    | .ok (objs', comp) => registerLoop nodes table ks objs' (acc ++ [(k, comp)])
    | .error msg => (objs, acc, some msg)

/-- The public `components` entry point (line 134): build the catalogue,
funnelling any failure to the `ErrorFunc` callback as a fatal issue.  The
second result component collects the `(message, isFatal)` reports. -/
def componentsFn (project : Json) (nodes : String → FetchResult) :
    List (String × Comp) × List (String × Bool) :=
  let componentObjects := getObjects (jGet project "document") "COMPONENT"
  let table := jGet project "components"
  let keys := sortStrings (fieldKeys table.fields)
  match registerLoop nodes table keys componentObjects [] with
  | (_, acc, none) => (acc, [])
  | (_, acc, some msg) => (acc, [(excMsg msg, true)])

/-! ## Parser context and output element -/

/-- `FigmaParser`'s construction state: option flags, the image-provider,
font-resolver callbacks, and the read-only component catalogue. -/
structure Ctx where
  flags : Nat
  images : String → Bool → String
  fonts : String → String
  components : List (String × Comp)

/-- `Flags::PrerenderShapes`. -/
def flagPrerenderShapes : Nat := 2
/-- `Flags::PrerenderGroups`. -/
def flagPrerenderGroups : Nat := 4
/-- `Flags::PrerenderComponents`. -/
def flagPrerenderComponents : Nat := 8
/-- `Flags::PrerenderFrames`. -/
def flagPrerenderFrames : Nat := 16
/-- `Flags::PrerenderInstances`. -/
def flagPrerenderInstances : Nat := 32
/-- `Flags::ParseComponent`. -/
def flagParseComponent : Nat := 512
/-- `Flags::BreakBooleans`. -/
def flagBreakBooleans : Nat := 1024
/-- `Flags::AntializeShapes`. -/
def flagAntializeShapes : Nat := 2048

/-- `m_flags & mask`. -/
def hasFlag (ctx : Ctx) (mask : Nat) : Bool := ctx.flags &&& mask != 0

/-- Catalogue lookup `(*m_components)[id]` (guarded by `contains` at every
use; the default is never reached on the guarded paths). -/
def ctxComp (ctx : Ctx) (id : String) : Comp :=
  match ctx.components.find? (fun kc => kc.1 == id) with
  | some kc => kc.2
  | none => { name := "", id := "", key := "", description := "", object := .null }

/-- The transpiler output `Element`; `Element()` (the default) has empty
name, id, type, markup data and component list. -/
structure Element where
  name : String := ""
  id : String := ""
  type : String := ""
  data : String := ""
  componentIds : List String := []
deriving Repr, DecidableEq

/-! ## Node classification (`ItemType` / `type`, line 1227) -/

/-- `ItemType`. -/
inductive ItemType where
  | noneT | vector | text | frame | component | boolean | instanceT
deriving DecidableEq, Repr

/-- The `types` table of `type(obj)` (line 1227); `none` for the type
strings on which the source throws "Non supported object type".  At every
call site of `type()` in the transpiler the string was already validated by
the `parse` dispatch, so the `none` case is unreachable there. -/
def typeOf? (obj : Json) : Option ItemType :=
  match jStr obj "type" with
  | "RECTANGLE" => some .vector
  | "TEXT" => some .text
  | "COMPONENT" => some .component
  | "BOOLEAN_OPERATION" => some .boolean
  | "INSTANCE" => some .instanceT
  | "ELLIPSE" => some .vector
  | "VECTOR" => some .vector
  | "LINE" => some .vector
  | "REGULAR_POLYGON" => some .vector
  | "STAR" => some .vector
  | "GROUP" => some .frame
  | "FRAME" => some .frame
  | "SLICE" => some .noneT
  | "NONE" => some .noneT
  | _ => none

/-- The fourteen type strings of the `parse` dispatch table (line 764). -/
def supportedTypes : List String :=
  ["RECTANGLE", "TEXT", "COMPONENT", "BOOLEAN_OPERATION", "INSTANCE",
   "ELLIPSE", "VECTOR", "LINE", "REGULAR_POLYGON", "STAR", "GROUP",
   "FRAME", "SLICE", "NONE"]

/-! ## Geometry / style emitters -/

/-- A `QRectF` under the integer model (used for the extent expansions). -/
structure RectI where
  x : Int := 0
  y : Int := 0
  w : Int := 0
  h : Int := 0

/-- The zero rectangle (the default `extents` argument). -/
def rect0 : RectI := {}

/-- `toColor` (line 401): ARGB hex with rounded 0-255 channels.  On the
integral channel values of the model `std::round` is the identity. -/
def toColor (r g b : Int) (a : Int) : String :=
  "\"#" ++ hex2 (a * 255).toNat ++ hex2 (r * 255).toNat ++ hex2 (g * 255).toNat
    ++ hex2 (b * 255).toNat ++ "\""

/-- `qmlId` (line 409): replace non-alphanumerics by `_`, lower-case, and
prefix with `figma_`. -/
def qmlId (id : String) : String :=
  "figma_" ++ String.mk (id.data.map (fun c => if isAsciiAlnum c then c.toLower else '_'))

/-- `makeComponentInstance` (line 414). -/
def makeComponentInstance (type : String) (obj : Json) (ind : Nat) : List String :=
  [tabs (ind - 1) ++ type ++ " \x7b\n",
   tabs ind ++ "id: " ++ qmlId (jStr obj "id") ++ "\n",
   tabs ind ++ "objectName:\"" ++ replaceChar '"' "\\\"" (jStr obj "name") ++ "\"\n"]

/-- `eq(a, b)` (line 553): `fabs(a-b) < DBL_EPSILON` collapses to equality
on the integral values of the model. -/
def eqI (a b : Int) : Bool := a == b

/-- Element of a `QJsonArray` (Undefined when out of range). -/
def arrAt (l : List Json) (i : Nat) : Json := l.getD i .null

/-- `position` (line 441): the translation column of `relativeTransform`. -/
def position (obj : Json) : Int × Int :=
  let rows := jArr obj "relativeTransform"
  ((arrAt (arrAt rows 0).toArr 2).toNum, (arrAt (arrAt rows 1).toArr 2).toNum)

/-- `makeEffects` (line 517): only the first effect is honoured; inner
shadows flip the offset signs. -/
def makeEffects (obj : Json) (ind : Nat) : List String :=
  if jHas obj "effects" then
    let effects := jArr obj "effects"
    if !effects.isEmpty then
      let e := arrAt effects 0
      if jvEqStr (jGet e "type") "INNER_SHADOW" || jvEqStr (jGet e "type") "DROP_SHADOW" then
        let color := jGet e "color"
        [tabs ind ++ "layer.enabled:true\n",
         tabs ind ++ "layer.effect: DropShadow \x7b\n"] ++
        (if jvEqStr (jGet e "type") "INNER_SHADOW" then
          [tabs (ind + 1) ++ "horizontalOffset: " ++ numStr (-(jNum (jGet e "offset") "x")) ++ "\n",
           tabs (ind + 1) ++ "verticalOffset: " ++ numStr (-(jNum (jGet e "offset") "y")) ++ "\n"]
        else
          [tabs (ind + 1) ++ "horizontalOffset: " ++ numStr (jNum (jGet e "offset") "x") ++ "\n",
           tabs (ind + 1) ++ "verticalOffset: " ++ numStr (jNum (jGet e "offset") "y") ++ "\n"]) ++
        [tabs (ind + 1) ++ "radius: " ++ numStr (jNum e "radius") ++ "\n",
         tabs (ind + 1) ++ "samples: 17\n",
         tabs (ind + 1) ++ "color: " ++
           toColor (jNum color "r") (jNum color "g") (jNum color "b") (jNum color "a") ++ "\n",
         tabs ind ++ "\x7d\n"]
      else []
    else []
  else []

/-- `makeTransforms` (line 555): an explicit 4x4 matrix, only when the
linear part of `relativeTransform` is not the identity. -/
def makeTransforms (obj : Json) (ind : Nat) : List String :=
  if jHas obj "relativeTransform" then
    let rows := jArr obj "relativeTransform"
    let row1 := (arrAt rows 0).toArr
    let row2 := (arrAt rows 1).toArr
    let r10 := (arrAt row1 0).toNum
    let r11 := (arrAt row1 1).toNum
    let r12 := (arrAt row1 2).toNum
    let r20 := (arrAt row2 0).toNum
    let r21 := (arrAt row2 1).toNum
    let r22 := (arrAt row2 2).toNum
    if !eqI r10 1 || !eqI r11 0 || !eqI r20 0 || !eqI r21 1 then
      [tabs ind ++ "transform: Matrix4x4 \x7b\n",
       tabs (ind + 1) ++ "matrix: Qt.matrix4x4(\n",
       tabs (ind + 1) ++ numStr r10 ++ ", " ++ numStr r11 ++ ", " ++ numStr r12 ++ ", 0,\n",
       tabs (ind + 1) ++ numStr r20 ++ ", " ++ numStr r21 ++ ", " ++ numStr r22 ++ ", 0,\n",
       tabs (ind + 1) ++ "0, 0, 1, 0,\n",
       tabs (ind + 1) ++ "0, 0, 0, 1)\n",
       tabs ind ++ "\x7d\n"]
    else []
  else []

/-- `makeItem` (line 425). -/
def makeItem (type : String) (obj : Json) (ind : Nat) : List String :=
  makeComponentInstance type obj ind ++ makeEffects obj ind ++ makeTransforms obj ind ++
  (if jHas obj "visible" && !jBool obj "visible" then [tabs ind ++ "visible: false\n"] else []) ++
  (if jHas obj "opacity" then [tabs ind ++ "opacity: " ++ numStr (jNum obj "opacity") ++ "\n"] else [])

/-- `getValue` (line 1796): field lookup that falls back to the component
object of an instance.  The recursion follows `componentId` links, which
are acyclic in a well-formed catalogue; the fuel bounds it structurally. -/
def getValue (ctx : Ctx) : Nat → Json → String → Json
  | 0, _, _ => .null
  | fuel + 1, obj, key =>
    if jHas obj key then jGet obj key
    else
      match typeOf? obj with
      | some .instanceT => getValue ctx fuel (ctxComp ctx (jStr obj "componentId")).object key
      | _ => .null

/-- `getValue` with sufficient fuel for an acyclic catalogue. -/
def getValueTop (ctx : Ctx) (obj : Json) (key : String) : Json :=
  getValue ctx (ctx.components.length + 1) obj key

/-- `makeExtents` (line 448): anchored position plus size, with optional
expansion margins.  `parent` is the `m_parent` slot.  The `CENTER` halves
`(parentExtent - extent) / 2` are exact on the even integral differences of
the model (`Int.tdiv` truncates like the `static_cast`). -/
def makeExtents (ctx : Ctx) (parent : Json) (obj : Json) (ind : Nat)
    (extents : RectI) : List String :=
  let horizontal := if jHas obj "constraints" then jStr (jGet obj "constraints") "horizontal" else "LEFT"
  let vertical := if jHas obj "constraints" then jStr (jGet obj "constraints") "vertical" else "TOP"
  (if jHas obj "relativeTransform" then
    let p := position obj
    let tx := p.1 + extents.x
    let ty := p.2 + extents.y
    (if horizontal == "LEFT" || horizontal == "SCALE" || horizontal == "LEFT_RIGHT"
        || horizontal == "RIGHT" then
      [tabs ind ++ "x:" ++ numStr tx ++ "\n"]
    else if horizontal == "CENTER" then
      let parentWidth := (jGet (jGet parent "size") "x").toNum
      let id := qmlId (jStr parent "id")
      let width := (jGet (getValueTop ctx obj "size") "x").toNum
      let staticWidth := Int.tdiv (parentWidth - width) 2 - tx
      (if eqI staticWidth 0 then
        [tabs ind ++ "x: (" ++ id ++ ".width - width) / 2\n"]
      else
        [tabs ind ++ "x: (" ++ id ++ ".width - width) / 2 " ++
          (if staticWidth < 0 then "+" else "-") ++ " " ++ numStr staticWidth.natAbs ++ "\n"])
    else []) ++
    (if vertical == "TOP" || vertical == "SCALE" || vertical == "TOP_BOTTOM"
        || vertical == "BOTTOM" then
      [tabs ind ++ "y:" ++ numStr ty ++ "\n"]
    else if vertical == "CENTER" then
      let parentHeight := (jGet (jGet parent "size") "y").toNum
      let id := qmlId (jStr parent "id")
      let height := (jGet (getValueTop ctx obj "size") "y").toNum
      let staticHeight := Int.tdiv (parentHeight - height) 2 - ty
      (if eqI staticHeight 0 then
        [tabs ind ++ "y: (" ++ id ++ ".height - height) / 2\n"]
      else
        [tabs ind ++ "y: (" ++ id ++ ".height - height) / 2 " ++
          (if staticHeight < 0 then "+" else "-") ++ " " ++ numStr staticHeight.natAbs ++ "\n"])
    else [])
  else []) ++
  (if jHas obj "size" then
    let vec := jGet obj "size"
    [tabs ind ++ "width:" ++ numStr ((jGet vec "x").toNum + extents.w) ++ "\n",
     tabs ind ++ "height:" ++ numStr ((jGet vec "y").toNum + extents.h) ++ "\n"]
  else [])

/-- `makeSize` (line 499). -/
def makeSize (obj : Json) (ind : Nat) (ew eh : Int) : List String :=
  let s := jGet obj "size"
  [tabs ind ++ "width:" ++ numStr ((jGet s "x").toNum + ew) ++ "\n",
   tabs ind ++ "height:" ++ numStr ((jGet s "y").toNum + eh) ++ "\n"]

/-- `makeColor` (line 510). -/
def makeColor (color : Json) (ind : Nat) (opacity : Int) : List String :=
  [tabs ind ++ "color:" ++
    toColor (jNum color "r") (jNum color "g") (jNum color "b") (jNum color "a" * opacity) ++ "\n"]

/-- The `QByteArray::insert` loop of `makeImageSource` (line 596): breaks
the image data with `" +\n "` continuations every 1024 positions.  The fuel
`s.length` dominates the iteration count. -/
def insertLoopGo : Nat → String → Nat → String
  | 0, s, _ => s
  | f + 1, s, pos =>
    if pos < s.length then
      insertLoopGo f (String.mk (s.data.take pos ++ ("\" +\n \"").data ++ s.data.drop pos)) (pos + 1024)
    else s

/-- The image-data line breaker. -/
def chunkImageData (s : String) : String := insertLoopGo s.length s 1024

/-- `makeImageSource` (line 580): fetch image bytes, fall back to the
placeholder when configured, fatal otherwise. -/
def makeImageSource (ctx : Ctx) (image : String) (isRendering : Bool) (ind : Nat)
    (placeHolder : String) : Except String (List String) := do
  let imageData := ctx.images image isRendering
  let (pre, imageData) ←
    if imageData.data.isEmpty then
      if placeHolder.data.isEmpty then
        Except.error ("Cannot read imageRef " ++ image)
      else
        let d := ctx.images placeHolder isRendering
        if d.data.isEmpty then Except.error "Cannot load placeholder"
        else
          Except.ok ([tabs ind ++ "//Image load failed, placeholder\n",
                      tabs ind ++ "sourceSize: Qt.size(parent.width, parent.height)\n"], d)
    else Except.ok (([] : List String), imageData)
  Except.ok (pre ++ [tabs ind ++ "source: \"" ++ chunkImageData imageData ++ "\"\n"])

/-- `makeImageRef` (line 604). -/
def makeImageRef (ctx : Ctx) (image : String) (ind : Nat) : Except String (List String) := do
  let src ← makeImageSource ctx image false (ind + 1) ""
  Except.ok
    ([tabs ind ++ "Image \x7b\n",
      tabs (ind + 1) ++ "anchors.fill: parent\n",
      tabs (ind + 1) ++ "mipmap: true\n",
      tabs (ind + 1) ++ "fillMode: Image.PreserveAspectCrop\n"] ++
     src ++ [tabs ind ++ "\x7d\n"])

/-- `makeFill` (line 616): a solid colour (scaled by opacity, zeroed when
invisible), transparent without one, plus an image child for `imageRef`. -/
def makeFill (ctx : Ctx) (obj : Json) (ind : Nat) : Except String (List String) := do
  let invisible := jHas obj "visible" && !jBool obj "visible"
  let colorPart :=
    if jHas obj "color" then
      let color := jGet obj "color"
      if !invisible && jHas obj "opacity" then makeColor color ind (jNum obj "opacity")
      else makeColor color ind (if invisible then 0 else 1)
    else [tabs ind ++ "color: \"transparent\"\n"]
  let imagePart ←
    if jHas obj "imageRef" then makeImageRef ctx (jStr obj "imageRef") (ind + 1)
    else Except.ok ([] : List String)
  Except.ok (colorPart ++ imagePart)

/-- `makeVector` (line 635): extents plus the first fill entry (transparent
when the fills field is present but not the string placeholder). -/
def makeVector (ctx : Ctx) (parent : Json) (obj : Json) (ind : Nat) :
    Except String (List String) := do
  let fillPart ←
    if (jArr obj "fills").length > 0 then makeFill ctx (arrAt (jArr obj "fills") 0) ind
    else if !(jGet obj "fills").isStr then Except.ok [tabs ind ++ "color: \"transparent\"\n"]
    else Except.ok ([] : List String)
  Except.ok (makeExtents ctx parent obj ind rect0 ++ fillPart)

/-- `fontWeight` (line 647): nearest-not-exceeding bucket on the figma
100-900 scale; `scaled <= w` is evaluated exactly by cross-multiplying the
double expression `((v - 100) / 900) * 90 <= w`. -/
def fontWeight (v : Int) : String :=
  let weights : List (String × Int) :=
    [("Font.Thin", 0), ("Font.ExtraLight", 12), ("Font.Light", 25),
     ("Font.Normal", 50), ("Font.Medium", 57), ("Font.DemiBold", 63),
     ("Font.Bold", 75), ("Font.ExtraBold", 81), ("Font.Black", 87)]
  match weights.find? (fun nw => decide ((v - 100) * 90 ≤ nw.2 * 900)) with
  | some nw => nw.1
  | none => "Font.Black"

/-- The `joins` table of `makeStrokeJoin` (empty for unknown joins, as the
`QHash` lookup default-constructs). -/
def joinLookup (s : String) : String :=
  if s == "MITER" then "MiterJoin"
  else if s == "BEVEL" then "MiterBevel"
  else if s == "ROUND" then "MiterRound"
  else ""

/-- `makeStrokeJoin` (line 668). -/
def makeStrokeJoin (stroke : Json) (ind : Nat) : List String :=
  if jHas stroke "strokeJoin" then
    [tabs ind ++ "joinStyle: ShapePath." ++ joinLookup (jStr stroke "strokeJoin") ++ "\n"]
  else
    [tabs ind ++ "joinStyle: ShapePath.MiterJoin\n"]

/-- `StrokeType` (line 257). -/
inductive StrokeType where
  | normal | double | onePix
deriving DecidableEq

/-- The stroke-colour property name of `makeShapeStroke` (line 687): the
stroke of a LINE is drawn through `fillColor`. -/
def strokeColorType (obj : Json) : String :=
  if jvEqStr (jGet obj "type") "LINE" then "fillColor" else "strokeColor"

/-- `makeShapeStroke` (line 683): stroke join/colour (written to
`fillColor` for LINE nodes) and the stroke width, doubled for the
double-width masks. -/
def makeShapeStroke (obj : Json) (ind : Nat) (type : StrokeType) : List String :=
  let colorType := strokeColorType obj
  (if jHas obj "strokes" && !(jArr obj "strokes").isEmpty then
    let stroke := arrAt (jArr obj "strokes") 0
    let opacity := if jHas stroke "opacity" then jNum stroke "opacity" else 1
    let color := jGet stroke "color"
    makeStrokeJoin stroke ind ++
    [tabs ind ++ colorType ++ ": " ++
      toColor (jNum color "r") (jNum color "g") (jNum color "b") (jNum color "a" * opacity) ++ "\n"]
  else if !(jGet obj "strokes").isStr then
    [tabs ind ++ colorType ++ ": \"transparent\"\n"]
  else []) ++
  (if jHas obj "strokeWeight" then
    let val : Int :=
      if type == StrokeType.onePix then 1
      else if type == StrokeType.double then jNum obj "strokeWeight" * 2
      else jNum obj "strokeWeight"
    [tabs ind ++ "strokeWidth:" ++ numStr val ++ "\n"]
  else [])

/-- `makeShapeFill` (line 712): the path fill colour (suppressed for LINE,
whose stroke is drawn through `fillColor`), plus the `svgpath_` id. -/
def makeShapeFill (obj : Json) (ind : Nat) : List String :=
  (if !jvEqStr (jGet obj "type") "LINE" then
    if jHas obj "fills" && !(jArr obj "fills").isEmpty then
      let fill := arrAt (jArr obj "fills") 0
      let opacity := if jHas fill "opacity" then jNum fill "opacity" else 1
      let color := jGet fill "color"
      [tabs ind ++ "fillColor:" ++
        toColor (jNum color "r") (jNum color "g") (jNum color "b") (jNum color "a" * opacity) ++ "\n"]
    else if !(jGet obj "fills").isStr then
      [tabs ind ++ "fillColor:\"transparent\"\n"]
    else []
  else
    [tabs ind ++ "strokeColor: \"transparent\"\n"]) ++
  [tabs ind ++ "id: svgpath_" ++ qmlId (jStr obj "id") ++ "\n"]

/-- `makeSvgPath` (line 745). -/
def makeSvgPath (index : Nat) (isFill : Bool) (obj : Json) (ind : Nat) : List String :=
  let array := if isFill then jArr obj "fillGeometry" else jArr obj "strokeGeometry"
  let path := arrAt array index
  (if index == 0 && jvEqStr (jGet path "windingRule") "NONZERO" then
    [tabs ind ++ "fillRule: ShapePath.WindingFill\n"]
  else []) ++
  [tabs ind ++ "PathSvg \x7b\n",
   tabs (ind + 1) ++ "path: \"" ++ jStr path "path" ++ "\"\n",
   tabs ind ++ "\x7d \n"]

/-- `makeShapeFillData` (line 845): every fill geometry path, else every
stroke geometry path. -/
def makeShapeFillData (obj : Json) (shapeInd : Nat) : List String :=
  if !(jArr obj "fillGeometry").isEmpty then
    ((List.range (jArr obj "fillGeometry").length).map
      (fun i => makeSvgPath i true obj shapeInd)).flatten
  else if !(jArr obj "strokeGeometry").isEmpty then
    ((List.range (jArr obj "strokeGeometry").length).map
      (fun i => makeSvgPath i false obj shapeInd)).flatten
  else []

/-- `makeAntialising` (line 858). -/
def makeAntialising (ctx : Ctx) (ind : Nat) : List String :=
  if hasFlag ctx flagAntializeShapes then [tabs ind ++ "antialiasing: true\n"] else []

/-- `imageFill` (line 797): the `imageRef` of the first fill entry. -/
def imageFill (obj : Json) : Option String :=
  if jHas obj "fills" then
    let fills := jArr obj "fills"
    if fills.length > 0 then
      let fill := arrAt fills 0
      if jHas fill "imageRef" then some (jStr fill "imageRef") else none
    else none
  else none

/-- `isGradient` (line 788). -/
def isGradient (obj : Json) : Bool :=
  jHas obj "fills" &&
    (jArr obj "fills").any (fun f => jHas f "gradientHandlePositions")

/-- `makeImageMaskData` (line 810): opacity mask of an image source by the
node's own geometry rendered solid. -/
def makeImageMaskData (ctx : Ctx) (imageRef : String) (obj : Json) (ind : Nat)
    (sourceId maskSourceId : String) : Except String (List String) := do
  let src ← makeImageSource ctx imageRef false (ind + 1) ""
  Except.ok
    ([tabs ind ++ "OpacityMask \x7b\n",
      tabs (ind + 1) ++ "anchors.fill:parent\n",
      tabs (ind + 1) ++ "source: " ++ sourceId ++ "\n",
      tabs (ind + 1) ++ "maskSource: " ++ maskSourceId ++ "\n",
      tabs ind ++ "\x7d\n",
      tabs ind ++ "Image \x7b\n",
      tabs (ind + 1) ++ "id: " ++ sourceId ++ "\n",
      tabs (ind + 1) ++ "layer.enabled: true\n",
      tabs (ind + 1) ++ "fillMode: Image.PreserveAspectCrop\n",
      tabs (ind + 1) ++ "visible: false\n",
      tabs (ind + 1) ++ "mipmap: true\n",
      tabs (ind + 1) ++ "anchors.fill:parent\n"] ++
     src ++
     [tabs ind ++ "\x7d\n",
      tabs ind ++ "Shape \x7b\n",
      tabs (ind + 1) ++ "id: " ++ maskSourceId ++ "\n",
      tabs (ind + 1) ++ "anchors.fill: parent\n",
      tabs (ind + 1) ++ "layer.enabled: true\n",
      tabs (ind + 1) ++ "visible: false\n",
      tabs (ind + 1) ++ "ShapePath \x7b\n"] ++
     makeShapeStroke obj (ind + 2) StrokeType.normal ++
     [tabs (ind + 2) ++ "fillColor:\"black\"\n"] ++
     makeShapeFillData obj (ind + 2) ++
     [tabs (ind + 1) ++ "\x7d\n",
      tabs ind ++ "\x7d\n"])

/-! ## Stroke/fill strategy emitters (`makeVectorXXX`, lines 868-1224)

The source overloads `makeVectorNormalFill` / `makeVectorInsideFill` /
`makeVectorOutsideFill` on an extra image argument; the image-fill variants
carry the `Image` suffix here. -/

/-- `makeVectorNormalFill` (line 868), plain-colour variant: one `ShapePath`
carrying stroke and fill directly. -/
def makeVectorNormalFill (ctx : Ctx) (parent : Json) (obj : Json) (ind : Nat) :
    List String :=
  makeItem "Shape" obj ind ++
  makeExtents ctx parent obj ind rect0 ++
  makeAntialising ctx ind ++
  [tabs ind ++ "ShapePath \x7b\n"] ++
  makeShapeStroke obj (ind + 1) StrokeType.normal ++
  makeShapeFill obj (ind + 1) ++
  makeShapeFillData obj (ind + 1) ++
  [tabs ind ++ "\x7d\n",
   tabs (ind - 1) ++ "\x7d\n"]

/-- `makeVectorNormalFill` (line 884), image-fill variant: an image-mask
composition plus a `ShapePath` for the stroke. -/
def makeVectorNormalFillImage (ctx : Ctx) (parent : Json) (image : String)
    (obj : Json) (ind : Nat) : Except String (List String) := do
  let sourceId := "source_" ++ qmlId (jStr obj "id")
  let maskSourceId := "maskSource_" ++ qmlId (jStr obj "id")
  let maskData ← makeImageMaskData ctx image obj ind sourceId maskSourceId
  Except.ok
    (makeItem "Item" obj ind ++
     makeExtents ctx parent obj ind rect0 ++
     maskData ++
     [tabs ind ++ "Shape \x7b\n",
      tabs (ind + 1) ++ "anchors.fill: parent\n"] ++
     makeAntialising ctx (ind + 1) ++
     [tabs (ind + 1) ++ "ShapePath \x7b\n"] ++
     makeShapeStroke obj (ind + 2) StrokeType.normal ++
     makeShapeFill obj (ind + 2) ++
     makeShapeFillData obj (ind + 2) ++
     [tabs (ind + 1) ++ "\x7d\n",
      tabs ind ++ "\x7d\n",
      tabs (ind - 1) ++ "\x7d \n"])

/-- `makeVectorNormal` (line 910). -/
def makeVectorNormal (ctx : Ctx) (parent : Json) (obj : Json) (ind : Nat) :
    Except String (List String) :=
  match imageFill obj with
  | some image => makeVectorNormalFillImage ctx parent image obj ind
  | none => Except.ok (makeVectorNormalFill ctx parent obj ind)

/-- `makeVectorInsideFill` (line 915), plain variant: a double-width border
shape clipped by a solid mask of the same geometry. -/
def makeVectorInsideFill (ctx : Ctx) (parent : Json) (obj : Json) (ind : Nat) :
    List String :=
  let borderSourceId := "borderSource_" ++ qmlId (jStr obj "id")
  let borderMaskId := "borderMask_" ++ qmlId (jStr obj "id")
  [tabs (ind - 1) ++
    "// QML (SVG) supports only center borders, thus an extra mask is created for " ++
    jStr obj "strokeAlign" ++ "\n"] ++
  makeItem "Item" obj ind ++
  makeExtents ctx parent obj ind rect0 ++
  [tabs ind ++ "Shape \x7b \n",
   tabs (ind + 1) ++ "id:" ++ borderSourceId ++ "\n",
   tabs (ind + 1) ++ "anchors.fill: parent\n"] ++
  makeAntialising ctx (ind + 1) ++
  [tabs (ind + 1) ++ "visible: false\n",
   tabs (ind + 1) ++ "ShapePath \x7b\n"] ++
  makeShapeStroke obj (ind + 2) StrokeType.double ++
  makeShapeFill obj (ind + 2) ++
  makeShapeFillData obj (ind + 2) ++
  [tabs (ind + 2) ++ "\x7d\n",
   tabs (ind + 1) ++ "\x7d\n",
   tabs (ind + 1) ++ "Shape \x7b\n",
   tabs (ind + 1) ++ "id: " ++ borderMaskId ++ "\n",
   tabs (ind + 1) ++ "anchors.fill:parent\n"] ++
  makeAntialising ctx (ind + 1) ++
  [tabs (ind + 1) ++ "layer.enabled: true\n",
   tabs (ind + 1) ++ "visible: false\n",
   tabs (ind + 1) ++ "ShapePath \x7b\n",
   tabs (ind + 2) ++ "fillColor: \"black\"\n",
   tabs (ind + 2) ++ "strokeColor: \"transparent\"\n",
   tabs (ind + 2) ++ "strokeWidth: 0\n",
   tabs (ind + 2) ++ "joinStyle: ShapePath.MiterJoin\n"] ++
  makeShapeFillData obj (ind + 2) ++
  [tabs (ind + 1) ++ "\x7d\n",
   tabs ind ++ "\x7d\n",
   tabs ind ++ "OpacityMask \x7b\n",
   tabs (ind + 1) ++ "anchors.fill:parent\n",
   tabs (ind + 1) ++ "source: " ++ borderSourceId ++ "\n",
   tabs (ind + 1) ++ "maskSource: " ++ borderMaskId ++ "\n",
   tabs ind ++ "\x7d\n",
   tabs (ind - 1) ++ "\x7d\n"]

/-- `makeVectorInsideFill` (line 971), image-fill variant. -/
def makeVectorInsideFillImage (ctx : Ctx) (parent : Json) (image : String)
    (obj : Json) (ind : Nat) : Except String (List String) := do
  let borderSourceId := "borderSource_" ++ qmlId (jStr obj "id")
  let borderMaskId := "borderMask_" ++ qmlId (jStr obj "id")
  let sourceId := "source_" ++ qmlId (jStr obj "id")
  let maskSourceId := "maskSource_" ++ qmlId (jStr obj "id")
  let maskData ← makeImageMaskData ctx image obj (ind + 1) sourceId maskSourceId
  Except.ok
    ([tabs (ind - 1) ++
       "// QML (SVG) supports only center borders, thus an extra mask is created for " ++
       jStr obj "strokeAlign" ++ "\n"] ++
     makeItem "Item" obj ind ++
     makeExtents ctx parent obj ind rect0 ++
     [tabs ind ++ "Item \x7b\n",
      tabs (ind + 1) ++ "id:" ++ borderSourceId ++ "\n",
      tabs (ind + 1) ++ "anchors.fill: parent\n"] ++
     makeAntialising ctx (ind + 1) ++
     [tabs (ind + 1) ++ "visible: false\n"] ++
     maskData ++
     [tabs (ind + 1) ++ "Shape \x7b\n",
      tabs (ind + 2) ++ "anchors.fill: parent\n"] ++
     makeAntialising ctx (ind + 2) ++
     [tabs (ind + 2) ++ "ShapePath \x7b\n"] ++
     makeShapeStroke obj (ind + 3) StrokeType.double ++
     makeShapeFill obj (ind + 3) ++
     makeShapeFillData obj (ind + 3) ++
     [tabs (ind + 2) ++ "\x7d\n",
      tabs (ind + 1) ++ "\x7d\n",
      tabs ind ++ "\x7d\n",
      tabs ind ++ "Shape \x7b\n",
      tabs (ind + 1) ++ "id: " ++ borderMaskId ++ "\n",
      tabs (ind + 1) ++ "anchors.fill:parent\n"] ++
     makeAntialising ctx (ind + 1) ++
     [tabs (ind + 1) ++ "layer.enabled: true\n",
      tabs (ind + 1) ++ "visible: false\n",
      tabs (ind + 1) ++ "ShapePath \x7b\n",
      tabs (ind + 2) ++ "fillColor: \"black\"\n",
      tabs (ind + 2) ++ "strokeColor: \"transparent\"\n",
      tabs (ind + 2) ++ "strokeWidth: 0\n",
      tabs (ind + 2) ++ "joinStyle: ShapePath.MiterJoin\n"] ++
     makeShapeFillData obj (ind + 2) ++
     [tabs (ind + 1) ++ "\x7d\n",
      tabs ind ++ "\x7d\n",
      tabs ind ++ "OpacityMask \x7b\n",
      tabs (ind + 1) ++ "anchors.fill:parent\n",
      tabs (ind + 1) ++ "source: " ++ borderSourceId ++ "\n",
      tabs (ind + 1) ++ "maskSource: " ++ borderMaskId ++ "\n",
      tabs ind ++ "\x7d\n",
      tabs (ind - 1) ++ "\x7d\n"])

/-- `makeVectorInside` (line 1037). -/
def makeVectorInside (ctx : Ctx) (parent : Json) (obj : Json) (ind : Nat) :
    Except String (List String) :=
  match imageFill obj with
  | some image => makeVectorInsideFillImage ctx parent image obj ind
  | none => Except.ok (makeVectorInsideFill ctx parent obj ind)

/-- `makeVectorOutsideFill` (line 1042), plain variant: box expanded by the
stroke width, fill inset, double-width stroke mask composed inverted. -/
def makeVectorOutsideFill (ctx : Ctx) (parent : Json) (obj : Json) (ind : Nat) :
    List String :=
  let borderWidth := jNum obj "strokeWeight"
  let borderSourceId := "borderSource_" ++ qmlId (jStr obj "id")
  let borderMaskId := "borderMask_" ++ qmlId (jStr obj "id")
  [tabs (ind - 1) ++
    "// QML (SVG) supports only center borders, thus an extra mask is created for " ++
    jStr obj "strokeAlign" ++ "\n"] ++
  makeItem "Item" obj ind ++
  makeExtents ctx parent obj ind
    { x := -borderWidth, y := -borderWidth, w := borderWidth * 2, h := borderWidth * 2 } ++
  [tabs ind ++ "Shape \x7b\n",
   tabs (ind + 1) ++ "x: " ++ numStr borderWidth ++ "\n",
   tabs (ind + 1) ++ "y: " ++ numStr borderWidth ++ "\n"] ++
  makeSize obj (ind + 1) 0 0 ++
  makeAntialising ctx (ind + 1) ++
  [tabs (ind + 1) ++ "ShapePath \x7b\n"] ++
  makeShapeFill obj (ind + 2) ++
  makeShapeFillData obj (ind + 2) ++
  [tabs (ind + 2) ++ "strokeWidth: 0\n",
   tabs (ind + 2) ++ "strokeColor: fillColor\n",
   tabs (ind + 2) ++ "joinStyle: ShapePath.MiterJoin\n",
   tabs (ind + 1) ++ "\x7d\n",
   tabs ind ++ "\x7d\n",
   tabs ind ++ "Item \x7b\n",
   tabs (ind + 1) ++ "id: " ++ borderSourceId ++ "\n",
   tabs (ind + 1) ++ "anchors.fill:parent\n",
   tabs (ind + 1) ++ "visible: false\n",
   tabs (ind + 1) ++ "Shape \x7b\n"] ++
  makeAntialising ctx (ind + 2) ++
  [tabs (ind + 2) ++ "x: " ++ numStr borderWidth ++ "\n",
   tabs (ind + 2) ++ "y: " ++ numStr borderWidth ++ "\n"] ++
  makeSize obj (ind + 2) 0 0 ++
  [tabs (ind + 2) ++ "ShapePath \x7b\n",
   tabs (ind + 3) ++ "fillColor: \"black\"\n"] ++
  makeShapeStroke obj (ind + 3) StrokeType.double ++
  makeShapeFillData obj (ind + 3) ++
  [tabs (ind + 2) ++ "\x7d\n",
   tabs (ind + 1) ++ "\x7d\n",
   tabs ind ++ "\x7d\n",
   tabs ind ++ "Item \x7b\n",
   tabs (ind + 1) ++ "id: " ++ borderMaskId ++ "\n",
   tabs (ind + 1) ++ "anchors.fill:parent\n"] ++
  makeAntialising ctx (ind + 1) ++
  [tabs (ind + 1) ++ "visible: false\n",
   tabs (ind + 1) ++ "Shape \x7b\n",
   tabs (ind + 2) ++ "x: " ++ numStr borderWidth ++ "\n",
   tabs (ind + 2) ++ "y: " ++ numStr borderWidth ++ "\n"] ++
  makeSize obj (ind + 2) 0 0 ++
  [tabs (ind + 2) ++ "ShapePath \x7b\n",
   tabs (ind + 3) ++ "fillColor: \"black\"\n",
   tabs (ind + 3) ++ "strokeColor: \"transparent\"\n",
   tabs (ind + 3) ++ "strokeWidth: " ++ numStr borderWidth ++ "\n",
   tabs (ind + 3) ++ "joinStyle: ShapePath.MiterJoin\n"] ++
  makeShapeFillData obj (ind + 3) ++
  [tabs (ind + 2) ++ "\x7d\n",
   tabs (ind + 1) ++ "\x7d\n",
   tabs ind ++ "\x7d\n",
   tabs ind ++ "OpacityMask \x7b\n",
   tabs (ind + 1) ++ "anchors.fill:parent\n",
   tabs (ind + 1) ++ "maskSource: " ++ borderMaskId ++ "\n",
   tabs (ind + 1) ++ "source: " ++ borderSourceId ++ "\n",
   tabs (ind + 1) ++ "invert: true\n",
   tabs ind ++ "\x7d\n",
   tabs (ind - 1) ++ "\x7d\n"]

/-- `makeVectorOutsideFill` (line 1129), image-fill variant. -/
def makeVectorOutsideFillImage (ctx : Ctx) (parent : Json) (image : String)
    (obj : Json) (ind : Nat) : Except String (List String) := do
  let borderWidth := jNum obj "strokeWeight"
  let borderSourceId := "borderSource_" ++ qmlId (jStr obj "id")
  let borderMaskId := "borderMask_" ++ qmlId (jStr obj "id")
  let sourceId := "source_" ++ qmlId (jStr obj "id")
  let maskSourceId := "maskSource_" ++ qmlId (jStr obj "id")
  let maskData ← makeImageMaskData ctx image obj (ind + 1) sourceId maskSourceId
  Except.ok
    ([tabs (ind - 1) ++
       "// QML (SVG) supports only center borders, thus an extra mask is created for " ++
       jStr obj "strokeAlign" ++ "\n"] ++
     makeItem "Item" obj ind ++
     makeExtents ctx parent obj ind
       { x := -borderWidth, y := -borderWidth, w := borderWidth * 2, h := borderWidth * 2 } ++
     [tabs ind ++ "Item \x7b\n",
      tabs (ind + 1) ++ "x: " ++ numStr borderWidth ++ "\n",
      tabs (ind + 1) ++ "y: " ++ numStr borderWidth ++ "\n"] ++
     makeSize obj (ind + 1) 0 0 ++
     makeAntialising ctx (ind + 1) ++
     maskData ++
     [tabs (ind + 1) ++ "Shape \x7b\n",
      tabs (ind + 2) ++ "anchors.fill: parent\n"] ++
     makeAntialising ctx (ind + 2) ++
     [tabs (ind + 2) ++ "ShapePath \x7b\n",
      tabs (ind + 3) ++ "strokeColor: \"transparent\"\n",
      tabs (ind + 3) ++ "strokeWidth: 0\n",
      tabs (ind + 3) ++ "joinStyle: ShapePath.MiterJoin\n"] ++
     makeShapeFill obj (ind + 3) ++
     makeShapeFillData obj (ind + 3) ++
     [tabs (ind + 2) ++ "\x7d \n",
      tabs (ind + 1) ++ "\x7d \n",
      tabs ind ++ "\x7d \n",
      tabs ind ++ "Item \x7b\n",
      tabs (ind + 1) ++ "id: " ++ borderSourceId ++ "\n",
      tabs (ind + 1) ++ "anchors.fill:parent\n",
      tabs (ind + 1) ++ "visible: false\n",
      tabs (ind + 1) ++ "Shape \x7b\n"] ++
     makeAntialising ctx (ind + 2) ++
     [tabs (ind + 2) ++ "x: " ++ numStr borderWidth ++ "\n",
      tabs (ind + 2) ++ "y: " ++ numStr borderWidth ++ "\n"] ++
     makeSize obj (ind + 2) 0 0 ++
     [tabs (ind + 2) ++ "ShapePath \x7b\n",
      tabs (ind + 3) ++ "fillColor: \"black\"\n"] ++
     makeShapeStroke obj (ind + 3) StrokeType.double ++
     makeShapeFillData obj (ind + 3) ++
     [tabs (ind + 2) ++ "\x7d\n",
      tabs (ind + 1) ++ "\x7d\n",
      tabs ind ++ "\x7d\n",
      tabs ind ++ "Item \x7b\n",
      tabs (ind + 1) ++ "id: " ++ borderMaskId ++ "\n",
      tabs (ind + 1) ++ "anchors.fill:parent\n"] ++
     makeAntialising ctx (ind + 1) ++
     [tabs (ind + 1) ++ "visible: false\n",
      tabs (ind + 1) ++ "Shape \x7b\n",
      tabs (ind + 2) ++ "x: " ++ numStr borderWidth ++ "\n",
      tabs (ind + 2) ++ "y: " ++ numStr borderWidth ++ "\n"] ++
     makeSize obj (ind + 2) 0 0 ++
     [tabs (ind + 2) ++ "ShapePath \x7b\n",
      tabs (ind + 3) ++ "fillColor: \"black\"\n",
      tabs (ind + 3) ++ "strokeColor: \"transparent\"\n",
      tabs (ind + 3) ++ "strokeWidth: " ++ numStr borderWidth ++ "\n",
      tabs (ind + 3) ++ "joinStyle: ShapePath.MiterJoin\n"] ++
     makeShapeFillData obj (ind + 3) ++
     [tabs (ind + 2) ++ "\x7d\n",
      tabs (ind + 1) ++ "\x7d\n",
      tabs ind ++ "\x7d\n",
      tabs ind ++ "OpacityMask \x7b\n",
      tabs (ind + 1) ++ "anchors.fill:parent\n",
      tabs (ind + 1) ++ "maskSource: " ++ borderMaskId ++ "\n",
      tabs (ind + 1) ++ "source: " ++ borderSourceId ++ "\n",
      tabs (ind + 1) ++ "invert: true\n",
      tabs ind ++ "\x7d\n",
      tabs (ind - 1) ++ "\x7d\n"])

/-- `makeVectorOutside` (line 1221). -/
def makeVectorOutside (ctx : Ctx) (parent : Json) (obj : Json) (ind : Nat) :
    Except String (List String) :=
  match imageFill obj with
  | some image => makeVectorOutsideFillImage ctx parent image obj ind
  | none => Except.ok (makeVectorOutsideFill ctx parent obj ind)

/-- The stroke condition of `parseVector` (line 1254): at least one stroke
entry and `strokeWeight > 1`. -/
def hasBorders (obj : Json) : Bool :=
  jHas obj "strokes" && !(jArr obj "strokes").isEmpty &&
    jHas obj "strokeWeight" && jNum obj "strokeWeight" > 1

/-- `parseVector` (line 1253): the stroke-alignment strategy selector. -/
def parseVector (ctx : Ctx) (parent : Json) (obj : Json) (ind : Nat) :
    Except String (List String) :=
  if hasBorders obj && jvEqStr (jGet obj "strokeAlign") "INSIDE" then
    makeVectorInside ctx parent obj ind
  else if hasBorders obj && jvEqStr (jGet obj "strokeAlign") "OUTSIDE" then
    makeVectorOutside ctx parent obj ind
  else
    makeVectorNormal ctx parent obj ind

/-- `parseLine` (line 1264). -/
def parseLine (ctx : Ctx) (parent : Json) (obj : Json) (ind : Nat) :
    Except String (List String) := parseVector ctx parent obj ind

/-- `parsePolygon` (line 1268). -/
def parsePolygon (ctx : Ctx) (parent : Json) (obj : Json) (ind : Nat) :
    Except String (List String) := parseVector ctx parent obj ind

/-- `parseStar` (line 1272). -/
def parseStar (ctx : Ctx) (parent : Json) (obj : Json) (ind : Nat) :
    Except String (List String) := parseVector ctx parent obj ind

/-- `parseRectangle` (line 1276). -/
def parseRectangle (ctx : Ctx) (parent : Json) (obj : Json) (ind : Nat) :
    Except String (List String) := parseVector ctx parent obj ind

/-- `parseEllipse` (line 1280). -/
def parseEllipse (ctx : Ctx) (parent : Json) (obj : Json) (ind : Nat) :
    Except String (List String) := parseVector ctx parent obj ind

/-! ## Text styles (`toQMLTextStyles` / `parseStyle`, lines 1284-1346) -/

/-- The `capitalization` table (unknown values default-construct to ""). -/
def capLookup (s : String) : String :=
  if s == "UPPER" then "Font.AllUppercase"
  else if s == "LOWER" then "Font.AllLowercase"
  else if s == "TITLE" then "Font.MixedCase"
  else if s == "SMALL_CAPS" then "Font.SmallCaps"
  else if s == "SMALL_CAPS_FORCED" then "Font.Capitalize"
  else ""

/-- The `decoration` table. -/
def decoLookup (s : String) : String :=
  if s == "STRIKETHROUGH" then "strikeout"
  else if s == "UNDERLINE" then "underline"
  else ""

/-- The horizontal alignment table. -/
def hAlignLookup (s : String) : String :=
  if s == "LEFT" then "Text.AlignLeft"
  else if s == "RIGHT" then "Text.AlignRight"
  else if s == "CENTER" then "Text.AlignHCenter"
  else if s == "JUSTIFIED" then "Text.AlignJustify"
  else ""

/-- The vertical alignment table. -/
def vAlignLookup (s : String) : String :=
  if s == "TOP" then "Text.AlignTop"
  else if s == "BOTTOM" then "Text.AlignBottom"
  else if s == "CENTER" then "Text.AlignVCenter"
  else ""

/-- `toQMLTextStyles` (line 1284).  `font.pixelSize` floors the font size
(exact on the integral model). -/
def toQMLTextStyles (ctx : Ctx) (obj : Json) : Json :=
  let styles : List (String × Json) := []
  let styles := jObjInsert styles "font.family"
    (.str ("\"" ++ ctx.fonts (jStr obj "fontFamily") ++ "\""))
  let styles := jObjInsert styles "font.italic"
    (.str (if jBool obj "italic" then "true" else "false"))
  let styles := jObjInsert styles "font.pixelSize" (.str (numStr (jNum obj "fontSize")))
  let styles := jObjInsert styles "font.weight" (.str (fontWeight (jNum obj "fontWeight")))
  let styles :=
    if jHas obj "textCase" then
      jObjInsert styles "font.capitalization" (.str (capLookup (jStr obj "textCase")))
    else styles
  let styles :=
    if jHas obj "textDecoration" then
      jObjInsert styles (decoLookup (jStr obj "textDecoration")) (.bool true)
    else styles
  let styles :=
    if jHas obj "paragraphSpacing" then
      jObjInsert styles "topPadding" (.str (numStr (jNum obj "paragraphSpacing")))
    else styles
  let styles :=
    if jHas obj "paragraphIndent" then
      jObjInsert styles "leftPadding" (.str (numStr (jNum obj "paragraphIndent")))
    else styles
  let styles := jObjInsert styles "horizontalAlignment"
    (.str (hAlignLookup (jStr obj "textAlignHorizontal")))
  let styles := jObjInsert styles "verticalAlignment"
    (.str (vAlignLookup (jStr obj "textAlignVertical")))
  let styles := jObjInsert styles "font.letterSpacing"
    (.str (numStr (jNum obj "letterSpacing")))
  .obj styles

/-- `v.toVariant().toString()` for the style values (strings and bools). -/
def variantString : Json → String
  | .str s => s
  | .bool b => if b then "true" else "false"
  | .num n => numStr n
  | _ => ""

/-- `parseStyle` (line 1332): one property line per style key
(`QJsonObject::keys()` iterates in sorted key order), plus the fill. -/
def parseStyle (ctx : Ctx) (obj : Json) (ind : Nat) : Except String (List String) := do
  let styles := toQMLTextStyles ctx obj
  let styleLines := (sortStrings (fieldKeys styles.fields)).map
    (fun k => tabs ind ++ k ++ ": " ++ variantString (jGet styles k) ++ "\n")
  let fillPart ←
    if (jArr obj "fills").length > 0 then makeFill ctx (arrAt (jArr obj "fills") 0) ind
    else Except.ok ([] : List String)
  Except.ok (styleLines ++ fillPart)

/-! ## Pre-render predicate and flattened emission -/

/-- `isRendering` (line 1348).  `type(obj)` cannot throw at the call sites
(the dispatch validated the type), so the total `typeOf?` is used. -/
def isRendering (ctx : Ctx) (obj : Json) : Bool :=
  if jBool obj "isRendering" then true
  else if typeOf? obj == some .vector && (hasFlag ctx flagPrerenderShapes || isGradient obj) then true
  else if typeOf? obj == some .text && isGradient obj then true
  else if typeOf? obj == some .frame && jStr obj "type" != "GROUP"
      && hasFlag ctx flagPrerenderFrames then true
  else if jStr obj "type" == "GROUP" && hasFlag ctx flagPrerenderGroups then true
  else if typeOf? obj == some .component && hasFlag ctx flagPrerenderComponents then true
  else if typeOf? obj == some .instanceT && hasFlag ctx flagPrerenderInstances then true
  else false

/-- `getSize` (line 1675): the bounding-box size expanded by all children
(component-wise maximum); fuelled by the tree size. -/
def getSizeGo : Nat → Json → Int × Int
  | 0, obj =>
    ((jGet (jGet obj "absoluteBoundingBox") "width").toNum,
     (jGet (jGet obj "absoluteBoundingBox") "height").toNum)
  | fuel + 1, obj =>
    let sz := ((jGet (jGet obj "absoluteBoundingBox") "width").toNum,
               (jGet (jGet obj "absoluteBoundingBox") "height").toNum)
    if jHas obj "children" then
      (jArr obj "children").foldl
        (fun acc child =>
          let c := getSizeGo fuel child
          (max acc.1 c.1, max acc.2 c.2)) sz
    else sz

/-- `getSize` with sufficient fuel. -/
def getSize (obj : Json) : Int × Int := getSizeGo (jsonSize obj) obj

/-- `PlaceHolder` (line 118). -/
def placeHolderId : String := "placeholder"

/-- `parseRendered` (line 1690): a sized container positioned against the
parent's absolute bounding box holding one pre-rendered image. -/
def parseRendered (ctx : Ctx) (parent : Json) (obj : Json) (ind : Nat) :
    Except String (List String) := do
  let prect := jGet parent "absoluteBoundingBox"
  let rect := jGet obj "absoluteBoundingBox"
  let sz := getSize obj
  let imageId := "i_" ++ qmlId (jStr obj "id")
  let invisible := jHas obj "visible" && !jBool obj "visible"
  let imagePart ←
    if !invisible then do
      let src ← makeImageSource ctx (jStr obj "id") true (ind + 1) placeHolderId
      Except.ok
        ([tabs ind ++ "Image \x7b\n",
          tabs (ind + 1) ++ "id: " ++ imageId ++ "\n",
          tabs (ind + 1) ++ "anchors.centerIn: parent\n",
          tabs (ind + 1) ++ "mipmap: true\n",
          tabs (ind + 1) ++ "fillMode: Image.PreserveAspectFit\n"] ++
         src ++ [tabs ind ++ "\x7d\n"])
    else Except.ok ([] : List String)
  Except.ok
    (makeComponentInstance "Item" obj ind ++
     [tabs ind ++ "x: " ++ numStr ((jGet rect "x").toNum - (jGet prect "x").toNum) ++ "\n",
      tabs ind ++ "y: " ++ numStr ((jGet rect "y").toNum - (jGet prect "y").toNum) ++ "\n",
      tabs ind ++ "width:" ++ numStr sz.1 ++ "\n",
      tabs ind ++ "height:" ++ numStr sz.2 ++ "\n"] ++
     imagePart ++
     [tabs (ind - 1) ++ "\x7d\n"])

/-! ## Remaining non-recursive parsers -/

/-- `parseText` (line 1366). -/
def parseText (ctx : Ctx) (parent : Json) (obj : Json) (ind : Nat) :
    Except String (List String) := do
  let v ← makeVector ctx parent obj ind
  let style ← parseStyle ctx (jGet obj "style") ind
  Except.ok
    (makeItem "Text" obj ind ++ v ++
     [tabs ind ++ "wrapMode: TextEdit.WordWrap\n",
      tabs ind ++ "text:\"" ++ jStr obj "characters" ++ "\"\n"] ++
     style ++
     [tabs (ind - 1) ++ "\x7d\n"])

/-- `parseSlice` (line 1378): empty output, unconditionally, with no error
and no issue report. -/
def parseSlice (_obj : Json) (_ind : Nat) : List String := []

/-- `delegateName` (line 1397). -/
def delegateName (id : String) : String :=
  "delegate_" ++ replaceChar ':' "_" id

/-! ## The delta differencer (`delta`, line 309) -/

/-- One key of the `delta` loop (lines 313-325): for a key of the instance
outside `ignored`, include the instance value when the key is absent from
the base, the comparator's non-Null result when one is registered, or the
instance value under plain inequality. -/
def deltaStep (base : Json) (ignored : List String)
    (compares : List (String × (Json → Json → Json)))
    (acc : List (String × Json)) (kv : String × Json) : List (String × Json) :=
  if ignored.contains kv.1 then acc
  else if !jHas base kv.1 then jObjInsert acc kv.1 kv.2
  else
    match compares.find? (fun c => c.1 == kv.1) with
    | some c =>
      match c.2 (jGet base kv.1) kv.2 with
      | .null => acc
      | ret => jObjInsert acc kv.1 ret
    | none =>
      if jsonBeq (jGet base kv.1) kv.2 then acc else jObjInsert acc kv.1 kv.2

/-- `delta(instance, base, ignored, compares)` (line 309): fold the step
over the instance keys; a non-empty delta gets `name` re-inserted unless
ignored. -/
def delta (instanceObj base : Json) (ignored : List String)
    (compares : List (String × (Json → Json → Json))) : Json :=
  let newFields := instanceObj.fields.foldl (deltaStep base ignored compares) []
  let newFields :=
    if !newFields.isEmpty then
      if !ignored.contains "name" && jHas instanceObj "name" then
        jObjInsert newFields "name" (jGet instanceObj "name")
      else newFields
    else newFields
  .obj newFields

/-! ## The recursive descent

All recursion of the source goes through `parse`; each recursive method
becomes a function over the recursion callback `rec`, and `parse` ties the
knot by structural recursion on the fuel (`Nat.rec`), so that concrete runs
reduce in the kernel. -/

/-- The type of the recursive entry: `m_parent` slot, node, indentation,
accumulated `m_componentIds`; the result pairs the output chunks with the
updated id set. -/
abbrev ParseFn :=
  Json → Json → Nat → List String → Except String (List String × List String)

/-- `OrderedMap::keys` (insertion order, duplicates kept). -/
def omKeys (m : List (String × List String)) : List String := m.map Prod.fst

/-- Distinct keys (an `OrderedMap` insert overwrites `m_index`, so `size()`
counts distinct keys). -/
def dedupKeys : List String → List String
  | [] => []
  | k :: ks => if ks.contains k then dedupKeys ks else k :: dedupKeys ks

/-- `OrderedMap::size` (`m_index.size()`). -/
def omSize (m : List (String × List String)) : Nat := (dedupKeys (omKeys m)).length

/-- Concatenated values in insertion order (the range-for over `m_data`). -/
def omValues (m : List (String × List String)) : List String :=
  (m.map Prod.snd).flatten

/-- `OrderedMap::operator[]`: the value of the latest insertion with the
key (`m_index` holds the last index). -/
def omLookup (m : List (String × List String)) (k : String) : List String :=
  match m.reverse.find? (fun kv => kv.1 == k) with
  | some kv => kv.2
  | none => []

/-- The chunks emitted when a mask child is met (lines 1861-1881): the
opacity-mask composition header, the mask child's own parse as mask source,
and the still-open masked-content `Item` with id `source_...`. -/
def maskChunks (child : Json) (ind : Nat) (childOut : List String) : List String :=
  let maskSourceId := "mask_" ++ qmlId (jStr child "id")
  let sourceId := "source_" ++ qmlId (jStr child "id")
  [tabs ind ++ "Item \x7b\n",
   tabs ind ++ "anchors.fill:parent\n",
   tabs ind ++ "OpacityMask \x7b\n",
   tabs (ind + 1) ++ "anchors.fill:parent\n",
   tabs (ind + 1) ++ "source: " ++ sourceId ++ "\n",
   tabs (ind + 1) ++ "maskSource: " ++ maskSourceId ++ "\n",
   tabs ind ++ "\x7d\n\n",
   tabs ind ++ "Item \x7b\n",
   tabs (ind + 1) ++ "id: " ++ maskSourceId ++ "\n",
   tabs (ind + 1) ++ "anchors.fill:parent\n"] ++
  childOut ++
  [tabs (ind + 1) ++ "visible:false\n",
   tabs ind ++ "\x7d\n\n",
   tabs ind ++ "Item \x7b\n",
   tabs (ind + 1) ++ "id: " ++ sourceId ++ "\n",
   tabs (ind + 1) ++ "anchors.fill:parent\n",
   tabs (ind + 1) ++ "visible:false\n"]

/-- The children loop of `parseChildrenItems` (line 1849): a child flagged
`isMask` opens the opacity-mask composite (its own parse becomes the mask
source and the source `Item` is left open), every other child is parsed into
the ordered map — at `ind+1` before a mask was seen, at `ind+2` after.
`m_parent` is set to `obj` around each child parse. -/
def pciLoop (rec : ParseFn) (obj : Json) (ind : Nat) :
    List Json → Bool → List String → List (String × List String) → List String →
    Except String (Bool × List String × List (String × List String) × List String)
  | [], hasMask, out, items, ids => Except.ok (hasMask, out, items, ids)
  | child :: rest, hasMask, out, items, ids =>
    if jHas child "isMask" && jBool child "isMask" then do
      let (childOut, ids') ← rec obj child (ind + 2) ids
      pciLoop rec obj ind rest true (out ++ maskChunks child ind childOut) items ids'
    else do
      let (childOut, ids') ← rec obj child (if hasMask then ind + 2 else ind + 1) ids
      pciLoop rec obj ind rest hasMask out (items ++ [(jStr child "id", childOut)]) ids'

/-- `parseChildrenItems` (line 1849): after the loop, a seen mask collapses
the whole map — every parsed child item is appended into the still-open
source `Item` of the composite — into the single `maskedItem` entry. -/
def parseChildrenItemsF (rec : ParseFn) (obj : Json) (ind : Nat) (ids : List String) :
    Except String (List (String × List String) × List String) := do
  if jHas obj "children" then
    let (hasMask, out, items, ids') ←
      pciLoop rec obj ind (jArr obj "children") false [] [] ids
    if hasMask then
      let out' := out ++ omValues items ++
        [tabs (ind + 1) ++ "\x7d\n", tabs ind ++ "\x7d\n"]
      Except.ok ([("maskedItem", out')], ids')
    else
      Except.ok (items, ids')
  else
    Except.ok ([], ids)

/-- `parseChildren` (line 1842). -/
def parseChildrenF (rec : ParseFn) (obj : Json) (ind : Nat) (ids : List String) :
    Except String (List String × List String) := do
  let (items, ids') ← parseChildrenItemsF rec obj ind ids
  Except.ok (omValues items, ids')

/-- `makePlainItem` (line 735). -/
def makePlainItemF (rec : ParseFn) (ctx : Ctx) (parent : Json) (obj : Json)
    (ind : Nat) (ids : List String) : Except String (List String × List String) := do
  let fill ← makeFill ctx obj ind
  let (childOut, ids') ← parseChildrenF rec obj ind ids
  Except.ok
    (makeItem "Rectangle" obj ind ++ fill ++
     makeExtents ctx parent obj ind rect0 ++ childOut ++
     [tabs (ind - 1) ++ "\x7d\n"], ids')

/-- `parseFrame` (line 1384). -/
def parseFrameF (rec : ParseFn) (ctx : Ctx) (parent : Json) (obj : Json)
    (ind : Nat) (ids : List String) : Except String (List String × List String) := do
  let v ← makeVector ctx parent obj ind
  let (childOut, ids') ← parseChildrenF rec obj ind ids
  Except.ok
    (makeItem "Rectangle" obj ind ++ v ++
     (if jHas obj "cornerRadius" then
       [tabs ind ++ "radius:" ++ numStr (jNum obj "cornerRadius") ++ "\n"]
     else []) ++
     [tabs ind ++ "clip: " ++ (if jBool obj "clipsContent" then "true" else "false") ++ " \n"] ++
     childOut ++
     [tabs (ind - 1) ++ "\x7d\n"], ids')

/-- `parseGroup` (line 1452). -/
def parseGroupF (rec : ParseFn) (ctx : Ctx) (parent : Json) (obj : Json)
    (ind : Nat) (ids : List String) : Except String (List String × List String) :=
  parseFrameF rec ctx parent obj ind ids

/-- Upper-case the first character (`QString(id[0]).toUpper() + id.mid(1)`). -/
def upperFirst (s : String) : String :=
  match s.data with
  | c :: rest => String.mk (asciiUpper c :: rest)
  | [] => s

/-- `"Nan ".repeated(16)`. -/
def repeatStr (n : Nat) (s : String) : String := String.join (List.replicate n s)

/-- `QString("Nan ").repeated(16).split(' ').join(",")` (line 1422): the
16 `Nan`s and a trailing empty part. -/
def nanMatrixArgs : String := joinWith "," (splitOnChar ' ' (repeatStr 16 "Nan "))

/-- The delegate property names driven two-way (line 1424). -/
def delegateProps : List String := ["x", "y", "width", "height"]

/-- `parseComponent` (line 1404), `ParseComponent` branch: the frame body
plus one delegate `Component` slot with two-way bound scalar properties per
child. -/
def parseComponentBodyF (rec : ParseFn) (ctx : Ctx) (parent : Json) (obj : Json)
    (ind : Nat) (ids : List String) : Except String (List String × List String) := do
  let v ← makeVector ctx parent obj ind
  let (children, ids') ← parseChildrenItemsF rec obj ind ids
  let perKey := (omKeys children).map (fun key =>
    let id := delegateName key
    let sname := upperFirst id
    [tabs ind ++ "property Component " ++ id ++ ": " ++ chunksToString (omLookup children key),
     tabs ind ++ "property Item i_" ++ id ++ "\n",
     tabs ind ++ "property matrix4x4 " ++ id ++ "_transform: Qt.matrix4x4(" ++ nanMatrixArgs ++ ")\n",
     tabs ind ++ "on" ++ sname ++ "_transformChanged: \x7bif(i_" ++ id ++ " && i_" ++ id ++
       ".transform != " ++ id ++ "_transform) i_" ++ id ++ ".transform = " ++ id ++ "_transform;\x7d\n"] ++
    (delegateProps.map (fun p =>
      [tabs ind ++ "property real " ++ id ++ "_" ++ p ++ ": NaN\n",
       tabs ind ++ "on" ++ sname ++ "_" ++ p ++ "Changed: \x7bif(i_" ++ id ++ " && i_" ++ id ++
         "." ++ p ++ " != " ++ id ++ "_" ++ p ++ ") i_" ++ id ++ "." ++ p ++ " = " ++ id ++
         "_" ++ p ++ ";\x7d\n"])).flatten)
  let completed := (omKeys children).map (fun key =>
    let dname := delegateName key
    [tabs (ind + 1) ++ "const o_" ++ dname ++ " = \x7b\x7d\n",
     tabs (ind + 1) ++ "if(!isNaN(" ++ dname ++ "_transform.m11)) o_" ++ dname ++
       "[\x27transform\x27] = " ++ dname ++ "_transform;\n"] ++
    (delegateProps.map (fun p =>
      tabs (ind + 1) ++ "if(!isNaN(" ++ dname ++ "_" ++ p ++ ")) o_" ++ dname ++
        "[\x27" ++ p ++ "\x27] = " ++ dname ++ "_" ++ p ++ ";\n")) ++
    [tabs (ind + 1) ++ "i_" ++ dname ++ " = " ++ dname ++ ".createObject(this, o_" ++ dname ++ ")\n"] ++
    (delegateProps.map (fun p =>
      tabs (ind + 1) ++ dname ++ "_" ++ p ++ " = Qt.binding(()=>i_" ++ dname ++ "." ++ p ++ ")\n")))
  Except.ok
    (makeItem "Rectangle" obj ind ++ v ++
     (if jHas obj "cornerRadius" then
       [tabs ind ++ "radius:" ++ numStr (jNum obj "cornerRadius") ++ "\n"]
     else []) ++
     [tabs ind ++ "clip: " ++ (if jBool obj "clipsContent" then "true" else "false") ++ " \n"] ++
     perKey.flatten ++
     [tabs ind ++ "Component.onCompleted: \x7b\n"] ++
     completed.flatten ++
     [tabs ind ++ "\x7d\n",
      tabs (ind - 1) ++ "\x7d\n"], ids')

/-- The key matching of the `makeInstanceChildren` loop (line 1750): the
first key whose trailing `;`-section equals the component child's id
(`std::distance` of the `find_if`, i.e. `keys.size()` when unmatched — the
source `Q_ASSERT`s that a match exists). -/
def icMatchIdx (keys : List String) (id : String) : Nat :=
  keys.findIdx (fun key => (splitOnChar ';' key).getLastD "" == id)

/-- The per-child delta of `makeInstanceChildren` (line 1760):
`absoluteBoundingBox`, `name` and `id` are ignored, and the `children`
comparator treats boolean subtrees as equal when boolean-breaking is off. -/
def icDelta (ctx : Ctx) (objChild cchild : Json) : Json :=
  delta objChild cchild ["absoluteBoundingBox", "name", "id"]
    [("children", fun o c =>
      if (typeOf? objChild == some ItemType.boolean && !hasFlag ctx flagBreakBooleans)
          || jsonBeq o c then Json.null else c)]

/-- The minimal-override test (lines 1768-1774): the delta holds at most
the two layout keys, measured by the sizes the source compares. -/
def minimalDeltaCond (d : Json) : Bool :=
  decide (d.fields.length ≤ 2)
    && ((d.fields.length == 2
          && jHas d "relativeTransform" && jHas d "size")
        || (d.fields.length == 1
          && (jHas d "relativeTransform" || jHas d "size")))

/-- The scalar-binding branch of the loop (lines 1775-1789): bound
transform/x/y/width/height assignments on the parent's delegate slot. -/
def icScalarOut (objChild d : Json) (id : String) (ind : Nat) : List String :=
  let delegateId := delegateName id
  (if jHas d "relativeTransform" then
    let transform := makeTransforms objChild (ind + 1)
    (if !transform.isEmpty then
      [tabs ind ++ delegateId ++ "_transform: " ++ chunksToString transform ++ "\n"]
    else []) ++
    [tabs ind ++ delegateId ++ "_x: " ++ numStr (position objChild).1 ++ "\n",
     tabs ind ++ delegateId ++ "_y: " ++ numStr (position objChild).2 ++ "\n"]
  else []) ++
  (if jHas d "size" then
    let size := jGet d "size"
    [tabs ind ++ delegateId ++ "_width: " ++ numStr (jNum size "x") ++ "\n",
     tabs ind ++ delegateId ++ "_height: " ++ numStr (jNum size "y") ++ "\n"]
  else [])

/-- The full-subtree branch (line 1791): the child's parsed body assigned
to the synthesized delegate identifier. -/
def icFullOut (children : List (String × List String)) (keys : List String)
    (index : Nat) (id : String) (ind : Nat) : List String :=
  [tabs ind ++ delegateName id ++ ":" ++ chunksToString (omLookup children (keys.getD index ""))]

/-- One iteration of the `makeInstanceChildren` loop over the component's
children (lines 1745-1792): positional matching through the trailing
`;`-section of the instance-path key, the delta against the component
child, and the minimal-override branch. -/
def instanceChildOut (ctx : Ctx) (objChildren : List Json) (keys : List String)
    (children : List (String × List String)) (ind : Nat) (cc : Json) : List String :=
  let id := jStr cc "id"
  let index := icMatchIdx keys id
  let objChild := objChildren.getD index Json.null
  let deltaObject := icDelta ctx objChild cc
  if deltaObject.fields.isEmpty then []
  else if minimalDeltaCond deltaObject then
    icScalarOut objChild deltaObject id ind
  else
    icFullOut children keys index id ind

/-- `makeInstanceChildren` (line 1731): parse the instance children, bail
out to plain emission when the counts do not match, and otherwise drive the
per-component-child override loop. -/
def makeInstanceChildrenF (rec : ParseFn) (ctx : Ctx) (obj comp : Json)
    (ind : Nat) (ids : List String) : Except String (List String × List String) := do
  let compChildren := jArr comp "children"
  let objChildren := jArr obj "children"
  let (children, ids') ← parseChildrenItemsF rec obj ind ids
  if compChildren.length != omSize children then
    Except.ok (omValues children, ids')
  else
    let keys := omKeys children
    Except.ok
      (compChildren.foldl
        (fun acc cc => acc ++ instanceChildOut ctx objChildren keys children ind cc) [],
      ids')

/-- `parseInstance` (line 1805): resolve the component (fatal when the
catalogue lacks it), record the dependency, and emit either the component
reference or the delta-instance body. -/
def parseInstanceF (rec : ParseFn) (ctx : Ctx) (parent : Json) (obj : Json)
    (ind : Nat) (ids : List String) : Except String (List String × List String) := do
  let isInstance := typeOf? obj == some ItemType.instanceT
  let componentId := (if isInstance then jGet obj "componentId" else jGet obj "id").asStr
  let ids := qsetInsert ids componentId
  if !(ctx.components.any (fun kc => kc.1 == componentId)) then
    Except.error ("Unexpected component dependency from " ++ jStr obj "id" ++ " to " ++ componentId)
  else
    let comp := ctxComp ctx componentId
    if !isInstance then
      Except.ok (makeComponentInstance comp.name obj ind ++ [tabs (ind - 1) ++ "\x7d\n"], ids)
    else do
      let instanceObject := delta obj comp.object ["children"] []
      -- the two "dummy to prevent transparent" inserts (lines 1824-1831)
      let instanceObject :=
        if jHas obj "fills" && !jHas instanceObject "fills" then
          Json.obj (jObjInsert instanceObject.fields "fills" (.str ""))
        else instanceObject
      let instanceObject :=
        if jHas obj "strokes" && !jHas instanceObject "strokes" then
          Json.obj (jObjInsert instanceObject.fields "strokes" (.str ""))
        else instanceObject
      let v ← makeVector ctx parent instanceObject ind
      let (mic, ids') ← makeInstanceChildrenF rec ctx obj comp.object ind ids
      Except.ok
        (makeItem comp.name instanceObject ind ++ v ++ mic ++
         [tabs (ind - 1) ++ "\x7d\n"], ids')

/-- `parseComponent` (line 1404): the delegate-emitting body only under the
`ParseComponent` flag, otherwise the instance path. -/
def parseComponentF (rec : ParseFn) (ctx : Ctx) (parent : Json) (obj : Json)
    (ind : Nat) (ids : List String) : Except String (List String × List String) :=
  if !hasFlag ctx flagParseComponent then
    parseInstanceF rec ctx parent obj ind ids
  else
    parseComponentBodyF rec ctx parent obj ind ids

/-- Sequential parsing of a child list (the `for` loops over boolean
children), concatenating the outputs. -/
def parseSeqF (rec : ParseFn) (parent : Json) (ind : Nat) :
    List Json → List String → Except String (List String × List String)
  | [], ids => Except.ok ([], ids)
  | c :: rest, ids => do
    let (o, ids') ← rec parent c ind ids
    let (os, ids'') ← parseSeqF rec parent ind rest ids'
    Except.ok (o ++ os, ids'')

/-- The repeated first-fill emission of `parseBooleanOperation` (the
transparent fallback sits at its own indentation in the source, so both
levels are parameters). -/
def boolFillsPart (ctx : Ctx) (obj : Json) (fillInd transparentInd : Nat) :
    Except String (List String) :=
  if (jArr obj "fills").length > 0 then
    makeFill ctx (arrAt (jArr obj "fills") 0) fillInd
  else if !(jGet obj "fills").isStr then
    Except.ok [tabs transparentInd ++ "color: \"transparent\"\n"]
  else Except.ok []

/-- The `INTERSECT` loop (lines 1566-1584): iteratively mask the running
source by each child's silhouette. -/
def intersectLoopF (rec : ParseFn) (obj : Json) (ind : Nat)
    (sourceId maskSourceId : String) :
    List Json → Nat → String → List String → Except String (List String × List String)
  | [], _, _, ids => Except.ok ([], ids)
  | c :: rest, i, nextSourceId, ids => do
    let maskId := maskSourceId ++ "_" ++ natRepr i
    let (childOut, ids') ← rec obj c (ind + 2) ids
    let newNext := sourceId ++ "_" ++ natRepr i
    let chunks :=
      [tabs ind ++ "Item \x7b\n",
       tabs (ind + 1) ++ "anchors.fill: parent\n",
       tabs (ind + 1) ++ "visible: false\n"] ++
      childOut ++
      [tabs (ind + 1) ++ "id: " ++ maskId ++ "\n",
       tabs ind ++ "\x7d\n",
       tabs ind ++ "OpacityMask \x7b\n",
       tabs (ind + 1) ++ "anchors.fill:" ++ sourceId ++ "\n",
       tabs (ind + 1) ++ "source:" ++ nextSourceId ++ "\n",
       tabs (ind + 1) ++ "maskSource:" ++ maskId ++ "\n",
       tabs (ind + 1) ++ "id: " ++ newNext ++ "\n"] ++
      (if !rest.isEmpty then [tabs (ind + 1) ++ "visible: false\n"] else []) ++
      [tabs ind ++ "\x7d\n"]
    let (restOut, ids'') ← intersectLoopF rec obj ind sourceId maskSourceId rest (i + 1) newNext ids'
    Except.ok (chunks ++ restOut, ids'')

/-- The `EXCLUDE` loop (lines 1634-1663): the two-pass XOR shader chain. -/
def excludeLoopF (rec : ParseFn) (obj : Json) (ind : Nat)
    (sourceId maskSourceId : String) :
    List Json → Nat → String → List String → Except String (List String × List String)
  | [], _, _, ids => Except.ok ([], ids)
  | c :: rest, i, nextSourceId, ids => do
    let maskId := maskSourceId ++ "_" ++ natRepr i
    let (childOut, ids') ← rec obj c (ind + 2) ids
    let newNext := sourceId ++ "_" ++ natRepr i
    let chunks :=
      [tabs ind ++ "Item \x7b\n",
       tabs (ind + 1) ++ "visible: false\n",
       tabs (ind + 1) ++ "anchors.fill: parent\n"] ++
      childOut ++
      [tabs (ind + 1) ++ "layer.enabled: true\n",
       tabs (ind + 1) ++ "id: " ++ maskId ++ "\n",
       tabs ind ++ "\x7d\n",
       tabs ind ++ "ShaderEffect \x7b\n",
       tabs (ind + 1) ++ "anchors.fill: parent\n",
       tabs (ind + 1) ++ "layer.enabled: true\n",
       tabs (ind + 1) ++ "property var colorSource:" ++ sourceId ++ "\n"] ++
      (if !nextSourceId.data.isEmpty then
        [tabs (ind + 2) ++ "property var prevMask: ShaderEffectSource \x7b\n",
         tabs (ind + 2) ++ "sourceItem: " ++ nextSourceId ++ "\n",
         tabs (ind + 1) ++ "\x7d\n"]
      else []) ++
      [tabs (ind + 1) ++ "property var currentMask:" ++ maskId ++ "\n",
       tabs (ind + 1) ++ "fragmentShader: " ++ sourceId ++
         (if nextSourceId.data.isEmpty then ".shaderSource0" else ".shaderSource") ++ "\n"] ++
      (if !rest.isEmpty then
        [tabs (ind + 1) ++ "visible: false\n",
         tabs (ind + 1) ++ "id: " ++ newNext ++ "\n"]
      else []) ++
      [tabs (ind + 1) ++ "\x7d\n"]
    let (restOut, ids'') ← excludeLoopF rec obj ind sourceId maskSourceId rest (i + 1) newNext ids'
    Except.ok (chunks ++ restOut, ids'')

/-- The body of `parseBooleanOperation` past the guards (lines 1466-1671):
the four supported operations build composites, any other operation string
returns empty output (the `else` arm at line 1665), and only the supported
operations append the final closing brace. -/
def booleanOpBodyF (rec : ParseFn) (ctx : Ctx) (parent : Json) (obj : Json)
    (ind : Nat) (ids : List String) : Except String (List String × List String) := do
  let children := jArr obj "children"
  let operation := jStr obj "booleanOperation"
  let head := makeItem "Item" obj ind ++ makeExtents ctx parent obj ind rect0
  let sourceId := "source_" ++ qmlId (jStr obj "id")
  let maskSourceId := "maskSource_" ++ qmlId (jStr obj "id")
  if operation == "UNION" then do
    let fillsPart ← boolFillsPart ctx obj (ind + 1) (ind + 1)
    let (childrenOut, ids') ← parseChildrenF rec obj (ind + 1) ids
    Except.ok
      (head ++
       [tabs ind ++ "Rectangle \x7b\n",
        tabs (ind + 1) ++ "id: " ++ sourceId ++ "\n",
        tabs (ind + 1) ++ "anchors.fill: parent\n"] ++
       fillsPart ++
       [tabs (ind + 1) ++ "visible: false\n",
        tabs ind ++ "\x7d\n",
        tabs ind ++ "Item \x7b\n",
        tabs (ind + 1) ++ "anchors.fill: parent\n",
        tabs (ind + 1) ++ "visible: false\n",
        tabs (ind + 1) ++ "id: " ++ maskSourceId ++ "\n"] ++
       childrenOut ++
       [tabs ind ++ "\x7d\n",
        tabs ind ++ "OpacityMask \x7b\n",
        tabs (ind + 1) ++ "anchors.fill:" ++ sourceId ++ "\n",
        tabs (ind + 1) ++ "source:" ++ sourceId ++ "\n",
        tabs (ind + 1) ++ "maskSource:" ++ maskSourceId ++ "\n",
        tabs ind ++ "\x7d\n",
        tabs (ind - 1) ++ "\x7d\n"], ids')
  else if operation == "SUBTRACT" then do
    let fillsPart ← boolFillsPart ctx obj (ind + 2) (ind + 1)
    let (firstOut, ids') ← rec obj (arrAt children 0) (ind + 3) ids
    let (restOut, ids'') ← parseSeqF rec obj (ind + 2) (children.drop 1) ids'
    Except.ok
      (head ++
       [tabs ind ++ "Item \x7b\n",
        tabs (ind + 1) ++ "anchors.fill: parent\n",
        tabs (ind + 1) ++ "visible: false\n",
        tabs (ind + 1) ++ "id: " ++ sourceId ++ "_subtract\n",
        tabs (ind + 1) ++ "Rectangle \x7b\n",
        tabs (ind + 2) ++ "id: " ++ sourceId ++ "\n",
        tabs (ind + 2) ++ "anchors.fill: parent\n",
        tabs (ind + 2) ++ "visible: false\n"] ++
       fillsPart ++
       [tabs (ind + 1) ++ "\x7d\n",
        tabs (ind + 1) ++ "Item \x7b\n",
        tabs (ind + 2) ++ "anchors.fill: parent\n",
        tabs (ind + 2) ++ "visible: false\n",
        tabs (ind + 2) ++ "id:" ++ maskSourceId ++ "\n"] ++
       firstOut ++
       [tabs (ind + 1) ++ "\x7d\n",
        tabs (ind + 1) ++ "OpacityMask \x7b\n",
        tabs (ind + 2) ++ "anchors.fill:" ++ sourceId ++ "\n",
        tabs (ind + 2) ++ "source:" ++ sourceId ++ "\n",
        tabs (ind + 2) ++ "maskSource:" ++ maskSourceId ++ "\n",
        tabs (ind + 1) ++ "\x7d\n",
        tabs ind ++ "\x7d\n",
        tabs ind ++ "Item \x7b\n",
        tabs (ind + 1) ++ "anchors.fill: parent\n",
        tabs (ind + 1) ++ "visible: false\n",
        tabs (ind + 1) ++ "id: " ++ maskSourceId ++ "_subtract\n"] ++
       restOut ++
       [tabs ind ++ "\x7d\n",
        tabs ind ++ "OpacityMask \x7b\n",
        tabs (ind + 1) ++ "anchors.fill:" ++ sourceId ++ "_subtract\n",
        tabs (ind + 1) ++ "source:" ++ sourceId ++ "_subtract\n",
        tabs (ind + 1) ++ "maskSource:" ++ maskSourceId ++ "_subtract\n",
        tabs (ind + 1) ++ "invert: true\n",
        tabs ind ++ "\x7d\n",
        tabs (ind - 1) ++ "\x7d\n"], ids'')
  else if operation == "INTERSECT" then do
    let fillsPart ← boolFillsPart ctx obj (ind + 1) (ind + 1)
    let (loopOut, ids') ← intersectLoopF rec obj ind sourceId maskSourceId children 0 sourceId ids
    Except.ok
      (head ++
       [tabs ind ++ "Rectangle \x7b\n",
        tabs (ind + 1) ++ "id: " ++ sourceId ++ "\n",
        tabs (ind + 1) ++ "anchors.fill: parent\n"] ++
       fillsPart ++
       [tabs (ind + 1) ++ "visible: false\n",
        tabs ind ++ "\x7d\n"] ++
       loopOut ++
       [tabs (ind - 1) ++ "\x7d\n"], ids')
  else if operation == "EXCLUDE" then do
    let fillsPart ← boolFillsPart ctx obj (ind + 1) (ind + 1)
    let (loopOut, ids') ← excludeLoopF rec obj ind sourceId maskSourceId children 0 "" ids
    Except.ok
      (head ++
       [tabs ind ++ "Rectangle \x7b\n",
        tabs (ind + 1) ++ "id: " ++ sourceId ++ "\n",
        tabs (ind + 1) ++ "anchors.fill: parent\n"] ++
       fillsPart ++
       [tabs (ind + 1) ++ "visible: false\n",
        tabs (ind + 1) ++ "layer.enabled: true\n",
        tabs (ind + 1) ++ "readonly property string shaderSource: \"\n",
        tabs (ind + 2) ++ "uniform lowp sampler2D colorSource;\n",
        tabs (ind + 2) ++ "uniform lowp sampler2D prevMask;\n",
        tabs (ind + 2) ++ "uniform lowp sampler2D currentMask;\n",
        tabs (ind + 2) ++ "uniform lowp float qt_Opacity;\n",
        tabs (ind + 2) ++ "varying highp vec2 qt_TexCoord0;\n",
        tabs (ind + 2) ++ "void main() \x7b\n",
        tabs (ind + 3) ++ "vec4 color = texture2D(colorSource, qt_TexCoord0);\n",
        tabs (ind + 3) ++ "vec4 cm = texture2D(currentMask, qt_TexCoord0);\n",
        tabs (ind + 3) ++ "vec4 pm = texture2D(prevMask, qt_TexCoord0);\n",
        tabs (ind + 3) ++
          "gl_FragColor = qt_Opacity * color * ((cm.a * (1.0 - pm.a)) + ((1.0 - cm.a) * pm.a));\n",
        tabs (ind + 2) ++ "\x7d\"\n",
        tabs (ind + 1) ++ "readonly property string shaderSource0: \"\n",
        tabs (ind + 2) ++ "uniform lowp sampler2D colorSource;\n",
        tabs (ind + 2) ++ "uniform lowp sampler2D currentMask;\n",
        tabs (ind + 2) ++ "uniform lowp float qt_Opacity;\n",
        tabs (ind + 2) ++ "varying highp vec2 qt_TexCoord0;\n",
        tabs (ind + 2) ++ "void main() \x7b\n",
        tabs (ind + 3) ++ "vec4 color = texture2D(colorSource, qt_TexCoord0);\n",
        tabs (ind + 3) ++ "vec4 cm = texture2D(currentMask, qt_TexCoord0);\n",
        tabs (ind + 3) ++ "gl_FragColor = cm.a * color;\n",
        tabs (ind + 2) ++ "\x7d\"\n",
        tabs ind ++ "\x7d\n"] ++
       loopOut ++
       [tabs (ind - 1) ++ "\x7d\n"], ids')
  else
    -- not supported: empty output, no error, no issue (line 1665)
    Except.ok ([], ids)

/-- `parseBooleanOperation` (line 1457): plain vector pipeline without the
`BreakBooleans` flag; with it, fatal under two children, else the
compositor body. -/
def parseBooleanOperationF (rec : ParseFn) (ctx : Ctx) (parent : Json) (obj : Json)
    (ind : Nat) (ids : List String) : Except String (List String × List String) :=
  if !hasFlag ctx flagBreakBooleans then
    (parseVector ctx parent obj ind).map (fun o => (o, ids))
  else if (jArr obj "children").length < 2 then
    Except.error errBooleanTwo
  else
    booleanOpBodyF rec ctx parent obj ind ids

/-- The dispatch body of `parse` (line 762): reject unknown type strings,
reroute pre-rendered nodes, then dispatch on the type string. -/
def parseBody (ctx : Ctx) (rec : ParseFn) : ParseFn := fun parent obj ind ids =>
  let type := jStr obj "type"
  if !supportedTypes.contains type then
    Except.error (errNonSupported type)
  else if isRendering ctx obj then
    (parseRendered ctx parent obj ind).map (fun o => (o, ids))
  else
    match type with
    | "RECTANGLE" => (parseRectangle ctx parent obj ind).map (fun o => (o, ids))
    | "TEXT" => (parseText ctx parent obj ind).map (fun o => (o, ids))
    | "COMPONENT" => parseComponentF rec ctx parent obj ind ids
    | "BOOLEAN_OPERATION" => parseBooleanOperationF rec ctx parent obj ind ids
    | "INSTANCE" => parseInstanceF rec ctx parent obj ind ids
    | "ELLIPSE" => (parseEllipse ctx parent obj ind).map (fun o => (o, ids))
    | "VECTOR" => (parseVector ctx parent obj ind).map (fun o => (o, ids))
    | "LINE" => (parseLine ctx parent obj ind).map (fun o => (o, ids))
    | "REGULAR_POLYGON" => (parsePolygon ctx parent obj ind).map (fun o => (o, ids))
    | "STAR" => (parseStar ctx parent obj ind).map (fun o => (o, ids))
    | "GROUP" => parseGroupF rec ctx parent obj ind ids
    | "FRAME" => parseFrameF rec ctx parent obj ind ids
    | "SLICE" => Except.ok (parseSlice obj ind, ids)
    | "NONE" => makePlainItemF rec ctx parent obj ind ids
    | _ => Except.error (errNonSupported type)

/-- `parse` with fuel: structural recursion on the fuel through `Nat.rec`,
so that applications at concrete fuel reduce definitionally.  The source
recursion descends into children on every nesting level, hence fuel
`jsonSize obj + 1` is always sufficient (used by `getElement`). -/
def parse (ctx : Ctx) : Nat → ParseFn :=
  Nat.rec (motive := fun _ => ParseFn)
    (fun _ _ _ _ => Except.error "recursion limit")
    (fun _ rec => parseBody ctx rec)

/-- `parseChildrenItems` at a given fuel. -/
def parseChildrenItems (ctx : Ctx) (fuel : Nat) (obj : Json) (ind : Nat)
    (ids : List String) : Except String (List (String × List String) × List String) :=
  parseChildrenItemsF (parse ctx fuel) obj ind ids

/-- `parseBooleanOperation` at a given fuel. -/
def parseBooleanOperation (ctx : Ctx) (fuel : Nat) (parent : Json) (obj : Json)
    (ind : Nat) (ids : List String) : Except String (List String × List String) :=
  parseBooleanOperationF (parse ctx fuel) ctx parent obj ind ids

/-- `makeInstanceChildren` at a given fuel. -/
def makeInstanceChildren (ctx : Ctx) (fuel : Nat) (obj comp : Json) (ind : Nat)
    (ids : List String) : Except String (List String × List String) :=
  makeInstanceChildrenF (parse ctx fuel) ctx obj comp ind ids

/-! ## Public entry points -/

/-- `getElement` (line 345): `m_parent` starts at the node itself and the
descent starts at indentation 1. -/
def getElement (ctx : Ctx) (obj : Json) : Except String Element :=
  match parse ctx (jsonSize obj + 1) obj obj 1 [] with
  | .ok (chunks, ids) =>
    .ok { name := validFileName (jStr obj "name"), id := jStr obj "id",
          type := jStr obj "type", data := chunksToString chunks,
          componentIds := ids }
  | .error e => .error e

/-- The public `element` entry point (line 218): any transpile failure is
reported through the error callback with `isFatal = true` and a default
`Element` is returned.  The second component lists the reported issues. -/
def element (ctx : Ctx) (obj : Json) : Element × List (String × Bool) :=
  match getElement ctx obj with
  | .ok el => (el, [])
  | .error e => ({}, [(excMsg e, true)])

/-- The public `component` entry point (line 208): `element` with the
`ParseComponent` flag forced. -/
def componentElement (ctx : Ctx) (obj : Json) : Element × List (String × Bool) :=
  element (Ctx.mk (ctx.flags ||| flagParseComponent) ctx.images ctx.fonts ctx.components) obj

/-! ## Specification-side helpers

Predicates used only to state properties of the emitted markup; they are
not part of the embedding of the source. -/

/-- A chunk whose text (after its leading indentation) starts with `pat` —
"the chunk opens a `pat` line". -/
def linePredB (pat : String) (chunk : String) : Bool :=
  pat.data.isPrefixOf (chunk.data.dropWhile (fun c => c == ' '))

/-- `prefixClash p l = true` certifies that `p` mismatches `l` within
`l`'s length, so `p` is a prefix of no extension of `l`. -/
def prefixClash : List Char → List Char → Bool
  | [], _ => false
  | _ :: _, [] => false
  | p :: ps, c :: cs => if p == c then prefixClash ps cs else true

/-- Decimal value of a digit string (left fold); inverse of `natDigitsGo`
on its image, which gives injectivity of the rendering. -/
def digitsVal (l : List Char) : Nat :=
  l.foldl (fun a c => 10 * a + (c.toNat - 48)) 0

/-- The candidate sequence of the registration uniquifier: candidate `0` is
the sanitized raw name, candidate `k ≥ 1` is the sanitized `"<raw>_<k>"`. -/
def uniqueCandidate (raw : String) : Nat → String
  | 0 => validFileName raw
  | k + 1 => validFileName (raw ++ "_" ++ natRepr (k + 1))

/-- The sanitized identifier starts with an ASCII letter. -/
def startsWithAsciiLetter (s : String) : Bool :=
  match s.data with
  | c :: _ => isAsciiLetter c
  | [] => false

/-! ## Concrete fixtures for witnesses and counterexamples -/

/-- A context with no option flags and an image provider that always
returns bytes. -/
def ctx0 : Ctx := Ctx.mk 0 (fun _ _ => "IMG") (fun f => f) []

/-- A context with only `BreakBooleans` set. -/
def ctxBB : Ctx := Ctx.mk flagBreakBooleans (fun _ _ => "IMG") (fun f => f) []

/-- A node with an unsupported type string. -/
def c1Obj : Json := .obj
  [("type", .str "UNKNOWN_TYPE"), ("id", .str "1:1"), ("name", .str "x")]

/-- A rectangle whose first fill carries an image reference and that has a
non-trivial centre-aligned stroke (no `strokeAlign` field: the default). -/
def c3ImgObj : Json := .obj
  [("type", .str "RECTANGLE"), ("id", .str "3:1"), ("name", .str "img"),
   ("size", .obj [("x", .num 10), ("y", .num 10)]),
   ("strokeWeight", .num 2),
   ("strokes", .arr [.obj [("color", .obj
      [("r", .num 0), ("g", .num 0), ("b", .num 0), ("a", .num 1)])]]),
   ("fills", .arr [.obj [("imageRef", .str "ref1")]])]

/-- A plain-fill rectangle with a centre-aligned stroke of weight 2. -/
def c3CenterObj : Json := .obj
  [("type", .str "RECTANGLE"), ("id", .str "3:2"), ("name", .str "r"),
   ("size", .obj [("x", .num 100), ("y", .num 50)]),
   ("strokeWeight", .num 2),
   ("strokeAlign", .str "CENTER"),
   ("strokes", .arr [.obj [("color", .obj
      [("r", .num 0), ("g", .num 0), ("b", .num 0), ("a", .num 1)])]]),
   ("fills", .arr [.obj [("color", .obj
      [("r", .num 1), ("g", .num 0), ("b", .num 0), ("a", .num 1)])]])]

/-- `c3CenterObj` with an inside-aligned stroke. -/
def c3InsideObj : Json := .obj
  [("type", .str "RECTANGLE"), ("id", .str "3:3"), ("name", .str "r"),
   ("size", .obj [("x", .num 100), ("y", .num 50)]),
   ("strokeWeight", .num 2),
   ("strokeAlign", .str "INSIDE"),
   ("strokes", .arr [.obj [("color", .obj
      [("r", .num 0), ("g", .num 0), ("b", .num 0), ("a", .num 1)])]]),
   ("fills", .arr [.obj [("color", .obj
      [("r", .num 1), ("g", .num 0), ("b", .num 0), ("a", .num 1)])]])]

/-- Sibling preceding the mask. -/
def c4A : Json := .obj [("type", .str "RECTANGLE"), ("id", .str "a"), ("name", .str "A")]

/-- The mask sibling. -/
def c4M : Json := .obj
  [("type", .str "RECTANGLE"), ("id", .str "m"), ("name", .str "M"), ("isMask", .bool true)]

/-- Sibling following the mask. -/
def c4B : Json := .obj [("type", .str "RECTANGLE"), ("id", .str "b"), ("name", .str "B")]

/-- A parent whose children are `[A, mask, B]`. -/
def c4Obj : Json := .obj [("children", .arr [c4A, c4M, c4B])]

/-- The items produced by the loop over the prefix `[A]` (computed from the
embedding itself, so the witness equations hold by `rfl`). -/
def c4PreItems : List (String × List String) :=
  match pciLoop (parse ctx0 4) c4Obj 1 [c4A] false [] [] [] with
  | .ok (_, _, items, _) => items
  | .error _ => []

/-- The mask child's own parse output (at `ind + 2 = 3`). -/
def c4MOut : List String :=
  match parse ctx0 4 c4Obj c4M 3 [] with
  | .ok (o, _) => o
  | .error _ => []

/-- The items produced by the loop over the suffix `[B]` (mask already
seen). -/
def c4PostItems : List (String × List String) :=
  match pciLoop (parse ctx0 4) c4Obj 1 [c4B] true [] [] [] with
  | .ok (_, _, items, _) => items
  | .error _ => []

/-- A component child (canonical node of the component). -/
def c2CC : Json := .obj
  [("id", .str "1:5"), ("type", .str "RECTANGLE"),
   ("size", .obj [("x", .num 10), ("y", .num 20)]),
   ("relativeTransform", .arr [.arr [.num 1, .num 0, .num 0], .arr [.num 0, .num 1, .num 0]])]

/-- The corresponding instance child: only the translation moved. -/
def c2ObjChild : Json := .obj
  [("id", .str "I7;1:5"), ("type", .str "RECTANGLE"),
   ("size", .obj [("x", .num 10), ("y", .num 20)]),
   ("relativeTransform", .arr [.arr [.num 1, .num 0, .num 5], .arr [.num 0, .num 1, .num 7]])]

/-- An instance child with a different fill (a delta beyond layout). -/
def c2ObjChild2 : Json := .obj
  [("id", .str "I7;1:5"), ("type", .str "RECTANGLE"),
   ("size", .obj [("x", .num 10), ("y", .num 20)]),
   ("relativeTransform", .arr [.arr [.num 1, .num 0, .num 0], .arr [.num 0, .num 1, .num 0]]),
   ("fills", .arr [.obj [("color", .obj
      [("r", .num 1), ("g", .num 0), ("b", .num 0), ("a", .num 1)])]])]

/-- The parsed-children map of the instance (as the loop sees it). -/
def c2Children : List (String × List String) := [("I7;1:5", ["SUBTREE\n"])]

/-- A boolean node with an unsupported operation and no children. -/
def c5Bad : Json := .obj
  [("type", .str "BOOLEAN_OPERATION"), ("id", .str "5:1"), ("name", .str "bo"),
   ("booleanOperation", .str "FOO"), ("children", .arr [])]

/-- A boolean node with an unsupported operation and two children. -/
def c5Ok : Json := .obj
  [("type", .str "BOOLEAN_OPERATION"), ("id", .str "5:2"), ("name", .str "bo"),
   ("booleanOperation", .str "FOO"),
   ("children", .arr
     [.obj [("type", .str "RECTANGLE"), ("id", .str "5:3")],
      .obj [("type", .str "RECTANGLE"), ("id", .str "5:4")]])]

/-- A boolean node with a single child (malformed under `BreakBooleans`). -/
def c6Obj : Json := .obj
  [("type", .str "BOOLEAN_OPERATION"), ("id", .str "6:1"), ("name", .str "bo"),
   ("booleanOperation", .str "UNION"),
   ("children", .arr [.obj [("type", .str "RECTANGLE"), ("id", .str "6:2")]])]

/-- A project whose `components` table has `k1` (inline in the document)
and `k2` (not inline, and the node fetch returns empty bytes). -/
def c7Project : Json := .obj
  [("document", .obj [("type", .str "COMPONENT"), ("id", .str "k1"), ("name", .str "A")]),
   ("components", .obj
     [("k1", .obj [("name", .str "A"), ("key", .str ""), ("description", .str "")]),
      ("k2", .obj [("name", .str "B"), ("key", .str ""), ("description", .str "")])])]

/-- A fetcher whose responses are always empty. -/
def c7Nodes : String → FetchResult := fun _ => FetchResult.empty

/-- A project with two components of the same raw name `Btn`, both inline. -/
def c9Project : Json := .obj
  [("document", .obj
     [("type", .str "DOCUMENT"), ("id", .str "0:0"),
      ("children", .arr
        [.obj [("type", .str "COMPONENT"), ("id", .str "k1")],
         .obj [("type", .str "COMPONENT"), ("id", .str "k2")]])]),
   ("components", .obj
     [("k1", .obj [("name", .str "Btn"), ("key", .str ""), ("description", .str "")]),
      ("k2", .obj [("name", .str "Btn"), ("key", .str ""), ("description", .str "")])])]

/-- The registration loop's outcome on the C7 project, and its parts. -/
def c7LoopOut : List (String × Json) × List (String × Comp) × Option String :=
  registerLoop c7Nodes (jGet c7Project "components")
    (sortStrings (fieldKeys (jGet c7Project "components").fields))
    (getObjects (jGet c7Project "document") "COMPONENT") []

def c7Objs : List (String × Json) := c7LoopOut.1

def c7Acc : List (String × Comp) := c7LoopOut.2.1

def c7Msg : String :=
  match c7LoopOut.2.2 with
  | some m => m
  | none => ""

/-- The parse of the centre-stroked rectangle (computed from the
embedding, so the witness equation holds by `rfl`). -/
def c3CenterOut : List String :=
  match parseVector ctx0 c3CenterObj c3CenterObj 1 with
  | .ok o => o
  | .error _ => []

/-- The parse of the inside-stroked rectangle. -/
def c3InsideOut : List String :=
  match parseVector ctx0 c3InsideObj c3InsideObj 1 with
  | .ok o => o
  | .error _ => []

/-- The parse of the image-filled, centre-stroked rectangle. -/
def c3ImgOut : List String :=
  match parseVector ctx0 c3ImgObj c3ImgObj 1 with
  | .ok o => o
  | .error _ => []

/-! # Verification

General lemmas about the embedding, then one theorem per claim, each with
its witness or counterexample. -/

/-- `parse` at positive fuel unfolds to the dispatch body applied to the
recursion at the previous fuel. -/
theorem parse_succ (ctx : Ctx) (n : Nat) :
    parse ctx (n + 1) = parseBody ctx (parse ctx n) := rfl

/--
C1.  For every node object whose type string is not one of the fourteen
supported type strings, `parse` raises the transpile-failure ("Non
supported object type"), and the public entry point `element` reports the
issue through the error callback with `isFatal = true` and returns a
default `Element` whose markup data is empty — no markup is emitted for
that node.
-/
theorem C1_unknown_type_fatal (ctx : Ctx) (parent obj : Json) (ind : Nat)
    (ids : List String) (fuel : Nat)
    (h : supportedTypes.contains (jStr obj "type") = false) :
    parse ctx (fuel + 1) parent obj ind ids
        = Except.error (errNonSupported (jStr obj "type")) ∧
    element ctx obj = ({}, [(excMsg (errNonSupported (jStr obj "type")), true)]) ∧
    (element ctx obj).1.data = "" := by
  have hp : ∀ m p i s, parse ctx (m + 1) p obj i s
      = Except.error (errNonSupported (jStr obj "type")) := by
    intro m p i s
    rw [parse_succ]
    have h' : jStr obj "type" ∉ supportedTypes := by
      have h2 := h
      simp at h2
      exact h2
    simp [parseBody, h, h']
  have he : element ctx obj
      = ({}, [(excMsg (errNonSupported (jStr obj "type")), true)]) := by
    unfold element getElement
    rw [hp (jsonSize obj) obj 1 []]
  exact ⟨hp fuel parent ind ids, he, by rw [he]⟩

/-- Witness for C1 at the concrete node `c1Obj` (type `"UNKNOWN_TYPE"`). -/
theorem C1_unknown_type_fatal_witness :
    supportedTypes.contains (jStr c1Obj "type") = false ∧
    element ctx0 c1Obj
      = ({}, [(excMsg (errNonSupported (jStr c1Obj "type")), true)]) :=
  ⟨by decide, (C1_unknown_type_fatal ctx0 c1Obj c1Obj 1 [] 0 (by decide)).2.1⟩

/-! ### Lemmas about the name sanitizer -/

/-- Two strings with the same character data are equal. -/
theorem strDataExt {a b : String} (h : a.data = b.data) : a = b := by
  cases a with
  | mk da => cases b with
    | mk db => exact congrArg String.mk h

/-- Sanitizing keeps the characters it accepts. -/
theorem sanitizeChar_eq_self {c : Char} (h : isAlnumU c = true) :
    sanitizeChar c = c := by
  simp [sanitizeChar, h]

/-- Sanitized characters are always in `[a-zA-Z0-9_]`. -/
theorem isAlnumU_sanitizeChar (c : Char) : isAlnumU (sanitizeChar c) = true := by
  unfold sanitizeChar
  split
  · assumption
  · decide

/-- Sanitizing a list of accepted characters is the identity. -/
theorem map_sanitize_id {l : List Char} (h : ∀ c ∈ l, isAlnumU c = true) :
    l.map sanitizeChar = l := by
  induction l with
  | nil => rfl
  | cons a t ih =>
    simp only [List.map_cons]
    rw [sanitizeChar_eq_self (h a (List.mem_cons_self a t)),
      ih (fun c hc => h c (List.mem_cons_of_mem a hc))]

/-- Upper-casing a lowercase letter lands in `[A-Z]`. -/
theorem asciiUpper_toNat_lower {c : Char} (h1 : 97 ≤ c.toNat) (h2 : c.toNat ≤ 122) :
    65 ≤ (asciiUpper c).toNat ∧ (asciiUpper c).toNat ≤ 90 := by
  unfold asciiUpper
  rw [if_pos (by simp [h1, h2])]
  have hb : 97 ≤ c.toNat ∧ c.toNat ≤ 122 := ⟨h1, h2⟩
  generalize c.toNat = n at hb ⊢
  obtain ⟨hb1, hb2⟩ := hb
  interval_cases n <;> simp_all

/-- Upper-casing fixes everything outside `[a-z]`. -/
theorem asciiUpper_eq_self {c : Char} (h : ¬(97 ≤ c.toNat ∧ c.toNat ≤ 122)) :
    asciiUpper c = c := by
  unfold asciiUpper
  rw [if_neg]
  simpa using h

/-- Upper-casing preserves the accepted class. -/
theorem isAlnumU_asciiUpper {c : Char} (h : isAlnumU c = true) :
    isAlnumU (asciiUpper c) = true := by
  by_cases hc : 97 ≤ c.toNat ∧ c.toNat ≤ 122
  · have := asciiUpper_toNat_lower hc.1 hc.2
    simp [isAlnumU, isAsciiAlnum, isAsciiLetter]
    omega
  · rw [asciiUpper_eq_self hc]
    exact h

/-- `validFileName` of an empty name. -/
theorem validFileName_nil {s : String} (h : s.data = []) : validFileName s = "" := by
  unfold validFileName
  rw [if_pos]
  rw [h]
  rfl

/-- The character data of a sanitized non-empty name: the suffixed,
character-sanitized text, with a possible leading `C` and the first
character upper-cased. -/
theorem validFileName_data (s : String) (c : Char) (cs : List Char)
    (h : s.data = c :: cs) :
    (validFileName s).data =
      if isAsciiLetter (sanitizeChar c) = true then
        asciiUpper (sanitizeChar c) :: (cs ++ figmaSuffix.data).map sanitizeChar
      else
        'C' :: sanitizeChar c :: (cs ++ figmaSuffix.data).map sanitizeChar := by
  have hdata : (s ++ figmaSuffix).data = c :: (cs ++ figmaSuffix.data) := by
    rw [String.data_append, h]
    rfl
  unfold validFileName
  rw [if_neg (by rw [h]; simp)]
  simp only [hdata, List.map_cons]
  by_cases hl : isAsciiLetter (sanitizeChar c) = true
  · rw [if_pos hl]
    simp [hl]
  · rw [if_neg hl]
    have : ("C" ++ String.mk (sanitizeChar c :: (cs ++ figmaSuffix.data).map sanitizeChar)).data
        = 'C' :: sanitizeChar c :: (cs ++ figmaSuffix.data).map sanitizeChar := by
      rw [String.data_append]
      rfl
    simp [hl, this]
    decide

/-- The sanitized form of a non-empty name starts with an ASCII capital. -/
theorem validFileName_head_upper (s : String) (h : s.data ≠ []) :
    ∃ c cs, (validFileName s).data = c :: cs ∧ 65 ≤ c.toNat ∧ c.toNat ≤ 90 := by
  obtain ⟨c, cs, hcc⟩ : ∃ c cs, s.data = c :: cs := by
    cases hd : s.data with
    | nil => exact absurd hd h
    | cons a t => exact ⟨a, t, rfl⟩
  rw [validFileName_data s c cs hcc]
  by_cases hl : isAsciiLetter (sanitizeChar c) = true
  · rw [if_pos hl]
    refine ⟨_, _, rfl, ?_⟩
    have hl' := hl
    simp only [isAsciiLetter, Bool.or_eq_true, Bool.and_eq_true, decide_eq_true_eq] at hl'
    rcases hl' with ⟨h1, h2⟩ | ⟨h1, h2⟩
    · exact asciiUpper_toNat_lower h1 h2
    · rw [asciiUpper_eq_self (by omega)]
      exact ⟨h1, h2⟩
  · rw [if_neg hl]
    exact ⟨'C', _, rfl, by decide, by decide⟩

/-- Every character of a sanitized name is in `[a-zA-Z0-9_]`. -/
theorem validFileName_all_alnumU (s : String) :
    ∀ c ∈ (validFileName s).data, isAlnumU c = true := by
  cases hd : s.data with
  | nil =>
    rw [validFileName_nil hd]
    intro c hc
    simp at hc
  | cons a t =>
    rw [validFileName_data s a t hd]
    have htail : ∀ c ∈ (t ++ figmaSuffix.data).map sanitizeChar, isAlnumU c = true := by
      intro c hc
      obtain ⟨d, _, rfl⟩ := List.mem_map.mp hc
      exact isAlnumU_sanitizeChar d
    by_cases hl : isAsciiLetter (sanitizeChar a) = true
    · rw [if_pos hl]
      intro c hc
      rcases List.mem_cons.mp hc with rfl | hc
      · exact isAlnumU_asciiUpper (isAlnumU_sanitizeChar a)
      · exact htail c hc
    · rw [if_neg hl]
      intro c hc
      rcases List.mem_cons.mp hc with rfl | hc
      · decide
      · rcases List.mem_cons.mp hc with rfl | hc
        · exact isAlnumU_sanitizeChar a
        · exact htail c hc

/-- A string differs from `""` exactly when its data is non-empty. -/
theorem ne_empty_iff_data {s : String} : s ≠ "" ↔ s.data ≠ [] := by
  constructor
  · intro h hd
    exact h (strDataExt hd)
  · intro h hd
    rw [hd] at h
    exact h rfl

/-- The sanitized form of a non-empty name starts with an ASCII letter. -/
theorem validFileName_startsLetter {s : String} (hs : s ≠ "") :
    startsWithAsciiLetter (validFileName s) = true := by
  obtain ⟨c, cs, hcons, hc1, hc2⟩ :=
    validFileName_head_upper s (ne_empty_iff_data.mp hs)
  unfold startsWithAsciiLetter
  rw [hcons]
  simp [isAsciiLetter]
  omega

/-- The suffix characters are all accepted. -/
theorem figmaSuffix_alnum : ∀ d ∈ figmaSuffix.data, isAlnumU d = true := by decide

/-- Re-sanitizing appends another `_figma` suffix. -/
theorem validFileName_twice {s : String} (hs : s ≠ "") :
    validFileName (validFileName s) = validFileName s ++ figmaSuffix := by
  obtain ⟨c, cs, hcons, hc1, hc2⟩ :=
    validFileName_head_upper s (ne_empty_iff_data.mp hs)
  have halnum := validFileName_all_alnumU s
  have hcAl : isAlnumU c = true :=
    halnum c (by rw [hcons]; exact List.mem_cons_self c cs)
  have hcsAl : ∀ d ∈ cs, isAlnumU d = true := fun d hdm =>
    halnum d (by rw [hcons]; exact List.mem_cons_of_mem c hdm)
  refine strDataExt ?_
  rw [validFileName_data (validFileName s) c cs hcons]
  rw [sanitizeChar_eq_self hcAl]
  have hletter : isAsciiLetter c = true := by
    simp [isAsciiLetter]
    omega
  rw [if_pos hletter]
  rw [asciiUpper_eq_self (by omega)]
  rw [map_sanitize_id (by
    intro d hdm
    rcases List.mem_append.mp hdm with hdm | hdm
    · exact hcsAl d hdm
    · exact figmaSuffix_alnum d hdm)]
  rw [String.data_append, hcons]
  rfl

/--
C8, counterexample.  Sanitizing is not idempotent: `validFileName "a"` is
`"A_figma"`, and applying `validFileName` to that result appends the
`_figma` suffix again, giving `"A_figma_figma"`.
-/
theorem C8_counterexample :
    validFileName (validFileName "a") ≠ validFileName "a" := by decide

/--
C8 (amended).  The sanitized identifier of a non-empty raw name always
starts with an (uppercase) ASCII letter, but sanitizing is *not*
idempotent: re-applying `validFileName` to its own result appends another
`_figma` suffix (`validFileName (validFileName n) = validFileName n ++
"_figma"`) — the source's `Q_ASSERT(!itemName.endsWith(FIGMA_SUFFIX))`
documents that re-application is outside the function's contract.
-/
theorem C8_sanitizer_amended (s : String) (h : s ≠ "") :
    startsWithAsciiLetter (validFileName s) = true ∧
    validFileName (validFileName s) = validFileName s ++ figmaSuffix :=
  ⟨validFileName_startsLetter h, validFileName_twice h⟩

/-- Witness for the amended C8 at the raw name `"a"`. -/
theorem C8_sanitizer_amended_witness :
    ("a" : String) ≠ "" ∧
    (startsWithAsciiLetter (validFileName "a") = true ∧
     validFileName (validFileName "a") = validFileName "a" ++ figmaSuffix) :=
  ⟨by decide, C8_sanitizer_amended "a" (by decide)⟩

/--
C10.  `validFileName` applied to the empty string returns the empty string
(no suffix, no inserted leading character), and this is the one case in
which the sanitizer's result does not begin with a letter: for every
non-empty input the result starts with an ASCII letter.
-/
theorem C10_empty_name :
    validFileName "" = "" ∧
    (∀ s : String, s ≠ "" → startsWithAsciiLetter (validFileName s) = true) :=
  ⟨by decide, fun _ hs => validFileName_startsLetter hs⟩

/-- Witness for C10: the inner quantified clause applied at `"_9"`. -/
theorem C10_empty_name_witness :
    validFileName "" = "" ∧ startsWithAsciiLetter (validFileName "_9") = true :=
  ⟨C10_empty_name.1, C10_empty_name.2 "_9" (by decide)⟩

/-! ### Lemmas about the registration uniquifier (C9) -/

/-- Value of a decimal digit character. -/
theorem digitChar_toNat {d : Nat} (h : d < 10) : (digitChar d).toNat = 48 + d := by
  interval_cases d <;> decide

/-- Every rendered character is a decimal digit. -/
theorem natDigitsGo_digits (f : Nat) :
    ∀ n, ∀ c ∈ natDigitsGo f n, 48 ≤ c.toNat ∧ c.toNat ≤ 57 := by
  induction f with
  | zero =>
    intro n c hc
    simp [natDigitsGo] at hc
  | succ f ih =>
    intro n c hc
    unfold natDigitsGo at hc
    by_cases hn : n < 10
    · rw [if_pos hn] at hc
      simp at hc
      subst hc
      rw [digitChar_toNat hn]
      omega
    · rw [if_neg hn] at hc
      rcases List.mem_append.mp hc with hc | hc
      · exact ih _ c hc
      · simp at hc
        subst hc
        have hm : n % 10 < 10 := Nat.mod_lt _ (by norm_num)
        rw [digitChar_toNat hm]
        omega

/-- The digit rendering is never empty. -/
theorem natDigitsGo_ne_nil (f n : Nat) : natDigitsGo (f + 1) n ≠ [] := by
  unfold natDigitsGo
  by_cases hn : n < 10
  · rw [if_pos hn]
    simp
  · rw [if_neg hn]
    simp

/-- Folding one more digit. -/
theorem digitsVal_append_last (l : List Char) (d : Char) :
    digitsVal (l ++ [d]) = 10 * digitsVal l + (d.toNat - 48) := by
  unfold digitsVal
  rw [List.foldl_append]
  rfl

/-- `digitsVal` recovers the rendered number (with sufficient fuel). -/
theorem digitsVal_natDigitsGo {f n : Nat} (h : n < f) :
    digitsVal (natDigitsGo f n) = n := by
  induction f generalizing n with
  | zero => omega
  | succ f ih =>
    unfold natDigitsGo
    by_cases hn : n < 10
    · rw [if_pos hn]
      show List.foldl _ 0 [digitChar n] = n
      simp [List.foldl_cons, digitChar_toNat hn]
    · rw [if_neg hn]
      rw [digitsVal_append_last]
      have hlt : n / 10 < n := Nat.div_lt_self (by omega) (by norm_num)
      rw [ih (by omega)]
      have hm : n % 10 < 10 := Nat.mod_lt _ (by norm_num)
      rw [digitChar_toNat hm]
      omega

/-- The decimal rendering of naturals is injective. -/
theorem natRepr_inj {m n : Nat} (h : natRepr m = natRepr n) : m = n := by
  have hd : natDigitsGo (m + 1) m = natDigitsGo (n + 1) n := congrArg String.data h
  have h1 := digitsVal_natDigitsGo (Nat.lt_succ_self m)
  have h2 := digitsVal_natDigitsGo (Nat.lt_succ_self n)
  rw [← h1, ← h2, hd]

/-- Decimal digits are in the accepted identifier class. -/
theorem digit_isAlnumU {c : Char} (h : 48 ≤ c.toNat ∧ c.toNat ≤ 57) :
    isAlnumU c = true := by
  simp [isAlnumU, isAsciiAlnum, isAsciiLetter]
  omega

/-- Cancellation on the right of a list append. -/
theorem list_append_cancel_right {α : Type} {x y z : List α}
    (h : x ++ z = y ++ z) : x = y := by
  have := congrArg List.reverse h
  simp only [List.reverse_append] at this
  have := List.append_cancel_left this
  simpa using this

/-- Sanitizing is injective on digit blocks followed by a common tail. -/
theorem sanitized_tail_inj {di dj X : List Char}
    (hdi : ∀ c ∈ di, 48 ≤ c.toNat ∧ c.toNat ≤ 57)
    (hdj : ∀ c ∈ dj, 48 ≤ c.toNat ∧ c.toNat ≤ 57)
    (h : di.map sanitizeChar ++ X = dj.map sanitizeChar ++ X) :
    di = dj := by
  have h2 := list_append_cancel_right h
  rw [map_sanitize_id (fun c hc => digit_isAlnumU (hdi c hc)),
      map_sanitize_id (fun c hc => digit_isAlnumU (hdj c hc))] at h2
  exact h2

/-- The candidates of the registration uniquifier are pairwise distinct. -/
theorem uniqueCandidate_inj (raw : String) :
    Function.Injective (uniqueCandidate raw) := by
  have hcand : ∀ k : Nat,
      uniqueCandidate raw (k + 1) = validFileName (raw ++ "_" ++ natRepr (k + 1)) :=
    fun _ => rfl
  have hcand0 : uniqueCandidate raw 0 = validFileName raw := rfl
  have hsucc : ∀ k : Nat,
      (raw ++ "_" ++ natRepr (k + 1)).data
        = raw.data ++ ('_' :: (natRepr (k + 1)).data) := by
    intro k
    rw [String.data_append, String.data_append]
    simp [show ("_" : String).data = ['_'] from rfl]
  have hdig : ∀ k : Nat, ∀ c ∈ (natRepr (k + 1)).data, 48 ≤ c.toNat ∧ c.toNat ≤ 57 :=
    fun k => natDigitsGo_digits _ _
  have hne : ∀ k : Nat, (natRepr (k + 1)).data ≠ [] := fun k => natDigitsGo_ne_nil _ _
  -- the mixed case 0 vs k+1 is impossible: the sanitized texts have
  -- different lengths (the k+1 candidate carries an extra `_<digits>`).
  have hzero : ∀ j : Nat, uniqueCandidate raw 0 ≠ uniqueCandidate raw (j + 1) := by
    intro j h
    rw [hcand0, hcand j] at h
    cases hr : raw.data with
    | nil =>
      have h0 : validFileName raw = "" := validFileName_nil hr
      obtain ⟨c, cs, hc, _, _⟩ :=
        validFileName_head_upper (raw ++ "_" ++ natRepr (j + 1))
          (by rw [hsucc j, hr]; simp)
      rw [h0] at h
      have hd := congrArg String.data h
      rw [hc] at hd
      exact List.noConfusion hd
    | cons rc rt =>
      have hd := congrArg String.data h
      rw [validFileName_data raw rc rt hr,
          validFileName_data (raw ++ "_" ++ natRepr (j + 1)) rc
            (rt ++ ('_' :: (natRepr (j + 1)).data))
            (by rw [hsucc j, hr]; rfl)] at hd
      have hlen := congrArg List.length hd
      have hnej : (natRepr (j + 1)).data.length ≠ 0 := fun h0 =>
        hne j (List.length_eq_zero.mp h0)
      by_cases hl : isAsciiLetter (sanitizeChar rc) = true
      · rw [if_pos hl, if_pos hl] at hlen
        simp only [List.length_cons, List.length_map, List.length_append] at hlen
        omega
      · rw [if_neg hl, if_neg hl] at hlen
        simp only [List.length_cons, List.length_map, List.length_append] at hlen
        omega
  intro i j h
  match i, j with
  | 0, 0 => rfl
  | 0, j + 1 => exact absurd h (hzero j)
  | i + 1, 0 => exact absurd h.symm (hzero i)
  | i + 1, j + 1 =>
    rw [hcand i, hcand j] at h
    have hdij : (natRepr (i + 1)).data = (natRepr (j + 1)).data := by
      cases hr : raw.data with
      | nil =>
        have hd := congrArg String.data h
        rw [validFileName_data (raw ++ "_" ++ natRepr (i + 1)) '_'
              ((natRepr (i + 1)).data) (by rw [hsucc i, hr]; rfl),
            validFileName_data (raw ++ "_" ++ natRepr (j + 1)) '_'
              ((natRepr (j + 1)).data) (by rw [hsucc j, hr]; rfl)] at hd
        simp only [List.map_append] at hd
        by_cases hl : isAsciiLetter (sanitizeChar '_') = true
        · rw [if_pos hl, if_pos hl] at hd
          have hd2 := (List.cons.injEq _ _ _ _).mp hd
          exact sanitized_tail_inj (hdig i) (hdig j) hd2.2
        · rw [if_neg hl, if_neg hl] at hd
          have hd2 := (List.cons.injEq _ _ _ _).mp hd
          have hd3 := (List.cons.injEq _ _ _ _).mp hd2.2
          exact sanitized_tail_inj (hdig i) (hdig j) hd3.2
      | cons rc rt =>
        have hd := congrArg String.data h
        rw [validFileName_data (raw ++ "_" ++ natRepr (i + 1)) rc
              (rt ++ ('_' :: (natRepr (i + 1)).data)) (by rw [hsucc i, hr]; rfl),
            validFileName_data (raw ++ "_" ++ natRepr (j + 1)) rc
              (rt ++ ('_' :: (natRepr (j + 1)).data)) (by rw [hsucc j, hr]; rfl)] at hd
        simp only [List.append_assoc, List.cons_append, List.map_append,
          List.map_cons] at hd
        by_cases hl : isAsciiLetter (sanitizeChar rc) = true
        · rw [if_pos hl, if_pos hl] at hd
          have hd2 := (List.cons.injEq _ _ _ _).mp hd
          have hd3 := List.append_cancel_left hd2.2
          have hd4 := (List.cons.injEq _ _ _ _).mp hd3
          exact sanitized_tail_inj (hdig i) (hdig j) hd4.2
        · rw [if_neg hl, if_neg hl] at hd
          have hd2 := (List.cons.injEq _ _ _ _).mp hd
          have hd3 := (List.cons.injEq _ _ _ _).mp hd2.2
          have hd4 := List.append_cancel_left hd3.2
          have hd5 := (List.cons.injEq _ _ _ _).mp hd4
          exact sanitized_tail_inj (hdig i) (hdig j) hd5.2
    have heq : natRepr (i + 1) = natRepr (j + 1) := strDataExt hdij
    have := natRepr_inj heq
    omega

/-- Among the first `taken.length + 1` candidates one is not taken. -/
theorem exists_fresh (taken : List String) (raw : String) :
    ∃ i, i ≤ taken.length ∧ uniqueCandidate raw i ∉ taken := by
  by_contra hcon
  push_neg at hcon
  have hsub : ((List.range (taken.length + 1)).map (uniqueCandidate raw)) ⊆ taken := by
    intro x hx
    obtain ⟨i, hi, rfl⟩ := List.mem_map.mp hx
    exact hcon i (by simp only [List.mem_range] at hi; omega)
  have hnd : ((List.range (taken.length + 1)).map (uniqueCandidate raw)).Nodup :=
    (List.nodup_range _).map (uniqueCandidate_inj raw)
  have h1 : ((List.range (taken.length + 1)).map (uniqueCandidate raw)).toFinset.card
      = taken.length + 1 := by
    rw [List.toFinset_card_of_nodup hnd]
    simp
  have h2 : ((List.range (taken.length + 1)).map (uniqueCandidate raw)).toFinset
      ⊆ taken.toFinset := by
    intro x hx
    rw [List.mem_toFinset] at hx ⊢
    exact hsub hx
  have h3 := Finset.card_le_card h2
  have h4 := List.toFinset_card_le taken
  omega

/-- The search loop returns a name outside `taken` whenever a free
candidate lies within its fuel window. -/
theorem uniqueNameSearch_fresh (taken : List String) (raw : String) :
    ∀ (fuel k : Nat),
    (∃ j, k ≤ j ∧ j < k + fuel ∧ uniqueCandidate raw j ∉ taken) →
    uniqueNameSearch taken raw fuel (uniqueCandidate raw k) (k + 1) ∉ taken := by
  intro fuel
  induction fuel with
  | zero =>
    rintro k ⟨j, h1, h2, _⟩
    omega
  | succ fuel ih =>
    rintro k ⟨j, hj1, hj2, hj3⟩
    unfold uniqueNameSearch
    by_cases hc : taken.contains (uniqueCandidate raw k)
    · rw [if_pos hc]
      have hk : uniqueCandidate raw k ∈ taken := by simpa using hc
      have hkj : j ≠ k := fun he => hj3 (he ▸ hk)
      show uniqueNameSearch taken raw fuel (uniqueCandidate raw (k + 1)) (k + 1 + 1) ∉ taken
      exact ih (k + 1) ⟨j, by omega, by omega, hj3⟩
    · rw [if_neg hc]
      intro hmem
      exact hc (by simpa using hmem)

/-- The registration uniquifier never returns a taken name: the fuel
`taken.length + 1` covers a free candidate by `exists_fresh`. -/
theorem uniqueName_fresh (taken : List String) (raw : String) :
    uniqueName taken raw ∉ taken := by
  obtain ⟨i, hi, hfree⟩ := exists_fresh taken raw
  show uniqueNameSearch taken raw (taken.length + 1) (uniqueCandidate raw 0) (0 + 1) ∉ taken
  exact uniqueNameSearch_fresh taken raw (taken.length + 1) 0 ⟨i, by omega, by omega, hfree⟩

/-- Splitting an `Except` bind that succeeded. -/
theorem except_bind_ok {ε α β : Type} {x : Except ε α} {f : α → Except ε β} {y : β}
    (h : (x >>= f) = .ok y) : ∃ a, x = .ok a ∧ f a = .ok y := by
  cases x with
  | ok a => exact ⟨a, rfl, h⟩
  | error e => simp [Bind.bind, Except.bind] at h

/-- A successful registration names the component with the uniquifier's
choice against the names registered so far. -/
theorem registerOne_name {nodes : String → FetchResult} {table : Json} {key : String}
    {objs objs' : List (String × Json)} {acc : List (String × Comp)} {comp : Comp}
    (h : registerOne nodes table key objs acc = .ok (objs', comp)) :
    comp.name = uniqueName (acc.map (fun kc => kc.2.name)) (jStr (jGet table key) "name") := by
  unfold registerOne at h
  cases hr : registerResolve nodes key objs with
  | error e =>
    rw [hr] at h
    exact absurd h (by simp)
  | ok o =>
    rw [hr] at h
    injection h with h3
    injection h3 with _ h4
    rw [← h4]

/-- The registration loop preserves distinctness of the sanitized names. -/
theorem registerLoop_names_nodup (nodes : String → FetchResult) (table : Json) :
    ∀ (ks : List String) (objs : List (String × Json)) (acc : List (String × Comp)),
    (acc.map (fun kc => kc.2.name)).Nodup →
    (((registerLoop nodes table ks objs acc).2.1).map (fun kc => kc.2.name)).Nodup := by
  intro ks
  induction ks with
  | nil =>
    intro objs acc h
    exact h
  | cons k ks ih =>
    intro objs acc h
    unfold registerLoop
    cases hr : registerOne nodes table k objs acc with
    | error msg => exact h
    | ok oc =>
      obtain ⟨objs', comp⟩ := oc
      apply ih
      rw [List.map_append]
      rw [List.nodup_append]
      refine ⟨h, List.nodup_singleton _, ?_⟩
      intro x hx hy
      simp only [List.map_cons, List.map_nil, List.mem_singleton] at hy
      rw [hy, registerOne_name hr] at hx
      exact uniqueName_fresh _ _ hx

/--
C9.  The sanitized component names of a registration run are pairwise
distinct after every registration step (every catalogue the loop can
produce has `Nodup` names), and at the concrete project with two
components both rawly named `Btn` the second receives the numeric suffix:
the catalogue names come out as `Btn_figma` and `Btn_1_figma`.
-/
theorem C9_component_names_unique :
    (∀ (project : Json) (nodes : String → FetchResult),
      ((componentsFn project nodes).1.map (fun kc => kc.2.name)).Nodup) ∧
    ((componentsFn c9Project (fun _ => FetchResult.empty)).1.map (fun kc => kc.2.name)
      = ["Btn_figma", "Btn_1_figma"]) := by
  constructor
  · intro project nodes
    have hcf : componentsFn project nodes =
        (match registerLoop nodes (jGet project "components")
            (sortStrings (fieldKeys (jGet project "components").fields))
            (getObjects (jGet project "document") "COMPONENT") [] with
          | (_, acc, none) => (acc, [])
          | (_, acc, some msg) => (acc, [(excMsg msg, true)])) := rfl
    have h := registerLoop_names_nodup nodes (jGet project "components")
      (sortStrings (fieldKeys (jGet project "components").fields))
      (getObjects (jGet project "document") "COMPONENT") [] (by simp)
    rw [hcf]
    rcases hr : registerLoop nodes (jGet project "components")
      (sortStrings (fieldKeys (jGet project "components").fields))
      (getObjects (jGet project "document") "COMPONENT") [] with ⟨objsEnd, accEnd, e⟩
    rw [hr] at h
    cases e <;> simpa using h
  · decide

/--
C7, counterexample.  The claim says a failing component registration makes
`components` return an empty/default result; in the code the `try`/`catch`
sits outside the loop and the `catch` branch falls through to `return map`,
so the components registered before the failure are kept.  On `c7Project`
(key `k1` inline, key `k2` unresolvable: the fetch returns empty bytes) the
entry point reports the fatal issue *and* returns a catalogue holding the
already-registered `k1` — not an empty one.
-/
theorem C7_counterexample :
    (componentsFn c7Project c7Nodes).2
      = [(excMsg (errComponentNotFound "k2"), true)] ∧
    (componentsFn c7Project c7Nodes).1.map (fun kc => (kc.1, kc.2.name))
      = [("k1", "A_figma")] := by
  constructor
  · decide
  · decide

/--
C7 (amended).  When the registration loop stops at a failure, the
`components` entry point reports the exception message through the error
callback with `isFatal = true`, and returns the *partially built*
catalogue accumulated before the failing key (the `catch` is outside the
loop and falls through to `return map`), rather than an empty/default
result.
-/
theorem C7_fatal_report_partial_result (project : Json)
    (nodes : String → FetchResult) (objsEnd : List (String × Json))
    (acc : List (String × Comp)) (msg : String)
    (h : registerLoop nodes (jGet project "components")
        (sortStrings (fieldKeys (jGet project "components").fields))
        (getObjects (jGet project "document") "COMPONENT") []
        = (objsEnd, acc, some msg)) :
    componentsFn project nodes = (acc, [(excMsg msg, true)]) := by
  have hcf : componentsFn project nodes =
      (match registerLoop nodes (jGet project "components")
          (sortStrings (fieldKeys (jGet project "components").fields))
          (getObjects (jGet project "document") "COMPONENT") [] with
        | (_, acc, none) => (acc, [])
        | (_, acc, some msg) => (acc, [(excMsg msg, true)])) := rfl
  rw [hcf, h]

/-- Witness for the amended C7 at the concrete project `c7Project`: the
loop fails at `k2` with the component-not-found message, and the entry
point returns the one-component catalogue with the fatal report. -/
theorem C7_fatal_report_partial_result_witness :
    (registerLoop c7Nodes (jGet c7Project "components")
        (sortStrings (fieldKeys (jGet c7Project "components").fields))
        (getObjects (jGet c7Project "document") "COMPONENT") []
        = (c7Objs, c7Acc, some c7Msg)) ∧
    componentsFn c7Project c7Nodes = (c7Acc, [(excMsg c7Msg, true)]) :=
  ⟨rfl, C7_fatal_report_partial_result c7Project c7Nodes c7Objs c7Acc c7Msg rfl⟩

/-! ### Lemmas about emitted line shapes (C3)

`linePredB pat chunk` says the chunk opens a `pat` line after its leading
indentation.  The lemmas reduce it through the `tabs` prefix and decide it
from the literal head of each emitted chunk. -/

/-- A certified mismatch refutes the prefix test on every extension. -/
theorem prefixClash_sound : ∀ (p l rest : List Char), prefixClash p l = true →
    p.isPrefixOf (l ++ rest) = false := by
  intro p
  induction p with
  | nil => intro l rest h; cases l <;> simp [prefixClash] at h
  | cons pc ps ih =>
    intro l rest h
    cases l with
    | nil => simp [prefixClash] at h
    | cons c cs =>
      by_cases hpc : (pc == c) = true
      · unfold prefixClash at h
        rw [if_pos hpc] at h
        show ((pc == c) && ps.isPrefixOf (cs ++ rest)) = false
        rw [hpc, Bool.true_and]
        exact ih cs rest h
      · show ((pc == c) && ps.isPrefixOf (cs ++ rest)) = false
        rw [Bool.eq_false_iff.mpr hpc, Bool.false_and]

/-- Leading spaces are dropped by the indent stripper. -/
theorem dropWhile_replicate_space (n : Nat) (l : List Char) :
    (List.replicate n ' ' ++ l).dropWhile (fun c => c == ' ')
      = l.dropWhile (fun c => c == ' ') := by
  induction n with
  | zero => rfl
  | succ n ih =>
    rw [List.replicate_succ, List.cons_append, List.dropWhile_cons]
    rw [if_pos (by decide)]
    exact ih

/-- The indentation prefix of a chunk never affects the line test. -/
theorem linePredB_tabs (pat : String) (k : Nat) (s : String) :
    linePredB pat (tabs k ++ s) = linePredB pat s := by
  unfold linePredB
  rw [String.data_append]
  rw [show (tabs k).data = List.replicate (4 * k) ' ' from rfl,
    dropWhile_replicate_space]

/-- A list is a prefix of itself extended. -/
theorem isPrefixOf_append_self (l r : List Char) : l.isPrefixOf (l ++ r) = true := by
  induction l with
  | nil => cases r <;> rfl
  | cons a as ih =>
    show ((a == a) && as.isPrefixOf (as ++ r)) = true
    rw [beq_self_eq_true, Bool.true_and]
    exact ih

/-- Being a prefix is stable under extending the larger list. -/
theorem isPrefixOf_of_append (p : List Char) :
    ∀ (l rest : List Char), p.isPrefixOf l = true → p.isPrefixOf (l ++ rest) = true := by
  induction p with
  | nil => intro l rest _; cases l ++ rest <;> rfl
  | cons a as ih =>
    intro l rest h
    cases l with
    | nil => simp [List.isPrefixOf] at h
    | cons c cs =>
      have h2 : ((a == c) && as.isPrefixOf cs) = true := h
      rw [Bool.and_eq_true] at h2
      show ((a == c) && as.isPrefixOf (cs ++ rest)) = true
      rw [h2.1, Bool.true_and]
      exact ih cs rest h2.2

/-- A chunk opening with a literal that clashes with the pattern fails the
line test, whatever follows the literal. -/
theorem linePredB_lit_false {pat : String} (l1 s : String) {c : Char} {lt : List Char}
    (hl : l1.data = c :: lt) (hc : (c == ' ') = false)
    (hclash : prefixClash pat.data (c :: lt) = true) :
    linePredB pat (l1 ++ s) = false := by
  unfold linePredB
  rw [String.data_append, hl]
  rw [show (c :: lt) ++ s.data = c :: (lt ++ s.data) from rfl]
  rw [List.dropWhile_cons, if_neg (by rw [hc]; exact Bool.false_ne_true)]
  rw [show c :: (lt ++ s.data) = (c :: lt) ++ s.data from rfl]
  exact prefixClash_sound _ _ _ hclash

/-- A chunk opening with a literal led by the pattern passes the line
test, whatever follows the literal. -/
theorem linePredB_lit_true {pat : String} (l1 s : String) {c : Char} {pt lt : List Char}
    (hp : pat.data = c :: pt) (hc : (c == ' ') = false)
    (hl : l1.data = c :: lt) (hpre : pt.isPrefixOf lt = true) :
    linePredB pat (l1 ++ s) = true := by
  unfold linePredB
  rw [String.data_append, hl]
  rw [show (c :: lt) ++ s.data = c :: (lt ++ s.data) from rfl]
  rw [List.dropWhile_cons, if_neg (by rw [hc]; exact Bool.false_ne_true)]
  rw [hp]
  show ((c == c) && pt.isPrefixOf (lt ++ s.data)) = true
  rw [beq_self_eq_true, Bool.true_and]
  exact isPrefixOf_of_append pt lt s.data hpre

/-- The head of a decimal rendering is a minus sign or a digit. -/
theorem numStr_head (v : Int) :
    ∃ c rest, (numStr v).data = c :: rest ∧
      (c.toNat = 45 ∨ (48 ≤ c.toNat ∧ c.toNat ≤ 57)) := by
  unfold numStr intRepr
  by_cases hv : v < 0
  · rw [if_pos hv]
    refine ⟨'-', (natRepr v.natAbs).data, ?_, Or.inl rfl⟩
    rw [String.data_append]
    rfl
  · rw [if_neg hv]
    cases hd : (natRepr v.natAbs).data with
    | nil => exact absurd hd (natDigitsGo_ne_nil _ _)
    | cons c rest =>
      refine ⟨c, rest, rfl, Or.inr ?_⟩
      have hm : c ∈ (natRepr v.natAbs).data := by
        rw [hd]
        exact List.mem_cons_self c rest
      exact natDigitsGo_digits _ _ c hm

/-- A number-opened chunk never opens a `ShapePath` line. -/
theorem linePredB_SP_numStr (v : Int) (s : String) :
    linePredB "ShapePath \x7b" (numStr v ++ s) = false := by
  obtain ⟨c, rest, hd, hc⟩ := numStr_head v
  have hcs : (c == ' ') = false := by
    by_contra hx
    rw [Bool.not_eq_false] at hx
    have he : c = ' ' := eq_of_beq hx
    rw [he] at hc
    rcases hc with h | ⟨h1, _⟩
    · exact absurd h (by decide)
    · exact absurd h1 (by decide)
  have hcS : ('S' == c) = false := by
    by_contra hx
    rw [Bool.not_eq_false] at hx
    have he : 'S' = c := eq_of_beq hx
    rw [← he] at hc
    rcases hc with h | ⟨_, h2⟩
    · exact absurd h (by decide)
    · exact absurd h2 (by decide)
  unfold linePredB
  rw [String.data_append, hd]
  rw [show (c :: rest) ++ s.data = c :: (rest ++ s.data) from rfl]
  rw [List.dropWhile_cons, if_neg (by rw [hcs]; exact Bool.false_ne_true)]
  show (('S' == c) && _) = false
  rw [hcS, Bool.false_and]

/-- The tab prefix is pure spaces. -/
theorem tabs_data (k : Nat) : (tabs k).data = List.replicate (4 * k) ' ' := rfl

/-- Membership in a conditional splits into the branches. -/
theorem mem_ite_cases {α : Type} {c : Prop} [Decidable c] {x y : List α} {a : α}
    (h : a ∈ (if c then x else y)) : a ∈ x ∨ a ∈ y := by
  split at h
  · exact Or.inl h
  · exact Or.inr h

/-- A pointwise-false predicate counts zero. -/
theorem countP_zero_of_false {p : String → Bool} {l : List String}
    (h : ∀ a ∈ l, p a = false) : l.countP p = 0 :=
  List.countP_eq_zero.mpr (fun a ha => by rw [h a ha]; exact Bool.false_ne_true)

/-- Lifting a witness through a left append. -/
theorem exists_mem_append_l {P : String → Prop} {l1 l2 : List String}
    (h : ∃ a ∈ l1, P a) : ∃ a ∈ l1 ++ l2, P a := by
  obtain ⟨a, ha, hp⟩ := h
  exact ⟨a, List.mem_append_left _ ha, hp⟩

/-- Lifting a witness through a right append. -/
theorem exists_mem_append_r {P : String → Prop} {l1 l2 : List String}
    (h : ∃ a ∈ l2, P a) : ∃ a ∈ l1 ++ l2, P a := by
  obtain ⟨a, ha, hp⟩ := h
  exact ⟨a, List.mem_append_right _ ha, hp⟩

/-- Chunks with different total lengths differ. -/
theorem tabs_chunk_ne {k1 k2 : Nat} {l1 l2 : String}
    (h : 4 * k1 + l1.data.length ≠ 4 * k2 + l2.data.length) :
    tabs k1 ++ l1 ≠ tabs k2 ++ l2 := by
  intro he
  apply h
  have hlen := congrArg (fun s => s.data.length) he
  simpa [String.data_append, tabs_data, List.length_append,
    List.length_replicate] using hlen

/-- No chunk of `makeComponentInstance` opens a `ShapePath` line, provided
its (caller-chosen) item type does not. -/
theorem noSP_makeComponentInstance (t : String) (obj : Json) (ind : Nat)
    (ht : linePredB "ShapePath \x7b" (t ++ " \x7b\n") = false) :
    ∀ a ∈ makeComponentInstance t obj ind, linePredB "ShapePath \x7b" a = false := by
  intro a ha
  unfold makeComponentInstance at ha
  simp only [List.mem_cons, List.not_mem_nil, or_false] at ha
  rcases ha with rfl | rfl | rfl <;>
    simp only [String.append_assoc, linePredB_tabs]
  · exact ht
  · exact linePredB_lit_false _ _ rfl (by decide) (by decide)
  · exact linePredB_lit_false _ _ rfl (by decide) (by decide)

/-- No chunk of `makeEffects` opens a `ShapePath` line. -/
theorem noSP_makeEffects (obj : Json) (ind : Nat) :
    ∀ a ∈ makeEffects obj ind, linePredB "ShapePath \x7b" a = false := by
  intro a ha
  simp only [makeEffects] at ha
  rcases mem_ite_cases ha with h | h
  · rcases mem_ite_cases h with h | h
    · rcases mem_ite_cases h with h | h
      · rcases List.mem_append.mp h with h | h
        · rcases List.mem_append.mp h with h | h
          · simp only [List.mem_cons, List.not_mem_nil, or_false] at h
            rcases h with rfl | rfl <;>
              simp only [String.append_assoc, linePredB_tabs] <;> decide
          · rcases mem_ite_cases h with h | h <;>
              · simp only [List.mem_cons, List.not_mem_nil, or_false] at h
                rcases h with rfl | rfl <;>
                  simp only [String.append_assoc, linePredB_tabs] <;>
                  exact linePredB_lit_false _ _ rfl (by decide) (by decide)
        · simp only [List.mem_cons, List.not_mem_nil, or_false] at h
          rcases h with rfl | rfl | rfl | rfl <;>
            simp only [String.append_assoc, linePredB_tabs] <;>
            first
              | decide
              | exact linePredB_lit_false _ _ rfl (by decide) (by decide)
      · simp at h
    · simp at h
  · simp at h

/-- No chunk of `makeTransforms` opens a `ShapePath` line. -/
theorem noSP_makeTransforms (obj : Json) (ind : Nat) :
    ∀ a ∈ makeTransforms obj ind, linePredB "ShapePath \x7b" a = false := by
  intro a ha
  simp only [makeTransforms] at ha
  rcases mem_ite_cases ha with h | h
  · rcases mem_ite_cases h with h | h
    · simp only [List.mem_cons, List.not_mem_nil, or_false] at h
      rcases h with rfl | rfl | rfl | rfl | rfl | rfl | rfl <;>
        simp only [String.append_assoc, linePredB_tabs] <;>
        first
          | decide
          | exact linePredB_SP_numStr _ _
    · simp at h
  · simp at h

/-- No chunk of `makeItem` opens a `ShapePath` line, provided the item
type does not. -/
theorem noSP_makeItem (t : String) (obj : Json) (ind : Nat)
    (ht : linePredB "ShapePath \x7b" (t ++ " \x7b\n") = false) :
    ∀ a ∈ makeItem t obj ind, linePredB "ShapePath \x7b" a = false := by
  intro a ha
  unfold makeItem at ha
  simp only [List.mem_append] at ha
  rcases ha with (((h | h) | h) | h) | h
  · exact noSP_makeComponentInstance t obj ind ht a h
  · exact noSP_makeEffects obj ind a h
  · exact noSP_makeTransforms obj ind a h
  · rcases mem_ite_cases h with h2 | h2
    · simp only [List.mem_cons, List.not_mem_nil, or_false] at h2
      subst h2
      simp only [String.append_assoc, linePredB_tabs]
      decide
    · simp at h2
  · rcases mem_ite_cases h with h2 | h2
    · simp only [List.mem_cons, List.not_mem_nil, or_false] at h2
      subst h2
      simp only [String.append_assoc, linePredB_tabs]
      exact linePredB_lit_false _ _ rfl (by decide) (by decide)
    · simp at h2

/-- No chunk of `makeExtents` opens a `ShapePath` line. -/
theorem noSP_makeExtents (ctx : Ctx) (parent obj : Json) (ind : Nat) (ext : RectI) :
    ∀ a ∈ makeExtents ctx parent obj ind ext, linePredB "ShapePath \x7b" a = false := by
  intro a ha
  simp only [makeExtents] at ha
  rcases List.mem_append.mp ha with h | h
  · rcases mem_ite_cases h with h | h
    · rcases List.mem_append.mp h with h | h
      · rcases mem_ite_cases h with h | h
        · simp only [List.mem_cons, List.not_mem_nil, or_false] at h
          subst h
          simp only [String.append_assoc, linePredB_tabs]
          exact linePredB_lit_false _ _ rfl (by decide) (by decide)
        · rcases mem_ite_cases h with h | h
          · rcases mem_ite_cases h with h | h <;>
              · simp only [List.mem_cons, List.not_mem_nil, or_false] at h
                subst h
                simp only [String.append_assoc, linePredB_tabs]
                exact linePredB_lit_false _ _ rfl (by decide) (by decide)
          · simp at h
      · rcases mem_ite_cases h with h | h
        · simp only [List.mem_cons, List.not_mem_nil, or_false] at h
          subst h
          simp only [String.append_assoc, linePredB_tabs]
          exact linePredB_lit_false _ _ rfl (by decide) (by decide)
        · rcases mem_ite_cases h with h | h
          · rcases mem_ite_cases h with h | h <;>
              · simp only [List.mem_cons, List.not_mem_nil, or_false] at h
                subst h
                simp only [String.append_assoc, linePredB_tabs]
                exact linePredB_lit_false _ _ rfl (by decide) (by decide)
          · simp at h
    · simp at h
  · rcases mem_ite_cases h with h | h
    · simp only [List.mem_cons, List.not_mem_nil, or_false] at h
      rcases h with rfl | rfl <;>
        simp only [String.append_assoc, linePredB_tabs] <;>
        exact linePredB_lit_false _ _ rfl (by decide) (by decide)
    · simp at h

/-- No chunk of `makeAntialising` opens a `ShapePath` line. -/
theorem noSP_makeAntialising (ctx : Ctx) (ind : Nat) :
    ∀ a ∈ makeAntialising ctx ind, linePredB "ShapePath \x7b" a = false := by
  intro a ha
  simp only [makeAntialising] at ha
  rcases mem_ite_cases ha with h | h
  · simp only [List.mem_cons, List.not_mem_nil, or_false] at h
    subst h
    rw [linePredB_tabs]
    decide
  · simp at h

/-- No chunk of `makeStrokeJoin` opens a `ShapePath` line. -/
theorem noSP_makeStrokeJoin (stroke : Json) (ind : Nat) :
    ∀ a ∈ makeStrokeJoin stroke ind, linePredB "ShapePath \x7b" a = false := by
  intro a ha
  simp only [makeStrokeJoin] at ha
  rcases mem_ite_cases ha with h | h <;>
    · simp only [List.mem_cons, List.not_mem_nil, or_false] at h
      subst h
      simp only [String.append_assoc, linePredB_tabs]
      first
        | decide
        | exact linePredB_lit_false _ _ rfl (by decide) (by decide)

/-- No chunk of `makeShapeStroke` opens a `ShapePath` line. -/
theorem noSP_makeShapeStroke (obj : Json) (ind : Nat) (ty : StrokeType) :
    ∀ a ∈ makeShapeStroke obj ind ty, linePredB "ShapePath \x7b" a = false := by
  intro a ha
  simp only [makeShapeStroke] at ha
  rcases List.mem_append.mp ha with h | h
  · rcases mem_ite_cases h with h | h
    · rcases List.mem_append.mp h with h | h
      · exact noSP_makeStrokeJoin _ ind a h
      · simp only [List.mem_cons, List.not_mem_nil, or_false] at h
        subst h
        simp only [String.append_assoc, linePredB_tabs]
        unfold strokeColorType
        split <;> exact linePredB_lit_false _ _ rfl (by decide) (by decide)
    · rcases mem_ite_cases h with h | h
      · simp only [List.mem_cons, List.not_mem_nil, or_false] at h
        subst h
        simp only [String.append_assoc, linePredB_tabs]
        unfold strokeColorType
        split <;> exact linePredB_lit_false _ _ rfl (by decide) (by decide)
      · simp at h
  · rcases mem_ite_cases h with h | h
    · simp only [List.mem_cons, List.not_mem_nil, or_false] at h
      subst h
      simp only [String.append_assoc, linePredB_tabs]
      exact linePredB_lit_false _ _ rfl (by decide) (by decide)
    · simp at h

/-- No chunk of `makeShapeFill` opens a `ShapePath` line. -/
theorem noSP_makeShapeFill (obj : Json) (ind : Nat) :
    ∀ a ∈ makeShapeFill obj ind, linePredB "ShapePath \x7b" a = false := by
  intro a ha
  simp only [makeShapeFill] at ha
  rcases List.mem_append.mp ha with h | h
  · rcases mem_ite_cases h with h | h
    · rcases mem_ite_cases h with h | h
      · simp only [List.mem_cons, List.not_mem_nil, or_false] at h
        subst h
        simp only [String.append_assoc, linePredB_tabs]
        exact linePredB_lit_false _ _ rfl (by decide) (by decide)
      · rcases mem_ite_cases h with h | h
        · simp only [List.mem_cons, List.not_mem_nil, or_false] at h
          subst h
          rw [linePredB_tabs]
          decide
        · simp at h
    · simp only [List.mem_cons, List.not_mem_nil, or_false] at h
      subst h
      rw [linePredB_tabs]
      decide
  · simp only [List.mem_cons, List.not_mem_nil, or_false] at h
    subst h
    simp only [String.append_assoc, linePredB_tabs]
    exact linePredB_lit_false _ _ rfl (by decide) (by decide)

/-- No chunk of `makeSvgPath` opens a `ShapePath` line. -/
theorem noSP_makeSvgPath (i : Nat) (isFill : Bool) (obj : Json) (ind : Nat) :
    ∀ a ∈ makeSvgPath i isFill obj ind, linePredB "ShapePath \x7b" a = false := by
  intro a ha
  simp only [makeSvgPath] at ha
  rcases List.mem_append.mp ha with h | h
  · rcases mem_ite_cases h with h | h
    · simp only [List.mem_cons, List.not_mem_nil, or_false] at h
      subst h
      rw [linePredB_tabs]
      decide
    · simp at h
  · simp only [List.mem_cons, List.not_mem_nil, or_false] at h
    rcases h with rfl | rfl | rfl <;>
      simp only [String.append_assoc, linePredB_tabs] <;>
      first
        | decide
        | exact linePredB_lit_false _ _ rfl (by decide) (by decide)

/-- No chunk of `makeShapeFillData` opens a `ShapePath` line. -/
theorem noSP_makeShapeFillData (obj : Json) (ind : Nat) :
    ∀ a ∈ makeShapeFillData obj ind, linePredB "ShapePath \x7b" a = false := by
  intro a ha
  simp only [makeShapeFillData] at ha
  rcases mem_ite_cases ha with h | h
  · obtain ⟨l, hl, hal⟩ := List.mem_flatten.mp h
    obtain ⟨i, _, rfl⟩ := List.mem_map.mp hl
    exact noSP_makeSvgPath i true obj ind a hal
  · rcases mem_ite_cases h with h | h
    · obtain ⟨l, hl, hal⟩ := List.mem_flatten.mp h
      obtain ⟨i, _, rfl⟩ := List.mem_map.mp hl
      exact noSP_makeSvgPath i false obj ind a hal
    · simp at h

/-- The plain-colour normal strategy emits exactly one `ShapePath` line. -/
theorem countSP_normalFill (ctx : Ctx) (parent obj : Json) (ind : Nat) :
    (makeVectorNormalFill ctx parent obj ind).countP (linePredB "ShapePath \x7b") = 1 := by
  unfold makeVectorNormalFill
  rw [List.countP_append, List.countP_append, List.countP_append,
      List.countP_append, List.countP_append, List.countP_append,
      List.countP_append]
  rw [countP_zero_of_false (noSP_makeItem _ obj ind (by decide)),
      countP_zero_of_false (noSP_makeExtents ctx parent obj ind rect0),
      countP_zero_of_false (noSP_makeAntialising ctx ind),
      countP_zero_of_false (noSP_makeShapeStroke obj (ind + 1) StrokeType.normal),
      countP_zero_of_false (noSP_makeShapeFill obj (ind + 1)),
      countP_zero_of_false (noSP_makeShapeFillData obj (ind + 1))]
  have h1 : ([tabs ind ++ "ShapePath \x7b\n"] : List String).countP
      (linePredB "ShapePath \x7b") = 1 := by
    have ht : linePredB "ShapePath \x7b" (tabs ind ++ "ShapePath \x7b\n") = true := by
      rw [linePredB_tabs]
      decide
    simp [List.countP_cons, ht]
  have h2 : ([tabs ind ++ "\x7d\n", tabs (ind - 1) ++ "\x7d\n"] : List String).countP
      (linePredB "ShapePath \x7b") = 0 := by
    apply countP_zero_of_false
    intro a ha
    simp only [List.mem_cons, List.not_mem_nil, or_false] at ha
    rcases ha with rfl | rfl <;> (rw [linePredB_tabs]; decide)
  rw [h1, h2]

/-- Structure of a successful `makeImageSource`: an optional placeholder
preamble and the `source:` data line. -/
theorem makeImageSource_ok (ctx : Ctx) (image : String) (r : Bool) (ind : Nat)
    (ph : String) (src : List String)
    (h : makeImageSource ctx image r ind ph = .ok src) :
    ∃ pre d,
      (pre = ([] : List String) ∨
        pre = [tabs ind ++ "//Image load failed, placeholder\n",
               tabs ind ++ "sourceSize: Qt.size(parent.width, parent.height)\n"]) ∧
      src = pre ++ [tabs ind ++ "source: \"" ++ chunkImageData d ++ "\"\n"] := by
  simp only [makeImageSource] at h
  split at h
  · split at h
    · exact absurd h (by simp [Bind.bind, Except.bind])
    · split at h
      · exact absurd h (by simp [Bind.bind, Except.bind])
      · refine ⟨[tabs ind ++ "//Image load failed, placeholder\n",
          tabs ind ++ "sourceSize: Qt.size(parent.width, parent.height)\n"],
          ctx.images ph r, Or.inr rfl, ?_⟩
        injection h with h2
        exact h2.symm
  · refine ⟨[], ctx.images image r, Or.inl rfl, ?_⟩
    injection h with h2
    exact h2.symm

/-- No chunk of a successful `makeImageSource` opens a `ShapePath` line. -/
theorem noSP_makeImageSource (ctx : Ctx) (image : String) (r : Bool) (ind : Nat)
    (ph : String) (src : List String)
    (h : makeImageSource ctx image r ind ph = .ok src) :
    ∀ a ∈ src, linePredB "ShapePath \x7b" a = false := by
  obtain ⟨pre, d, hpre, rfl⟩ := makeImageSource_ok ctx image r ind ph src h
  intro a ha
  rcases List.mem_append.mp ha with h2 | h2
  · rcases hpre with rfl | rfl
    · simp at h2
    · simp only [List.mem_cons, List.not_mem_nil, or_false] at h2
      rcases h2 with rfl | rfl <;> (rw [linePredB_tabs]; decide)
  · simp only [List.mem_cons, List.not_mem_nil, or_false] at h2
    subst h2
    simp only [String.append_assoc, linePredB_tabs]
    exact linePredB_lit_false _ _ rfl (by decide) (by decide)

/-- The image-mask composition emits exactly one `ShapePath` line (the
solid mask geometry). -/
theorem countSP_maskData (ctx : Ctx) (image : String) (obj : Json) (ind : Nat)
    (sid mid : String) (md : List String)
    (h : makeImageMaskData ctx image obj ind sid mid = .ok md) :
    md.countP (linePredB "ShapePath \x7b") = 1 := by
  simp only [makeImageMaskData] at h
  obtain ⟨src, hsrc, hok⟩ := except_bind_ok h
  injection hok with h2
  subst h2
  rw [List.countP_append, List.countP_append, List.countP_append,
      List.countP_append, List.countP_append, List.countP_append]
  have hL1 : ([tabs ind ++ "OpacityMask \x7b\n",
      tabs (ind + 1) ++ "anchors.fill:parent\n",
      tabs (ind + 1) ++ "source: " ++ sid ++ "\n",
      tabs (ind + 1) ++ "maskSource: " ++ mid ++ "\n",
      tabs ind ++ "\x7d\n",
      tabs ind ++ "Image \x7b\n",
      tabs (ind + 1) ++ "id: " ++ sid ++ "\n",
      tabs (ind + 1) ++ "layer.enabled: true\n",
      tabs (ind + 1) ++ "fillMode: Image.PreserveAspectCrop\n",
      tabs (ind + 1) ++ "visible: false\n",
      tabs (ind + 1) ++ "mipmap: true\n",
      tabs (ind + 1) ++ "anchors.fill:parent\n"] : List String).countP
      (linePredB "ShapePath \x7b") = 0 := by
    apply countP_zero_of_false
    intro a ha
    simp only [List.mem_cons, List.not_mem_nil, or_false] at ha
    rcases ha with rfl | rfl | rfl | rfl | rfl | rfl | rfl | rfl | rfl | rfl | rfl | rfl <;>
      simp only [String.append_assoc, linePredB_tabs] <;>
      first
        | decide
        | exact linePredB_lit_false _ _ rfl (by decide) (by decide)
  have hL2 : ([tabs ind ++ "\x7d\n",
      tabs ind ++ "Shape \x7b\n",
      tabs (ind + 1) ++ "id: " ++ mid ++ "\n",
      tabs (ind + 1) ++ "anchors.fill: parent\n",
      tabs (ind + 1) ++ "layer.enabled: true\n",
      tabs (ind + 1) ++ "visible: false\n",
      tabs (ind + 1) ++ "ShapePath \x7b\n"] : List String).countP
      (linePredB "ShapePath \x7b") = 1 := by
    have ht : linePredB "ShapePath \x7b" (tabs (ind + 1) ++ "ShapePath \x7b\n") = true := by
      rw [linePredB_tabs]
      decide
    have hf0 : linePredB "ShapePath \x7b" (tabs ind ++ "\x7d\n") = false := by
      rw [linePredB_tabs]; decide
    have hf1 : linePredB "ShapePath \x7b" (tabs ind ++ "Shape \x7b\n") = false := by
      rw [linePredB_tabs]; decide
    have hf2 : linePredB "ShapePath \x7b"
        (tabs (ind + 1) ++ "id: " ++ mid ++ "\n") = false := by
      simp only [String.append_assoc, linePredB_tabs]
      exact linePredB_lit_false _ _ rfl (by decide) (by decide)
    have hf3 : linePredB "ShapePath \x7b"
        (tabs (ind + 1) ++ "anchors.fill: parent\n") = false := by
      rw [linePredB_tabs]; decide
    have hf4 : linePredB "ShapePath \x7b"
        (tabs (ind + 1) ++ "layer.enabled: true\n") = false := by
      rw [linePredB_tabs]; decide
    have hf5 : linePredB "ShapePath \x7b"
        (tabs (ind + 1) ++ "visible: false\n") = false := by
      rw [linePredB_tabs]; decide
    simp [List.countP_cons, List.countP_nil, ht, hf0, hf1, hf2, hf3, hf4, hf5]
  have hfc : ([tabs (ind + 2) ++ "fillColor:\"black\"\n"] : List String).countP
      (linePredB "ShapePath \x7b") = 0 := by
    apply countP_zero_of_false
    intro a ha
    simp only [List.mem_cons, List.not_mem_nil, or_false] at ha
    subst ha
    rw [linePredB_tabs]
    decide
  have hcl : ([tabs (ind + 1) ++ "\x7d\n", tabs ind ++ "\x7d\n"] : List String).countP
      (linePredB "ShapePath \x7b") = 0 := by
    apply countP_zero_of_false
    intro a ha
    simp only [List.mem_cons, List.not_mem_nil, or_false] at ha
    rcases ha with rfl | rfl <;> (rw [linePredB_tabs]; decide)
  rw [hL1, hL2, hfc, hcl,
      countP_zero_of_false (noSP_makeImageSource ctx image false (ind + 1) "" src hsrc),
      countP_zero_of_false (noSP_makeShapeStroke obj (ind + 2) StrokeType.normal),
      countP_zero_of_false (noSP_makeShapeFillData obj (ind + 2))]

/-- The image-fill normal strategy emits exactly two `ShapePath` lines. -/
theorem countSP_normalImage (ctx : Ctx) (parent : Json) (image : String)
    (obj : Json) (ind : Nat) (out : List String)
    (h : makeVectorNormalFillImage ctx parent image obj ind = .ok out) :
    out.countP (linePredB "ShapePath \x7b") = 2 := by
  simp only [makeVectorNormalFillImage] at h
  obtain ⟨md, hmd, hok⟩ := except_bind_ok h
  injection hok with h2
  subst h2
  rw [List.countP_append, List.countP_append, List.countP_append,
      List.countP_append, List.countP_append, List.countP_append,
      List.countP_append, List.countP_append, List.countP_append]
  have hsh : ([tabs ind ++ "Shape \x7b\n",
      tabs (ind + 1) ++ "anchors.fill: parent\n"] : List String).countP
      (linePredB "ShapePath \x7b") = 0 := by
    apply countP_zero_of_false
    intro a ha
    simp only [List.mem_cons, List.not_mem_nil, or_false] at ha
    rcases ha with rfl | rfl <;> (rw [linePredB_tabs]; decide)
  have hsp : ([tabs (ind + 1) ++ "ShapePath \x7b\n"] : List String).countP
      (linePredB "ShapePath \x7b") = 1 := by
    have ht : linePredB "ShapePath \x7b" (tabs (ind + 1) ++ "ShapePath \x7b\n") = true := by
      rw [linePredB_tabs]
      decide
    simp [List.countP_cons, ht]
  have hcl : ([tabs (ind + 1) ++ "\x7d\n", tabs ind ++ "\x7d\n",
      tabs (ind - 1) ++ "\x7d \n"] : List String).countP
      (linePredB "ShapePath \x7b") = 0 := by
    apply countP_zero_of_false
    intro a ha
    simp only [List.mem_cons, List.not_mem_nil, or_false] at ha
    rcases ha with rfl | rfl | rfl <;> (rw [linePredB_tabs]; decide)
  rw [hsh, hsp, hcl,
      countP_zero_of_false (noSP_makeItem _ obj ind (by decide)),
      countP_zero_of_false (noSP_makeExtents ctx parent obj ind rect0),
      countP_zero_of_false (noSP_makeAntialising ctx (ind + 1)),
      countP_zero_of_false (noSP_makeShapeStroke obj (ind + 2) StrokeType.normal),
      countP_zero_of_false (noSP_makeShapeFill obj (ind + 2)),
      countP_zero_of_false (noSP_makeShapeFillData obj (ind + 2)),
      countSP_maskData ctx image obj ind _ _ md hmd]

/-- A present stroke writes the `strokeColor` property line. -/
theorem strokeColor_in_shapeStroke (obj : Json) (ind : Nat) (ty : StrokeType)
    (hline : jvEqStr (jGet obj "type") "LINE" = false)
    (hstrokes : (jHas obj "strokes" && !(jArr obj "strokes").isEmpty) = true) :
    ∃ a ∈ makeShapeStroke obj ind ty, linePredB "strokeColor" a = true := by
  simp only [makeShapeStroke]
  apply exists_mem_append_l
  rw [if_pos hstrokes]
  apply exists_mem_append_r
  have hct : strokeColorType obj = "strokeColor" := by
    unfold strokeColorType
    rw [if_neg (by rw [hline]; exact Bool.false_ne_true)]
  refine ⟨_, List.mem_singleton_self _, ?_⟩
  rw [hct]
  simp only [String.append_assoc, linePredB_tabs]
  exact linePredB_lit_true _ _ rfl (by decide) rfl (by decide)

/-- A present stroke weight writes the `strokeWidth` property line. -/
theorem strokeWidth_in_shapeStroke (obj : Json) (ind : Nat) (ty : StrokeType)
    (hweight : jHas obj "strokeWeight" = true) :
    ∃ a ∈ makeShapeStroke obj ind ty, linePredB "strokeWidth:" a = true := by
  simp only [makeShapeStroke]
  apply exists_mem_append_r
  rw [if_pos hweight]
  refine ⟨_, List.mem_singleton_self _, ?_⟩
  simp only [String.append_assoc, linePredB_tabs]
  exact linePredB_lit_true _ _ rfl (by decide) rfl (by decide)

/-- A present fill writes the `fillColor` property line. -/
theorem fillColor_in_shapeFill (obj : Json) (ind : Nat)
    (hline : jvEqStr (jGet obj "type") "LINE" = false)
    (hfills : (jHas obj "fills" && !(jArr obj "fills").isEmpty) = true) :
    ∃ a ∈ makeShapeFill obj ind, linePredB "fillColor:" a = true := by
  simp only [makeShapeFill]
  apply exists_mem_append_l
  rw [if_pos (show (!jvEqStr (jGet obj "type") "LINE") = true by rw [hline]; rfl)]
  rw [if_pos hfills]
  refine ⟨_, List.mem_singleton_self _, ?_⟩
  simp only [String.append_assoc, linePredB_tabs]
  exact linePredB_lit_true _ _ rfl (by decide) rfl (by decide)

/-- The single `ShapePath` of the plain normal strategy carries the stroke
colour, the stroke width and the fill colour. -/
theorem presence_normalFill (ctx : Ctx) (parent obj : Json) (ind : Nat)
    (hline : jvEqStr (jGet obj "type") "LINE" = false)
    (hstrokes : (jHas obj "strokes" && !(jArr obj "strokes").isEmpty) = true)
    (hweight : jHas obj "strokeWeight" = true)
    (hfills : (jHas obj "fills" && !(jArr obj "fills").isEmpty) = true) :
    (∃ a ∈ makeVectorNormalFill ctx parent obj ind, linePredB "strokeColor" a = true) ∧
    (∃ a ∈ makeVectorNormalFill ctx parent obj ind, linePredB "strokeWidth:" a = true) ∧
    (∃ a ∈ makeVectorNormalFill ctx parent obj ind, linePredB "fillColor:" a = true) := by
  unfold makeVectorNormalFill
  refine ⟨?_, ?_, ?_⟩
  · exact exists_mem_append_l (exists_mem_append_l (exists_mem_append_l
      (exists_mem_append_r (strokeColor_in_shapeStroke obj (ind + 1) StrokeType.normal
        hline hstrokes))))
  · exact exists_mem_append_l (exists_mem_append_l (exists_mem_append_l
      (exists_mem_append_r (strokeWidth_in_shapeStroke obj (ind + 1) StrokeType.normal
        hweight))))
  · exact exists_mem_append_l (exists_mem_append_l
      (exists_mem_append_r (fillColor_in_shapeFill obj (ind + 1) hline hfills)))

/-- The plain inside strategy emits two distinct `Shape` blocks and an
`OpacityMask` composition. -/
theorem inside_marks_plain (ctx : Ctx) (parent obj : Json) (ind : Nat) :
    (∃ a ∈ makeVectorInsideFill ctx parent obj ind,
      ∃ b ∈ makeVectorInsideFill ctx parent obj ind, a ≠ b ∧
        linePredB "Shape \x7b" a = true ∧ linePredB "Shape \x7b" b = true) ∧
    (∃ a ∈ makeVectorInsideFill ctx parent obj ind,
      linePredB "OpacityMask \x7b" a = true) := by
  refine ⟨⟨tabs ind ++ "Shape \x7b \n", ?_,
      tabs (ind + 1) ++ "Shape \x7b\n", ?_, ?_, ?_, ?_⟩,
    ⟨tabs ind ++ "OpacityMask \x7b\n", ?_, ?_⟩⟩
  · simp [makeVectorInsideFill]
  · simp [makeVectorInsideFill]
  · exact tabs_chunk_ne (by
      simp only [show ("Shape \x7b \n" : String).data.length = 9 from rfl,
        show ("Shape \x7b\n" : String).data.length = 8 from rfl]
      omega)
  · rw [linePredB_tabs]; decide
  · rw [linePredB_tabs]; decide
  · simp [makeVectorInsideFill]
  · rw [linePredB_tabs]; decide

/-- The image inside strategy also emits two distinct `Shape` blocks and
an `OpacityMask` composition. -/
theorem inside_marks_image (ctx : Ctx) (parent : Json) (image : String)
    (obj : Json) (ind : Nat) (out : List String)
    (h : makeVectorInsideFillImage ctx parent image obj ind = .ok out) :
    (∃ a ∈ out, ∃ b ∈ out, a ≠ b ∧
      linePredB "Shape \x7b" a = true ∧ linePredB "Shape \x7b" b = true) ∧
    (∃ a ∈ out, linePredB "OpacityMask \x7b" a = true) := by
  simp only [makeVectorInsideFillImage] at h
  obtain ⟨md, hmd, hok⟩ := except_bind_ok h
  injection hok with h2
  subst h2
  refine ⟨⟨tabs (ind + 1) ++ "Shape \x7b\n", ?_,
      tabs ind ++ "Shape \x7b\n", ?_, ?_, ?_, ?_⟩,
    ⟨tabs ind ++ "OpacityMask \x7b\n", ?_, ?_⟩⟩
  · simp
  · simp
  · exact tabs_chunk_ne (by
      simp only [show ("Shape \x7b\n" : String).data.length = 8 from rfl]
      omega)
  · rw [linePredB_tabs]; decide
  · rw [linePredB_tabs]; decide
  · simp
  · rw [linePredB_tabs]; decide

/-! ### Lemmas about the children loop and the mask composite (C4) -/

/-- The children loop splits over a split of the child list. -/
theorem pciLoop_append (rec : ParseFn) (obj : Json) (ind : Nat) :
    ∀ (l1 l2 : List Json) (hm : Bool) (out : List String)
      (items : List (String × List String)) (ids : List String),
    pciLoop rec obj ind (l1 ++ l2) hm out items ids
      = (pciLoop rec obj ind l1 hm out items ids).bind
          (fun s => pciLoop rec obj ind l2 s.1 s.2.1 s.2.2.1 s.2.2.2) := by
  intro l1
  induction l1 with
  | nil => intro l2 hm out items ids; rfl
  | cons c cs ih =>
    intro l2 hm out items ids
    have hstep : ∀ (r : List Json) (hm : Bool) (out : List String)
        (items : List (String × List String)) (ids : List String),
        pciLoop rec obj ind (c :: r) hm out items ids
          = if jHas c "isMask" && jBool c "isMask" then
              (rec obj c (ind + 2) ids).bind (fun p =>
                pciLoop rec obj ind r true (out ++ maskChunks c ind p.1) items p.2)
            else
              (rec obj c (if hm then ind + 2 else ind + 1) ids).bind (fun p =>
                pciLoop rec obj ind r hm out (items ++ [(jStr c "id", p.1)]) p.2) := by
      intro r hm out items ids
      by_cases hmask : (jHas c "isMask" && jBool c "isMask") = true
      · rw [if_pos hmask]
        show (if jHas c "isMask" && jBool c "isMask" then _ else _) = _
        rw [if_pos hmask]
        cases hrec : rec obj c (ind + 2) ids with
        | error e => rfl
        | ok p => rfl
      · rw [if_neg hmask]
        show (if jHas c "isMask" && jBool c "isMask" then _ else _) = _
        rw [if_neg hmask]
        cases hrec : rec obj c (if hm then ind + 2 else ind + 1) ids with
        | error e => rfl
        | ok p => rfl
    rw [show (c :: cs) ++ l2 = c :: (cs ++ l2) from rfl, hstep (cs ++ l2), hstep cs]
    by_cases hmask : (jHas c "isMask" && jBool c "isMask") = true
    · rw [if_pos hmask, if_pos hmask]
      cases hrec : rec obj c (ind + 2) ids with
      | error e => rfl
      | ok p =>
        show pciLoop rec obj ind (cs ++ l2) true (out ++ maskChunks c ind p.1) items p.2 = _
        rw [ih]
        rfl
    · rw [if_neg hmask, if_neg hmask]
      cases hrec : rec obj c (if hm then ind + 2 else ind + 1) ids with
      | error e => rfl
      | ok p =>
        show pciLoop rec obj ind (cs ++ l2) hm out (items ++ [(jStr c "id", p.1)]) p.2 = _
        rw [ih]
        rfl

/-- Concatenated values distribute over map concatenation. -/
theorem omValues_append (m1 m2 : List (String × List String)) :
    omValues (m1 ++ m2) = omValues m1 ++ omValues m2 := by
  simp [omValues]

/-! ### Lemmas about the delta differencer and the minimal-override
branch (C2) -/

/-- `jObjInsert` either keeps the key list (overwrite) or appends the new
key. -/
theorem fieldKeys_jObjInsert (fields : List (String × Json)) (k : String) (v : Json) :
    fieldKeys (jObjInsert fields k v)
      = if fields.any (fun kv => kv.1 == k) then fieldKeys fields
        else fieldKeys fields ++ [k] := by
  unfold jObjInsert fieldKeys
  by_cases h : fields.any (fun kv => kv.1 == k)
  · rw [if_pos h, if_pos h, List.map_map]
    apply List.map_congr_left
    intro kv _
    by_cases hk : kv.1 == k
    · simp only [Function.comp_apply, if_pos hk]
      exact (eq_of_beq hk).symm
    · simp only [Function.comp_apply, if_neg hk]
  · rw [if_neg h, if_neg h, List.map_append]
    rfl

/-- `jObjInsert` preserves distinctness of keys. -/
theorem fieldKeys_jObjInsert_nodup {fields : List (String × Json)}
    {k : String} {v : Json} (h : (fieldKeys fields).Nodup) :
    (fieldKeys (jObjInsert fields k v)).Nodup := by
  rw [fieldKeys_jObjInsert]
  by_cases ha : fields.any (fun kv => kv.1 == k)
  · rw [if_pos ha]
    exact h
  · rw [if_neg ha]
    have hk : k ∉ fieldKeys fields := by
      intro hm
      apply ha
      obtain ⟨kv, hkv, he⟩ := List.mem_map.mp hm
      exact List.any_eq_true.mpr ⟨kv, hkv, by simp [he]⟩
    rw [List.nodup_append]
    exact ⟨h, List.nodup_singleton _, fun a hga hb => by
      simp only [List.mem_singleton] at hb
      exact hk (hb ▸ hga)⟩

/-- Folding a key-distinctness-preserving step preserves distinctness. -/
theorem foldl_fieldKeys_nodup {α : Type}
    (f : List (String × Json) → α → List (String × Json))
    (hf : ∀ acc x, (fieldKeys acc).Nodup → (fieldKeys (f acc x)).Nodup) :
    ∀ (l : List α) (acc : List (String × Json)),
    (fieldKeys acc).Nodup → (fieldKeys (l.foldl f acc)).Nodup := by
  intro l
  induction l with
  | nil => intro acc h; exact h
  | cons x xs ih => intro acc h; exact ih _ (hf acc x h)

/-- Each delta step preserves distinctness of keys. -/
theorem deltaStep_nodup (base : Json) (ign : List String)
    (cmp : List (String × (Json → Json → Json)))
    (acc : List (String × Json)) (kv : String × Json)
    (h : (fieldKeys acc).Nodup) :
    (fieldKeys (deltaStep base ign cmp acc kv)).Nodup := by
  unfold deltaStep
  repeat' split
  all_goals first
    | exact h
    | exact fieldKeys_jObjInsert_nodup h

/-- The keys of a computed delta are pairwise distinct. -/
theorem delta_fields_nodup (a b : Json) (ign : List String)
    (cmp : List (String × (Json → Json → Json))) :
    (fieldKeys (delta a b ign cmp).fields).Nodup := by
  have h1 : (fieldKeys (a.fields.foldl (deltaStep b ign cmp) [])).Nodup :=
    foldl_fieldKeys_nodup _ (fun acc x h => deltaStep_nodup b ign cmp acc x h)
      a.fields [] (by simp [fieldKeys])
  have hdf : (delta a b ign cmp).fields =
      (if !(a.fields.foldl (deltaStep b ign cmp) []).isEmpty then
        (if !ign.contains "name" && jHas a "name" then
          jObjInsert (a.fields.foldl (deltaStep b ign cmp) []) "name" (jGet a "name")
        else a.fields.foldl (deltaStep b ign cmp) [])
      else a.fields.foldl (deltaStep b ign cmp) []) := rfl
  rw [hdf]
  split
  · split
    · exact fieldKeys_jObjInsert_nodup h1
    · exact h1
  · exact h1

/-- The per-instance-child delta has pairwise distinct keys. -/
theorem icDelta_fields_nodup (ctx : Ctx) (objChild cc : Json) :
    (fieldKeys (icDelta ctx objChild cc).fields).Nodup := by
  unfold icDelta
  exact delta_fields_nodup _ _ _ _

/-- `QJsonObject::contains` is key membership. -/
theorem jHas_iff_mem (j : Json) (k : String) :
    jHas j k = true ↔ k ∈ fieldKeys j.fields := by
  unfold jHas fieldKeys
  rw [List.any_eq_true]
  constructor
  · rintro ⟨kv, hm, he⟩
    exact List.mem_map.mpr ⟨kv, hm, eq_of_beq he⟩
  · intro hm
    obtain ⟨kv, hkv, he⟩ := List.mem_map.mp hm
    exact ⟨kv, hkv, by simp [he]⟩

/-- With distinct keys, the size test of the minimal-override branch holds
exactly when the delta is non-empty and every key is `relativeTransform`
or `size`. -/
theorem minimalDeltaCond_iff {d : Json} (hnd : (fieldKeys d.fields).Nodup) :
    minimalDeltaCond d = true ↔
      (d.fields ≠ [] ∧
        ∀ k ∈ fieldKeys d.fields, k = "relativeTransform" ∨ k = "size") := by
  have hKlen : (fieldKeys d.fields).length = d.fields.length :=
    List.length_map _ _
  have hrs : ("relativeTransform" : String) ≠ "size" := by decide
  unfold minimalDeltaCond
  simp only [Bool.and_eq_true, Bool.or_eq_true, decide_eq_true_eq, beq_iff_eq,
    jHas_iff_mem]
  constructor
  · rintro ⟨hle, ⟨⟨h2, hrT⟩, hsz⟩ | ⟨h1, hor⟩⟩
    · refine ⟨fun h0 => by rw [h0] at h2; simp at h2, ?_⟩
      obtain ⟨a, b, hK2⟩ := List.length_eq_two.mp (by omega : (fieldKeys d.fields).length = 2)
      rw [hK2] at hrT hsz
      intro k hk
      rw [hK2] at hk
      simp only [List.mem_cons, List.mem_singleton, List.not_mem_nil, or_false] at hrT hsz hk
      rcases hk with rfl | rfl <;> rcases hrT with h | h <;> rcases hsz with h' | h' <;>
        simp_all
    · refine ⟨fun h0 => by rw [h0] at h1; simp at h1, ?_⟩
      obtain ⟨a, hK1⟩ := List.length_eq_one.mp (by omega : (fieldKeys d.fields).length = 1)
      rw [hK1] at hor
      intro k hk
      rw [hK1] at hk
      simp only [List.mem_singleton] at hk hor
      subst hk
      rcases hor with h | h
      · exact Or.inl h.symm
      · exact Or.inr h.symm
  · rintro ⟨hne, hall⟩
    have hlen0 : d.fields.length ≠ 0 := fun h0 => hne (List.length_eq_zero.mp h0)
    have hle2 : (fieldKeys d.fields).length ≤ 2 := by
      have hc1 : (fieldKeys d.fields).toFinset.card = (fieldKeys d.fields).length :=
        List.toFinset_card_of_nodup hnd
      have hsubF : (fieldKeys d.fields).toFinset
          ⊆ (["relativeTransform", "size"] : List String).toFinset := by
        intro x hx
        rw [List.mem_toFinset] at hx ⊢
        rcases hall x hx with rfl | rfl <;> simp
      have hc2 := Finset.card_le_card hsubF
      have hc3 := List.toFinset_card_le (["relativeTransform", "size"] : List String)
      simp only [List.length_cons, List.length_nil] at hc3
      omega
    refine ⟨by omega, ?_⟩
    by_cases h2 : d.fields.length = 2
    · left
      obtain ⟨a, b, hK2⟩ := List.length_eq_two.mp (by omega : (fieldKeys d.fields).length = 2)
      have hab : a ≠ b := by
        have hnd2 := hnd
        rw [hK2] at hnd2
        simp [List.nodup_cons] at hnd2
        exact hnd2
      have hamem : a ∈ fieldKeys d.fields := by rw [hK2]; simp
      have hbmem : b ∈ fieldKeys d.fields := by rw [hK2]; simp
      have ha := hall a hamem
      have hb := hall b hbmem
      refine ⟨⟨h2, ?_⟩, ?_⟩ <;> rw [hK2] <;>
        rcases ha with rfl | rfl <;> rcases hb with h' | h' <;> simp_all
    · right
      have h1 : (fieldKeys d.fields).length = 1 := by omega
      obtain ⟨a, hK1⟩ := List.length_eq_one.mp h1
      have ha := hall a (by rw [hK1]; simp)
      refine ⟨by omega, ?_⟩
      rw [hK1]
      rcases ha with rfl | rfl
      · left; simp
      · right; simp

/--
C2.  For an instance child matched to its component child, with `d` the
computed delta: an empty delta emits nothing; a non-empty delta whose keys
all lie in \x7brelativeTransform, size\x7d takes the minimal-override
branch — the emitted output is exactly the bound scalar assignments
(delegate transform/x/y/width/height) on the parent's delegate slot, and is
independent of the child's parsed body (no full subtree is re-emitted);
a delta containing any other key emits exactly the full subtree assignment
keyed by the synthesized delegate identifier.
-/
theorem C2_minimal_override (ctx : Ctx) (objChildren : List Json)
    (keys : List String) (children : List (String × List String)) (ind : Nat)
    (cc : Json) (objChild d : Json)
    (hoc : objChild = objChildren.getD (icMatchIdx keys (jStr cc "id")) Json.null)
    (hd : d = icDelta ctx objChild cc) :
    (d.fields = [] → instanceChildOut ctx objChildren keys children ind cc = []) ∧
    (d.fields ≠ [] →
      (∀ k ∈ fieldKeys d.fields, k = "relativeTransform" ∨ k = "size") →
      instanceChildOut ctx objChildren keys children ind cc
          = icScalarOut objChild d (jStr cc "id") ind ∧
      ∀ children' : List (String × List String),
        instanceChildOut ctx objChildren keys children' ind cc
          = instanceChildOut ctx objChildren keys children ind cc) ∧
    ((∃ k ∈ fieldKeys d.fields, k ≠ "relativeTransform" ∧ k ≠ "size") →
      instanceChildOut ctx objChildren keys children ind cc
          = [tabs ind ++ delegateName (jStr cc "id") ++ ":"
              ++ chunksToString (omLookup children
                  (keys.getD (icMatchIdx keys (jStr cc "id")) ""))]) := by
  have hout : ∀ ch : List (String × List String),
      instanceChildOut ctx objChildren keys ch ind cc =
        (if d.fields.isEmpty then []
         else if minimalDeltaCond d then
           icScalarOut objChild d (jStr cc "id") ind
         else icFullOut ch keys (icMatchIdx keys (jStr cc "id")) (jStr cc "id") ind) := by
    intro ch
    rw [hd, hoc]
    rfl
  have hnd : (fieldKeys d.fields).Nodup := by
    rw [hd]
    exact icDelta_fields_nodup ctx objChild cc
  refine ⟨?_, ?_, ?_⟩
  · intro h0
    rw [hout]
    rw [if_pos (by rw [h0]; rfl)]
  · intro hne hall
    have hcond : minimalDeltaCond d = true :=
      (minimalDeltaCond_iff hnd).mpr ⟨hne, hall⟩
    have hscalar : ∀ ch : List (String × List String),
        instanceChildOut ctx objChildren keys ch ind cc
          = icScalarOut objChild d (jStr cc "id") ind := by
      intro ch
      rw [hout ch]
      rw [if_neg (fun h => hne (by simpa using h)), if_pos hcond]
    exact ⟨hscalar children, fun ch' => (hscalar ch').trans (hscalar children).symm⟩
  · rintro ⟨k, hkmem, hk1, hk2⟩
    have hne : d.fields ≠ [] := by
      intro h0
      rw [h0] at hkmem
      simp [fieldKeys] at hkmem
    have hcond : ¬ minimalDeltaCond d = true := by
      intro hc
      rcases ((minimalDeltaCond_iff hnd).mp hc).2 k hkmem with h | h
      · exact hk1 h
      · exact hk2 h
    rw [hout]
    rw [if_neg (fun h => hne (by simpa using h)), if_neg hcond]
    rfl

/-- Witness for C2 at concrete instance children: `c2ObjChild` differs from
the component child `c2CC` only in `relativeTransform` and takes the
scalar branch; `c2ObjChild2` adds a `fills` override and re-emits the full
subtree. -/
theorem C2_minimal_override_witness :
    (instanceChildOut ctx0 [c2ObjChild] (omKeys c2Children) c2Children 2 c2CC
        = icScalarOut c2ObjChild (icDelta ctx0 c2ObjChild c2CC) "1:5" 2) ∧
    (instanceChildOut ctx0 [c2ObjChild2] (omKeys c2Children) c2Children 2 c2CC
        = [tabs 2 ++ delegateName "1:5" ++ ":"
            ++ chunksToString (omLookup c2Children
                ((omKeys c2Children).getD
                  (icMatchIdx (omKeys c2Children) "1:5") ""))]) := by
  constructor
  · exact ((C2_minimal_override ctx0 [c2ObjChild] (omKeys c2Children) c2Children 2
      c2CC c2ObjChild (icDelta ctx0 c2ObjChild c2CC) rfl rfl).2.1
      (by intro h; exact absurd (congrArg List.length h) (by decide))
      (by decide)).1
  · exact (C2_minimal_override ctx0 [c2ObjChild2] (omKeys c2Children) c2Children 2
      c2CC c2ObjChild2 (icDelta ctx0 c2ObjChild2 c2CC) rfl rfl).2.2
      (by decide)

/--
C3, counterexample.  The claim says that in every non-INSIDE/OUTSIDE case
the normal strategy emits a *single* shape-path block.  For a node whose
first fill carries an image reference the normal strategy composes an
image mask whose solid geometry is itself a `ShapePath`: the image-filled,
centre-stroked rectangle `c3ImgObj` selects the normal strategy and its
output opens two `ShapePath` lines, not one.
-/
theorem C3_counterexample :
    (hasBorders c3ImgObj && jvEqStr (jGet c3ImgObj "strokeAlign") "INSIDE") = false ∧
    (hasBorders c3ImgObj && jvEqStr (jGet c3ImgObj "strokeAlign") "OUTSIDE") = false ∧
    imageFill c3ImgObj = some "ref1" ∧
    parseVector ctx0 c3ImgObj c3ImgObj 1 = .ok c3ImgOut ∧
    c3ImgOut.countP (linePredB "ShapePath \x7b") = 2 := by
  refine ⟨by decide, by decide, rfl, rfl, ?_⟩
  decide

/--
C3 (amended).  The inside strategy is selected exactly when the stroke
condition (a stroke entry present and `strokeWeight > 1`) holds together
with `strokeAlign = INSIDE`, the outside strategy with `OUTSIDE`, and any
other case falls to the normal strategy — as claimed.  The output-shape
half holds with one correction: when the normal strategy runs and the node
has *no image fill*, the output opens exactly one `ShapePath` line, which
carries `strokeColor`, `strokeWidth` and `fillColor` directly (under the
conditions that make those properties applicable); with an image fill the
normal strategy opens exactly *two* `ShapePath` lines.  The inside
strategy always emits at least two distinct `Shape` blocks and an
`OpacityMask` composition.
-/
theorem C3_stroke_strategies (ctx : Ctx) (parent obj : Json) (ind : Nat)
    (out : List String) :
    ((hasBorders obj && jvEqStr (jGet obj "strokeAlign") "INSIDE") = false →
     (hasBorders obj && jvEqStr (jGet obj "strokeAlign") "OUTSIDE") = false →
     parseVector ctx parent obj ind = .ok out →
     (imageFill obj = none →
        out.countP (linePredB "ShapePath \x7b") = 1 ∧
        (jvEqStr (jGet obj "type") "LINE" = false →
         (jHas obj "strokes" && !(jArr obj "strokes").isEmpty) = true →
         jHas obj "strokeWeight" = true →
         (jHas obj "fills" && !(jArr obj "fills").isEmpty) = true →
         (∃ a ∈ out, linePredB "strokeColor" a = true) ∧
         (∃ a ∈ out, linePredB "strokeWidth:" a = true) ∧
         (∃ a ∈ out, linePredB "fillColor:" a = true))) ∧
     (∀ img, imageFill obj = some img →
        out.countP (linePredB "ShapePath \x7b") = 2)) ∧
    ((hasBorders obj && jvEqStr (jGet obj "strokeAlign") "INSIDE") = true →
     parseVector ctx parent obj ind = .ok out →
     (∃ a ∈ out, ∃ b ∈ out, a ≠ b ∧
        linePredB "Shape \x7b" a = true ∧ linePredB "Shape \x7b" b = true) ∧
     (∃ a ∈ out, linePredB "OpacityMask \x7b" a = true)) := by
  constructor
  · intro hni hno hpv
    unfold parseVector at hpv
    rw [if_neg (by rw [hni]; exact Bool.false_ne_true),
        if_neg (by rw [hno]; exact Bool.false_ne_true)] at hpv
    unfold makeVectorNormal at hpv
    constructor
    · intro himg
      rw [himg] at hpv
      injection hpv with hout
      rw [← hout]
      refine ⟨countSP_normalFill ctx parent obj ind, ?_⟩
      intro hline hstrokes hweight hfills
      exact presence_normalFill ctx parent obj ind hline hstrokes hweight hfills
    · intro img himg
      rw [himg] at hpv
      exact countSP_normalImage ctx parent img obj ind out hpv
  · intro hsel hpv
    unfold parseVector at hpv
    rw [if_pos hsel] at hpv
    unfold makeVectorInside at hpv
    cases himg : imageFill obj with
    | none =>
      rw [himg] at hpv
      injection hpv with hout
      rw [← hout]
      exact inside_marks_plain ctx parent obj ind
    | some img =>
      rw [himg] at hpv
      exact inside_marks_image ctx parent img obj ind out hpv

/-- Witness for the amended C3: the centre-stroked rectangle takes the
normal strategy (one `ShapePath` carrying stroke and fill), the
inside-stroked one emits the two `Shape` blocks and the `OpacityMask`. -/
theorem C3_stroke_strategies_witness :
    (c3CenterOut.countP (linePredB "ShapePath \x7b") = 1 ∧
     (∃ a ∈ c3CenterOut, linePredB "strokeColor" a = true) ∧
     (∃ a ∈ c3CenterOut, linePredB "strokeWidth:" a = true) ∧
     (∃ a ∈ c3CenterOut, linePredB "fillColor:" a = true)) ∧
    ((∃ a ∈ c3InsideOut, ∃ b ∈ c3InsideOut, a ≠ b ∧
        linePredB "Shape \x7b" a = true ∧ linePredB "Shape \x7b" b = true) ∧
     (∃ a ∈ c3InsideOut, linePredB "OpacityMask \x7b" a = true)) := by
  have h1 := (C3_stroke_strategies ctx0 c3CenterObj c3CenterObj 1 c3CenterOut).1
    (by decide) (by decide) rfl
  have h2 := (C3_stroke_strategies ctx0 c3InsideObj c3InsideObj 1 c3InsideOut).2
    (by decide) rfl
  exact ⟨⟨(h1.1 rfl).1,
    ((h1.1 rfl).2 (by decide) (by decide) (by decide) (by decide))⟩, h2⟩

/--
C4, counterexample.  The claim says siblings *preceding* the mask child
are emitted outside the opacity-mask composite, unmasked.  In the code a
mask "may not be the first, but it masks the rest": after the loop, every
entry of `childrenItems` — including those parsed *before* the mask — is
flushed into the still-open `source` item of the composite, and the map
collapses to the single `maskedItem` entry.  On `[A, mask, B]` the
preceding sibling `A` ends up inside the composite (its chunks follow the
mask header), and no separate entry for it remains.
-/
theorem C4_counterexample :
    parseChildrenItems ctx0 4 c4Obj 1 []
      = .ok ([("maskedItem",
          maskChunks c4M 1 c4MOut ++ omValues c4PreItems ++ omValues c4PostItems
            ++ [tabs 2 ++ "\x7d\n", tabs 1 ++ "\x7d\n"])], []) ∧
    omValues c4PreItems ≠ [] := by
  constructor
  · rfl
  · intro h
    exact absurd (congrArg List.length h) (by decide)

/--
C4 (amended).  When the children list splits as `pre ++ mask :: post`
(the loop over `pre` sees no mask, the loop over `post` adds no further
mask chunks), `parseChildrenItems` returns the single `maskedItem` entry:
the opacity-mask composition header with the mask child's geometry as mask
source, followed — inside the still-open masked-content item — by the
parsed bodies of *all* other siblings, the preceding ones first, then the
closing braces.  Preceding siblings are captured into the composite too;
only the mask child itself is excluded from the masked content.
-/
theorem C4_mask_captures_all (rec : ParseFn) (obj : Json) (ind : Nat)
    (ids ids1 ids2 ids3 : List String) (pre post : List Json) (m : Json)
    (mOut : List String) (preItems postItems : List (String × List String))
    (hhc : jHas obj "children" = true)
    (hch : jArr obj "children" = pre ++ m :: post)
    (hmask : (jHas m "isMask" && jBool m "isMask") = true)
    (h1 : pciLoop rec obj ind pre false [] [] ids = .ok (false, [], preItems, ids1))
    (h2 : rec obj m (ind + 2) ids1 = .ok (mOut, ids2))
    (h3 : pciLoop rec obj ind post true (maskChunks m ind mOut) preItems ids2
          = .ok (true, maskChunks m ind mOut, preItems ++ postItems, ids3)) :
    parseChildrenItemsF rec obj ind ids
      = .ok ([("maskedItem",
          maskChunks m ind mOut ++ omValues preItems ++ omValues postItems
            ++ [tabs (ind + 1) ++ "\x7d\n", tabs ind ++ "\x7d\n"])], ids3) := by
  have hmstep : pciLoop rec obj ind (m :: post) false [] preItems ids1
      = .ok (true, maskChunks m ind mOut, preItems ++ postItems, ids3) := by
    show (if jHas m "isMask" && jBool m "isMask" then _ else _) = _
    rw [if_pos hmask, h2]
    show pciLoop rec obj ind post true ([] ++ maskChunks m ind mOut) preItems ids2 = _
    rw [List.nil_append, h3]
  have hloop : pciLoop rec obj ind (jArr obj "children") false [] [] ids
      = .ok (true, maskChunks m ind mOut, preItems ++ postItems, ids3) := by
    rw [hch, pciLoop_append, h1]
    exact hmstep
  have hpc : parseChildrenItemsF rec obj ind ids =
      (if jHas obj "children" then
        (pciLoop rec obj ind (jArr obj "children") false [] [] ids).bind (fun s =>
          if s.1 then
            Except.ok ([("maskedItem", s.2.1 ++ omValues s.2.2.1
              ++ [tabs (ind + 1) ++ "\x7d\n", tabs ind ++ "\x7d\n"])], s.2.2.2)
          else Except.ok (s.2.2.1, s.2.2.2))
      else Except.ok ([], ids)) := rfl
  rw [hpc, if_pos hhc, hloop]
  show Except.ok ([("maskedItem", maskChunks m ind mOut
      ++ omValues (preItems ++ postItems)
      ++ [tabs (ind + 1) ++ "\x7d\n", tabs ind ++ "\x7d\n"])], ids3) = _
  rw [omValues_append]
  simp [List.append_assoc]

/-- Witness for the amended C4 at the children `[A, mask, B]`: the
intermediate fixtures are computed from the embedding, so every hypothesis
holds by `rfl`. -/
theorem C4_mask_captures_all_witness :
    parseChildrenItemsF (parse ctx0 4) c4Obj 1 []
      = .ok ([("maskedItem",
          maskChunks c4M 1 c4MOut ++ omValues c4PreItems ++ omValues c4PostItems
            ++ [tabs 2 ++ "\x7d\n", tabs 1 ++ "\x7d\n"])], []) :=
  C4_mask_captures_all (parse ctx0 4) c4Obj 1 [] [] [] [] [c4A] [c4B] c4M
    c4MOut c4PreItems c4PostItems rfl rfl rfl rfl rfl rfl

/--
C5, counterexample.  The claim quantifies over *every* boolean-operation
node with an unsupported operation string, but `parseBooleanOperation`
checks the two-children guard before looking at the operation: the node
`c5Bad` (operation `"FOO"`, no children) raises the transpile failure
instead of returning empty output.
-/
theorem C5_counterexample :
    parseBooleanOperation ctxBB 1 c5Bad c5Bad 1 [] = Except.error errBooleanTwo := by
  rfl

/--
C5 (amended).  With break-booleans enabled, a boolean-operation node with
*at least two children* whose operation string is none of UNION, SUBTRACT,
INTERSECT, EXCLUDE yields empty output with no exception and no issue; a
SLICE node always yields empty output with no exception and no issue.
(The original claim also covered boolean nodes with fewer than two
children, where the guard raises first — see `C5_counterexample`.)
-/
theorem C5_soft_skip_amended :
    (∀ (ctx : Ctx) (fuel : Nat) (parent obj : Json) (ind : Nat) (ids : List String),
      hasFlag ctx flagBreakBooleans = true →
      2 ≤ (jArr obj "children").length →
      jStr obj "booleanOperation" ≠ "UNION" →
      jStr obj "booleanOperation" ≠ "SUBTRACT" →
      jStr obj "booleanOperation" ≠ "INTERSECT" →
      jStr obj "booleanOperation" ≠ "EXCLUDE" →
      parseBooleanOperation ctx fuel parent obj ind ids = Except.ok ([], ids)) ∧
    (∀ (obj : Json) (ind : Nat), parseSlice obj ind = ([] : List String)) := by
  refine ⟨?_, fun _ _ => rfl⟩
  intro ctx fuel parent obj ind ids hflag hlen hU hS hI hE
  have hguard : ¬ (jArr obj "children").length < 2 := Nat.not_lt.mpr hlen
  simp [parseBooleanOperation, parseBooleanOperationF, hflag, hguard,
    booleanOpBodyF, hU, hS, hI, hE]

/-- Witness for the amended C5 at the concrete node `c5Ok` (operation
`"FOO"`, two children) under `ctxBB`. -/
theorem C5_soft_skip_amended_witness :
    hasFlag ctxBB flagBreakBooleans = true ∧
    2 ≤ (jArr c5Ok "children").length ∧
    parseBooleanOperation ctxBB 1 c5Ok c5Ok 1 [] = Except.ok ([], []) ∧
    parseSlice c5Ok 1 = ([] : List String) :=
  ⟨by decide, by decide,
   C5_soft_skip_amended.1 ctxBB 1 c5Ok c5Ok 1 [] (by decide) (by decide)
     (by decide) (by decide) (by decide) (by decide),
   C5_soft_skip_amended.2 c5Ok 1⟩

/--
C6.  Without the break-booleans flag a boolean-operation node is handled by
the plain vector pipeline (`parseVector`); with the flag set, fewer than
two children raise the transpile failure "Boolean needs at least two
elemetns" — reported fatal by the `element` entry point — while two or
more children pass the guard into the compositor body (so that error is
not raised for that reason).
-/
theorem C6_boolean_children_guard :
    (∀ (ctx : Ctx) (fuel : Nat) (parent obj : Json) (ind : Nat) (ids : List String),
      hasFlag ctx flagBreakBooleans = false →
      parseBooleanOperation ctx fuel parent obj ind ids
        = (parseVector ctx parent obj ind).map (fun o => (o, ids))) ∧
    (∀ (ctx : Ctx) (fuel : Nat) (parent obj : Json) (ind : Nat) (ids : List String),
      hasFlag ctx flagBreakBooleans = true →
      (jArr obj "children").length < 2 →
      parseBooleanOperation ctx fuel parent obj ind ids = Except.error errBooleanTwo) ∧
    (∀ (ctx : Ctx) (fuel : Nat) (parent obj : Json) (ind : Nat) (ids : List String),
      hasFlag ctx flagBreakBooleans = true →
      2 ≤ (jArr obj "children").length →
      parseBooleanOperation ctx fuel parent obj ind ids
        = booleanOpBodyF (parse ctx fuel) ctx parent obj ind ids) ∧
    (∀ (ctx : Ctx) (obj : Json),
      hasFlag ctx flagBreakBooleans = true →
      jStr obj "type" = "BOOLEAN_OPERATION" →
      isRendering ctx obj = false →
      (jArr obj "children").length < 2 →
      element ctx obj = ({}, [(excMsg errBooleanTwo, true)])) := by
  refine ⟨?_, ?_, ?_, ?_⟩
  · intro ctx fuel parent obj ind ids hflag
    simp [parseBooleanOperation, parseBooleanOperationF, hflag]
  · intro ctx fuel parent obj ind ids hflag hlt
    simp [parseBooleanOperation, parseBooleanOperationF, hflag, hlt]
  · intro ctx fuel parent obj ind ids hflag hge
    have hguard : ¬ (jArr obj "children").length < 2 := Nat.not_lt.mpr hge
    simp [parseBooleanOperation, parseBooleanOperationF, hflag, hguard]
  · intro ctx obj hflag htype hrend hlt
    have hp : parse ctx (jsonSize obj + 1) obj obj 1 [] = Except.error errBooleanTwo := by
      rw [parse_succ]
      simp [parseBody, htype, hrend, parseBooleanOperationF, hflag, hlt]
      intro hmem
      exact absurd (show "BOOLEAN_OPERATION" ∈ supportedTypes by decide) hmem
    unfold element getElement
    rw [hp]

/-- Witness for C6 at the concrete boolean node `c6Obj` (one child). -/
theorem C6_boolean_children_guard_witness :
    parseBooleanOperation ctx0 1 c6Obj c6Obj 1 []
      = (parseVector ctx0 c6Obj c6Obj 1).map (fun o => (o, [])) ∧
    parseBooleanOperation ctxBB 1 c6Obj c6Obj 1 [] = Except.error errBooleanTwo ∧
    parseBooleanOperation ctxBB 1 c5Ok c5Ok 1 []
      = booleanOpBodyF (parse ctxBB 1) ctxBB c5Ok c5Ok 1 [] ∧
    element ctxBB c6Obj = ({}, [(excMsg errBooleanTwo, true)]) :=
  ⟨C6_boolean_children_guard.1 ctx0 1 c6Obj c6Obj 1 [] (by decide),
   C6_boolean_children_guard.2.1 ctxBB 1 c6Obj c6Obj 1 [] (by decide) (by decide),
   C6_boolean_children_guard.2.2.1 ctxBB 1 c5Ok c5Ok 1 [] (by decide) (by decide),
   C6_boolean_children_guard.2.2.2 ctxBB c6Obj (by decide) (by decide) (by decide) (by decide)⟩

end Figma
